import Mathlib

/-!
# Remote heating controller (`main/remote_heating_ctrl.c`)

A shallow embedding of the heating control task `http_test_task_mod`, of the
HTTP helper functions it calls and of the helper `roundint8f`, followed by the
properties established about them.

Conventions of the embedding

* C strings are lists of characters; a pointer into a string is the suffix that
  starts at the pointed character; a byte buffer is the list of its bytes and
  the string it holds is the part before the first NUL (`cstr`).
* `uint8_t` values are naturals or integers reduced modulo `2 ^ 8`, `int8_t`
  values are integers wrapped into `[-128, 127]`.
* A `float` temperature is the rational number it denotes; the single addition
  in `roundint8f` is a binary32 addition, its exact sum rounded to the nearest
  binary32 value with ties to even (`round32`).
* `int` and `size_t` are 32 bits wide, as on the target; the cast `(int)` of a
  `size_t` wraps into `[-2 ^ 31, 2 ^ 31 - 1]` (`toInt32`).
* The HTTP transport (`esp_http_client_*`) is a parameter: a device state `σ`
  with a handler for client initialisation and one for performing a request.
  Every call of one of the five `http_rest_with_url_*` functions is recorded in
  a log of `Event`s.
* The `CONFIG_*` macros come from the build configuration and are parameters.
-/

namespace RemoteHeatingCtrl

/-! ## Data model -/

/-- The enumeration `tHeatgCtrlSt`. -/
inductive tHeatgCtrlSt where
  | HEATG_CTRL_ST_INIT
  | HEATG_CTRL_ST_OFF
  | HEATG_CTRL_ST_IDLE
  | HEATG_CTRL_ST_HEATING
  | HEATG_CTRL_ST_DEBUG
  | HEATG_CTRL_ST_ERROR
  deriving DecidableEq

open tHeatgCtrlSt

/-- The build-time configuration macros read by `http_test_task_mod`. -/
structure Config where
  CONFIG_ENA_REMOTE_CTRL_DEBUG : Int
  CONFIG_ENA_REMOTE_CTRL : Int
  CONFIG_T_THRES_LOWR : Int
  CONFIG_T_THRES_UPPR : Int

/-- The macro `MAX_HTTP_OUTPUT_BUFFER`. -/
def MAX_HTTP_OUTPUT_BUFFER : Nat := 2048

/-! ## C conversions and `roundint8f` -/

/-- Conversion of an integer to `int8_t`: wrap into `[-128, 127]`. -/
def toInt8 (z : Int) : Int := (z + 128) % 256 - 128

/-- Conversion of an integer to `uint8_t`: reduce modulo `2 ^ 8`. -/
def toUInt8 (z : Int) : Int := z % 256

/-- Conversion of an integer to the 32-bit `int` of the target: wrap into
`[-2 ^ 31, 2 ^ 31 - 1]`. On a `size_t` this is the cast `(int)`. -/
def toInt32 (z : Int) : Int := (z + 2147483648) % 4294967296 - 2147483648

/-- Conversion of a real value to an integer type truncates toward zero. -/
def truncToZero (y : ℚ) : Int := if 0 ≤ y then ⌊y⌋ else ⌈y⌉

/-- The exponent of the binade that holds a rational in binary32: the floor of
the base-two logarithm of its magnitude, and `-126` throughout the subnormal
range (and at zero). -/
def binade32 (q : ℚ) : Int := max (Int.log 2 |q|) (-126)

/-- Rounding of a rational to the nearest integer, a tie going to the even
neighbour. -/
def roundHalfEven (x : ℚ) : Int :=
  if x - ⌊x⌋ < 1 / 2 then ⌊x⌋
  else if 1 / 2 < x - ⌊x⌋ then ⌊x⌋ + 1
  else if ⌊x⌋ % 2 = 0 then ⌊x⌋ else ⌊x⌋ + 1

/-- The result of a binary32 operation whose exact result is `q`: the nearest
multiple of the unit in the last place of the binade of `q` (a significand of
24 bits), ties to even, which is the rounding mode the program runs in. The
overflow to infinity above the largest finite value is not represented; the
sums formed by `roundint8f` on a finite `float` stay below it. -/
def round32 (q : ℚ) : ℚ :=
  roundHalfEven (q / 2 ^ (binade32 q - 23)) * 2 ^ (binade32 q - 23)

/-- The helper `roundint8f`:
`return (int8_t)(value + (value >= 0 ? 0.5f : -0.5f));`.
The addition is a binary32 addition, so its exact sum is rounded by `round32`
before the truncation. A truncated value outside `[-128, 127]` is wrapped, as
the target's float-to-int conversion followed by the 8-bit sign extension
does. -/
def roundint8f (value : ℚ) : Int :=
  toInt8 (truncToZero (round32 (value + (if value ≥ 0 then (1 / 2 : ℚ) else -(1 / 2 : ℚ)))))

/-! ## C string functions -/

/-- The NUL character. -/
def NUL : Char := Char.ofNat 0

/-- The C string held by a byte buffer: the bytes before the first NUL. -/
def cstr (buf : List Char) : List Char := buf.takeWhile (fun c => c != NUL)

/-- Whether `needle` occurs at the very start of `s`. -/
def startsWith : List Char → List Char → Bool
  | _, [] => true
  | [], _ :: _ => false
  | c :: s, d :: needle => c == d && startsWith s needle

/-- The C function `strstr`: the suffix of `hay` at the first occurrence of
`needle`, `none` for a null pointer. -/
def strstr (needle : List Char) : List Char → Option (List Char)
  | [] => if startsWith [] needle then some [] else none
  | c :: hay => if startsWith (c :: hay) needle then some (c :: hay) else strstr needle hay

/-- The C function `strchr` for a character other than NUL: the suffix of `s`
at the first occurrence of `ch`. -/
def strchr (ch : Char) : List Char → Option (List Char)
  | [] => none
  | c :: s => if c == ch then some (c :: s) else strchr ch s

/-- The C function `strncpy(dst, src, n)`: exactly `n` bytes of `dst` are
written, the characters of the string `src` followed by NUL padding. -/
def strncpy (dst src : List Char) (n : Nat) : List Char :=
  let s := (cstr src).take n
  s ++ List.replicate (n - s.length) NUL ++ dst.drop n

/-- The assignment `buf[i] = c`. -/
def setByte (buf : List Char) (i : Nat) (c : Char) : List Char :=
  buf.take i ++ c :: buf.drop (i + 1)

/-- The C predicate `isspace` in the C locale. -/
def isspace (c : Char) : Bool :=
  c == ' ' || c == '\t' || c == '\n' || c == Char.ofNat 11 || c == Char.ofNat 12 || c == '\r'

/-- The C predicate `isdigit`. -/
def isdigit (c : Char) : Bool := decide ('0' ≤ c) && decide (c ≤ '9')

/-- The value of a run of decimal digits. -/
def digitsValue (ds : List Char) : Nat :=
  ds.foldl (fun acc c => 10 * acc + (c.toNat - '0'.toNat)) 0

/-- The largest `unsigned long` of the 32-bit target. -/
def ULONG_MAX : Nat := 2 ^ 32 - 1

/-- The C function `strtoul` in base 10 on a digit run with its sign: the value
saturates at `ULONG_MAX` and a minus sign negates modulo `2 ^ 32`. -/
def strtoul10 (neg : Bool) (ds : List Char) : Nat :=
  let v := digitsValue ds
  if v > ULONG_MAX then ULONG_MAX
  else if neg then (2 ^ 32 - v) % 2 ^ 32
  else v

/-- The call `sscanf(s, "%hhu", &tSet)` of the C library: white space is
skipped, an optional sign and a non-empty run of digits are read and the value
is stored as an `unsigned char`; with no digits nothing is stored and `tSet`
keeps its value. -/
def sscanf_hhu (s : List Char) (tSet : Nat) : Nat :=
  let s1 := s.dropWhile isspace
  let neg := s1.head? == some '-'
  let s2 := if s1.head? == some '-' || s1.head? == some '+' then s1.drop 1 else s1
  let ds := s2.takeWhile isdigit
  if ds.isEmpty then tSet else strtoul10 neg ds % 256

/-- The decimal digits printed by the `printf` conversion `%u`. -/
def printf_u (v : Nat) : List Char := Nat.toDigits 10 v

/-- The call `snprintf(post_data, size, ...)`: the formatted text cut to
`size - 1` characters. -/
def snprintf (size : Nat) (text : List Char) : List Char := text.take (size - 1)

/-! ## The HTTP transport and the call log -/

/-- The HTTP methods used by the controller. -/
inductive Method where
  | GET
  | POST
  deriving DecidableEq

/-- One request handed to `esp_http_client_perform`: method, `.path` of the
client configuration and the post field. -/
structure Request where
  method : Method
  path : List Char
  post_data : List Char

/-- The excluded HTTP client library acting on a device state `σ`.
`client_init` tells whether `esp_http_client_init` returns a client (`false`
is the null handle); `perform` is `esp_http_client_perform` together with the
event handler and yields the body bytes offered to the event handler, an empty
list when the request fails before any data arrives. -/
structure Transport (σ : Type) where
  client_init : σ → Bool × σ
  perform : Request → σ → List Char × σ

/-- One call of an `http_rest_with_url_*` function made by the control task. -/
inductive Event where
  | get_op_mod
  | get_set_temp
  | get_ctrl_sts
  | post_op_mode (opModeReq : List Char)
  | post_set_temp (temperature_value : Nat)
  deriving DecidableEq

/-- The device state together with the log of calls made so far. -/
structure Net (σ : Type) where
  dev : σ
  log : List Event

/-- The content of `local_response_buffer` after a request: the event handler
copies at most `MAX_HTTP_OUTPUT_BUFFER` bytes into the zeroed buffer, which is
then read as a C string. -/
def local_response_buffer (bytes : List Char) : List Char :=
  cstr (bytes.take MAX_HTTP_OUTPUT_BUFFER)

/-! ## The `http_rest_with_url_*` functions -/

/-- The extraction of the `"value"` field in `http_rest_with_url_get_set_temp`
(from `strstr` to the end of the `if`), starting from `tSet = 0`. -/
def parse_set_temp (buf : List Char) : Nat :=
  let tSet := 0
  match strstr "\"value\"".toList buf with
  | some value_str =>
    match strchr ':' value_str with
    | some value_str => sscanf_hhu (value_str.drop 1) tSet
    | none => tSet
  | none => tSet

/-- The function `http_rest_with_url_get_set_temp`. -/
def http_rest_with_url_get_set_temp {σ : Type} (T : Transport σ) (n : Net σ) : Nat × Net σ :=
  let log := n.log ++ [Event.get_set_temp]
  match T.client_init n.dev with
  | (false, d) => (99, ⟨d, log⟩)
  | (true, d) =>
    let r := T.perform ⟨Method.GET, "/set-temperature".toList, "\x7b\"type\": \"Normal\"\x7d".toList⟩ d
    (parse_set_temp (local_response_buffer r.1), ⟨r.2, log⟩)

/-- The extraction of the `"mode"` field in `http_rest_with_url_get_op_mod`
(from `strstr` to the end of the `if`): the new content of `opMod`. The length
test is `len < (int)opMod_size`, a comparison of two `int`; `len` is a distance
inside the response buffer and is at most `MAX_HTTP_OUTPUT_BUFFER`. -/
def parse_op_mod (buf opMod : List Char) (opMod_size : Nat) : List Char :=
  match strstr "\"mode\"".toList buf with
  | some mode_str =>
    match strchr ':' mode_str with
    | some mode_str =>
      match strchr '"' mode_str with
      | some mode_str =>
        let mode_str := mode_str.drop 1
        match strchr '"' mode_str with
        | some end_quote =>
          let len := mode_str.length - end_quote.length
          if (len : Int) < toInt32 opMod_size then setByte (strncpy opMod mode_str len) len NUL
          else opMod
        | none => opMod
      | none => opMod
    | none => opMod
  | none => opMod

/-- The function `http_rest_with_url_get_op_mod`; the result is the new content
of the caller's buffer `opMod`. -/
def http_rest_with_url_get_op_mod {σ : Type} (T : Transport σ) (opMod : List Char)
    (opMod_size : Nat) (n : Net σ) : List Char × Net σ :=
  let log := n.log ++ [Event.get_op_mod]
  match T.client_init n.dev with
  | (false, d) => (setByte opMod 0 NUL, ⟨d, log⟩)
  | (true, d) =>
    let r := T.perform ⟨Method.GET, "/operation-mode".toList, []⟩ d
    (parse_op_mod (local_response_buffer r.1) opMod opMod_size, ⟨r.2, log⟩)

/-- The function `http_rest_with_url_get_ctrl_sts`: the body is only logged. -/
def http_rest_with_url_get_ctrl_sts {σ : Type} (T : Transport σ) (n : Net σ) : Net σ :=
  let log := n.log ++ [Event.get_ctrl_sts]
  match T.client_init n.dev with
  | (false, d) => ⟨d, log⟩
  | (true, d) => ⟨(T.perform ⟨Method.GET, "/control-status".toList, []⟩ d).2, log⟩

/-- The body built by `http_rest_with_url_post_op_mode`:
`snprintf(post_data, sizeof(post_data), "{\"mode\":\"%s\"}", opModeReq)`. -/
def post_op_mode_data (opModeReq : List Char) : List Char :=
  snprintf 128 ("\x7b\"mode\":\"".toList ++ cstr opModeReq ++ "\"\x7d".toList)

/-- The function `http_rest_with_url_post_op_mode`. -/
def http_rest_with_url_post_op_mode {σ : Type} (T : Transport σ) (opModeReq : List Char)
    (n : Net σ) : Net σ :=
  let log := n.log ++ [Event.post_op_mode opModeReq]
  match T.client_init n.dev with
  | (false, d) => ⟨d, log⟩
  | (true, d) =>
    ⟨(T.perform ⟨Method.POST, "/operation-mode".toList, post_op_mode_data opModeReq⟩ d).2, log⟩

/-- The body built by `http_rest_with_url_post_set_temp`:
`snprintf(post_data, sizeof(post_data), "{\"type\":\"Normal\",\"value\":%u}", temperature_value)`. -/
def post_set_temp_data (temperature_value : Nat) : List Char :=
  snprintf 128 ("\x7b\"type\":\"Normal\",\"value\":".toList ++ printf_u temperature_value
    ++ "\x7d".toList)

/-- The function `http_rest_with_url_post_set_temp`. -/
def http_rest_with_url_post_set_temp {σ : Type} (T : Transport σ) (temperature_value : Nat)
    (n : Net σ) : Net σ :=
  let log := n.log ++ [Event.post_set_temp temperature_value]
  match T.client_init n.dev with
  | (false, d) => ⟨d, log⟩
  | (true, d) =>
    ⟨(T.perform ⟨Method.POST, "/set-temperature".toList, post_set_temp_data temperature_value⟩ d).2,
      log⟩

/-! ## The control task `http_test_task_mod` -/

/-- The variables of `http_test_task_mod` that live across iterations of its
loop: the two statics `heatgCtrlSt` and `opMod` and the local `tSet`. -/
structure TaskState where
  heatgCtrlSt : tHeatgCtrlSt
  opMod : List Char
  tSet : Nat

/-- The state of the task when it enters its loop: `heatgCtrlSt` is
`HEATG_CTRL_ST_INIT`, the 64 bytes of `opMod` are cleared, `tSet` is `0`. -/
def http_test_task_mod_init : TaskState :=
  ⟨HEATG_CTRL_ST_INIT, List.replicate 64 NUL, 0⟩

/-- Modelled from the spec: the queue functions of the operating system are not
part of the sources; the mailbox `g_temp_queue` is a single optional slot. This
is the call `xQueueCreate(1, sizeof(float))`: the queue starts empty. -/
def xQueueCreate : Option ℚ := none

/-- Modelled from the spec: the queue functions of the operating system are not
part of the sources. This is the call `xQueueOverwrite(g_temp_queue, &roomTemp)`
on the queue of length one: it reports success and leaves the new item as the
only content, whatever the queue held. -/
def xQueueOverwrite (_queue : Option ℚ) (roomTemp : ℚ) : Bool × Option ℚ := (true, some roomTemp)

/-- Modelled from the spec: the queue functions of the operating system are not
part of the sources. This is the call `xQueueReceive(g_temp_queue, &roomTemp, 0)`
on the queue of length one: the item received, if any, and the queue left
behind, which is empty. -/
def xQueueReceive (queue : Option ℚ) : Option ℚ × Option ℚ := (queue, none)

/-- The value of `tSnsr` for one iteration: `0u` unless a sample is received,
else the `int8_t` result of `roundint8f` stored into the `uint8_t`. -/
def tSnsr_of (received : Option ℚ) : Int :=
  match received with
  | some roomTemp => toUInt8 (roundint8f roomTemp)
  | none => 0

/-- What one iteration of the loop leaves behind. -/
structure CycleOut (σ : Type) where
  task : TaskState
  queue : Option ℚ
  net : Net σ

/-- One iteration of the `while (1)` loop of `http_test_task_mod`, up to the
final `vTaskDelay`. The log of the result holds the calls of this iteration.
`roomTemp` and `tSnsr` are declared inside the loop and start every iteration
at zero. The variable `heatgCtrlSt` only ever holds one of the six enumerators,
so the `default` label of the `switch` has no counterpart here. -/
def http_test_task_mod_cycle {σ : Type} (T : Transport σ) (cfg : Config) (s : TaskState)
    (queue : Option ℚ) (dev : σ) : CycleOut σ :=
  let rx := xQueueReceive queue
  let tSnsr := tSnsr_of rx.1
  let n : Net σ := ⟨dev, []⟩
  match s.heatgCtrlSt with
  | HEATG_CTRL_ST_INIT =>
    if 0 = cfg.CONFIG_ENA_REMOTE_CTRL_DEBUG then
      ⟨{ s with heatgCtrlSt := HEATG_CTRL_ST_OFF }, rx.2, n⟩
    else
      ⟨{ s with heatgCtrlSt := HEATG_CTRL_ST_DEBUG }, rx.2, n⟩
  | HEATG_CTRL_ST_OFF =>
    let g := http_rest_with_url_get_op_mod T s.opMod 64 n
    let n := if cstr g.1 ≠ "Weekly program".toList then
        http_rest_with_url_post_op_mode T "Weekly program".toList g.2
      else g.2
    let st := if 1 = cfg.CONFIG_ENA_REMOTE_CTRL then HEATG_CTRL_ST_IDLE else HEATG_CTRL_ST_OFF
    ⟨⟨st, g.1, s.tSet⟩, rx.2, n⟩
  | HEATG_CTRL_ST_IDLE =>
    let g := http_rest_with_url_get_op_mod T s.opMod 64 n
    let n := if cstr g.1 ≠ "Control individually".toList then
        http_rest_with_url_post_op_mode T "Control individually".toList g.2
      else g.2
    let t := http_rest_with_url_get_set_temp T n
    let n := if t.1 ≠ 15 then http_rest_with_url_post_set_temp T 15 t.2 else t.2
    let st :=
      if 0 = cfg.CONFIG_ENA_REMOTE_CTRL then HEATG_CTRL_ST_OFF
      else if tSnsr < cfg.CONFIG_T_THRES_LOWR then HEATG_CTRL_ST_HEATING
      else HEATG_CTRL_ST_IDLE
    ⟨⟨st, g.1, t.1⟩, rx.2, n⟩
  | HEATG_CTRL_ST_HEATING =>
    let g := http_rest_with_url_get_op_mod T s.opMod 64 n
    let n := if cstr g.1 ≠ "Control individually".toList then
        http_rest_with_url_post_op_mode T "Control individually".toList g.2
      else g.2
    let t := http_rest_with_url_get_set_temp T n
    let n := if t.1 ≠ 25 then http_rest_with_url_post_set_temp T 25 t.2 else t.2
    let st :=
      if 0 = cfg.CONFIG_ENA_REMOTE_CTRL then HEATG_CTRL_ST_OFF
      else if tSnsr > cfg.CONFIG_T_THRES_UPPR then HEATG_CTRL_ST_IDLE
      else HEATG_CTRL_ST_HEATING
    ⟨⟨st, g.1, t.1⟩, rx.2, n⟩
  | HEATG_CTRL_ST_DEBUG =>
    let n := http_rest_with_url_get_ctrl_sts T n
    let n := http_rest_with_url_post_op_mode T "Control individually".toList n
    let n := http_rest_with_url_get_ctrl_sts T n
    let n := http_rest_with_url_post_set_temp T 25 n
    let n := http_rest_with_url_get_ctrl_sts T n
    ⟨s, rx.2, n⟩
  | HEATG_CTRL_ST_ERROR => ⟨s, rx.2, n⟩

/-- A run of the control task: the iterations of its loop one after the other,
started from the task state `s` and the device state `dev`. The list holds, for
each iteration, what the mailbox contains when the iteration starts (the
producer may or may not have published since the last one). -/
def http_test_task_mod_run {σ : Type} (T : Transport σ) (cfg : Config) :
    TaskState → σ → List (Option ℚ) → TaskState × σ
  | s, dev, [] => (s, dev)
  | s, dev, queue :: rest =>
    http_test_task_mod_run T cfg (http_test_task_mod_cycle T cfg s queue dev).task
      (http_test_task_mod_cycle T cfg s queue dev).net.dev rest

/-! ## The sampling task `adc_read` -/

/-- One entry of the array `parsed_data` filled by the ADC driver. -/
structure adc_continuous_data_t where
  unit : Nat
  channel : Nat
  raw_data : Nat
  valid : Bool

/-- What the excluded ADC driver returns in one pass of the inner loop of
`adc_read`: `adc_continuous_read` times out, fails otherwise, or succeeds, and
then `adc_continuous_parse_data` fails or fills `parsed_data`. -/
inductive AdcBatch where
  | timeout
  | read_failed
  | parse_failed
  | parsed (parsed_data : List adc_continuous_data_t)

/-- One pass of the inner `while (1)` loop of `adc_read`: the content of the
mailbox after the pass. The constant `0.1f` is read as one tenth and the
product is exact. With no parsed sample the index `num_parsed_samples - 1` is
outside the array and the pass has no defined result (`none`). -/
def adc_read_pass (batch : AdcBatch) (queue : Option ℚ) : Option (Option ℚ) :=
  let roomTemp : ℚ := 0
  match batch with
  | AdcBatch.parsed parsed_data =>
    match parsed_data.getLast? with
    | some last =>
      let roomTemp := if last.valid then (last.raw_data : ℚ) * (1 / 10 : ℚ) else roomTemp
      some (xQueueOverwrite queue roomTemp).2
    | none => none
  | AdcBatch.parse_failed => some (xQueueOverwrite queue roomTemp).2
  | AdcBatch.timeout => some queue
  | AdcBatch.read_failed => some queue

/-! ## A remote thermostat

The device used to exercise the controller: it stores an operation mode and a
setpoint, answers the two GET endpoints with the bodies of the interface
description and stores what is POSTed, reading the posted field with the same
key, colon and value scan the controller uses. -/

/-- The state of the remote thermostat. -/
structure Remote where
  mode : List Char
  setpoint : Nat

/-- The body answered to `GET /operation-mode`. -/
def mode_body (mode : List Char) : List Char :=
  "\x7b\"mode\": \"".toList ++ mode ++ "\"\x7d".toList

/-- The body answered to `GET /set-temperature`. -/
def value_body (setpoint : Nat) : List Char :=
  "\x7b\"value\": ".toList ++ printf_u setpoint ++ "\x7d".toList

/-- The answer of the remote thermostat to one request. -/
def Remote.perform (req : Request) (r : Remote) : List Char × Remote :=
  match req.method with
  | Method.GET =>
    if req.path = "/operation-mode".toList then
      (mode_body r.mode, r)
    else if req.path = "/set-temperature".toList then
      (value_body r.setpoint, r)
    else ([], r)
  | Method.POST =>
    if req.path = "/operation-mode".toList then
      ([], { r with mode := cstr (parse_op_mod req.post_data [] 128) })
    else if req.path = "/set-temperature".toList then
      ([], { r with setpoint := parse_set_temp req.post_data })
    else ([], r)

/-- The transport to the remote thermostat: the client is always created and
every request reaches the device. -/
def Remote.transport : Transport Remote :=
  ⟨fun r => (true, r), Remote.perform⟩

/-- A transport on which `esp_http_client_init` always returns the null handle. -/
def no_client : Transport Unit :=
  ⟨fun d => (false, d), fun _ d => ([], d)⟩

/-- A transport on which the client is created and every request is answered
with the same body bytes; with no bytes it is a request that fails before any
data arrives. -/
def fixed_body (bytes : List Char) : Transport Unit :=
  ⟨fun d => (true, d), fun _ d => (bytes, d)⟩

/-- A transport that follows a script, one entry per call of an
`http_rest_with_url_*` function: on `none` the client cannot be created, on
`some bytes` the client is created and the request is answered with `bytes`.
When the script is used up the client cannot be created. -/
def scripted : Transport (List (Option (List Char))) :=
  ⟨fun d =>
      match d with
      | some bytes :: rest => (true, some bytes :: rest)
      | none :: rest => (false, rest)
      | [] => (false, []),
    fun _ d =>
      match d with
      | some bytes :: rest => (bytes, rest)
      | none :: rest => ([], rest)
      | [] => ([], [])⟩

/-- A transport on which the client is created and that keeps, as its device
state, the post fields of the requests it was handed, in order. -/
def recording : Transport (List (List Char)) :=
  ⟨fun d => (true, d), fun req d => ([], d ++ [req.post_data])⟩

/-- The response buffer holds no usable mode for a capacity `k`: the key
`"mode"` does not occur, or no colon follows its first occurrence, or no quote
follows that colon, or no closing quote follows the opening one, or the text
between the quotes has `k` characters or more. -/
def ModeMismatch (buf : List Char) (k : Nat) : Prop :=
  (∀ p t, buf ≠ p ++ "\"mode\"".toList ++ t) ∨
  (∃ pre post, buf = pre ++ "\"mode\"".toList ++ post ∧
    (∀ p t, pre ++ "\"mode\"".toList ++ post = p ++ "\"mode\"".toList ++ t
      → pre.length ≤ p.length) ∧
    ':' ∉ post) ∨
  (∃ pre mid tail, buf = pre ++ "\"mode\"".toList ++ (mid ++ ':' :: tail) ∧
    (∀ p t, pre ++ "\"mode\"".toList ++ (mid ++ ':' :: tail) = p ++ "\"mode\"".toList ++ t
      → pre.length ≤ p.length) ∧
    ':' ∉ mid ∧ '"' ∉ tail) ∨
  (∃ pre mid gap tail, buf = pre ++ "\"mode\"".toList ++ (mid ++ ':' :: (gap ++ '"' :: tail)) ∧
    (∀ p t, pre ++ "\"mode\"".toList ++ (mid ++ ':' :: (gap ++ '"' :: tail))
      = p ++ "\"mode\"".toList ++ t → pre.length ≤ p.length) ∧
    ':' ∉ mid ∧ '"' ∉ gap ∧ '"' ∉ tail) ∨
  (∃ pre mid gap s rest,
    buf = pre ++ "\"mode\"".toList ++ (mid ++ ':' :: (gap ++ '"' :: (s ++ '"' :: rest))) ∧
    (∀ p t, pre ++ "\"mode\"".toList ++ (mid ++ ':' :: (gap ++ '"' :: (s ++ '"' :: rest)))
      = p ++ "\"mode\"".toList ++ t → pre.length ≤ p.length) ∧
    ':' ∉ mid ∧ '"' ∉ gap ∧ '"' ∉ s ∧ k ≤ s.length)

/-- The operation mode that the in-state action of Off, Idle and Heating asks
for: "Weekly program" in Off, "Control individually" in Idle and Heating. -/
def desired_mode : tHeatgCtrlSt → List Char
  | HEATG_CTRL_ST_OFF => "Weekly program".toList
  | _ => "Control individually".toList

/-- In every cycle of the run the client of the mode fetch is created and the
response holds no usable mode for the 64 bytes of `opMod`. -/
def MismatchRun {σ : Type} (T : Transport σ) (cfg : Config) :
    TaskState → σ → List (Option ℚ) → Prop
  | _, _, [] => True
  | s, dev, queue :: rest =>
    ((T.client_init dev).1 = true ∧
      ModeMismatch (local_response_buffer
        (T.perform ⟨Method.GET, "/operation-mode".toList, []⟩ (T.client_init dev).2).1) 64) ∧
    MismatchRun T cfg (http_test_task_mod_cycle T cfg s queue dev).task
      (http_test_task_mod_cycle T cfg s queue dev).net.dev rest

/-- Whether a log entry is a call of `http_rest_with_url_post_op_mode`. -/
def Event.isPostOpMode : Event → Bool
  | Event.post_op_mode _ => true
  | _ => false

/-- Whether a log entry is a call of `http_rest_with_url_post_set_temp`. -/
def Event.isPostSetTemp : Event → Bool
  | Event.post_set_temp _ => true
  | _ => false

/-- Whether a log entry is a read or a write of the setpoint. -/
def Event.isSetTemp : Event → Bool
  | Event.get_set_temp => true
  | Event.post_set_temp _ => true
  | _ => false

/-- In a log every write is preceded by a read of the same field: a call of
`http_rest_with_url_get_op_mod` comes before each call of
`http_rest_with_url_post_op_mode`, and a call of
`http_rest_with_url_get_set_temp` before each call of
`http_rest_with_url_post_set_temp`. -/
def ReadBeforeWrite (log : List Event) : Prop :=
  (∀ pre m post, log = pre ++ Event.post_op_mode m :: post → Event.get_op_mod ∈ pre) ∧
  (∀ pre v post, log = pre ++ Event.post_set_temp v :: post → Event.get_set_temp ∈ pre)

/-- The net on which a cycle in Idle or Heating reads the setpoint: the mode
has been fetched and, when it differs from "Control individually", posted. -/
def net_after_mode {σ : Type} (T : Transport σ) (opMod : List Char) (dev : σ) : Net σ :=
  if cstr (http_rest_with_url_get_op_mod T opMod 64 ⟨dev, []⟩).1 ≠ "Control individually".toList
  then http_rest_with_url_post_op_mode T "Control individually".toList
    (http_rest_with_url_get_op_mod T opMod 64 ⟨dev, []⟩).2
  else (http_rest_with_url_get_op_mod T opMod 64 ⟨dev, []⟩).2

/-- The string that `parse_op_mod` finds between the quotes after the key
`"mode"` and its colon, when the four searches succeed. -/
def mode_field (buf : List Char) : Option (List Char) :=
  match strstr "\"mode\"".toList buf with
  | some mode_str =>
    match strchr ':' mode_str with
    | some mode_str =>
      match strchr '"' mode_str with
      | some mode_str =>
        match strchr '"' (mode_str.drop 1) with
        | some end_quote =>
          some ((mode_str.drop 1).take ((mode_str.drop 1).length - end_quote.length))
        | none => none
      | none => none
    | none => none
  | none => none

/-- Whether a log entry is a POST. -/
def Event.isPost : Event → Bool
  | Event.post_op_mode _ => true
  | Event.post_set_temp _ => true
  | _ => false

/-! ## Properties -/

/-- The `int8_t` range of `toInt8`. -/
theorem toInt8_range (z : Int) : -128 ≤ toInt8 z ∧ toInt8 z ≤ 127 := by
  unfold toInt8
  omega

/-- A capacity below `2 ^ 31` is its own conversion to `int`. -/
theorem toInt32_of_lt (k : Nat) (hk : k < 2147483648) : toInt32 (k : Int) = k := by
  unfold toInt32
  omega

/-- The conversion of a capacity to `int` never exceeds the capacity. -/
theorem toInt32_le (k : Nat) : toInt32 (k : Int) ≤ k := by
  unfold toInt32
  omega

/-- A length that reaches the capacity fails the test `len < (int)opMod_size`. -/
theorem not_lt_toInt32 (len k : Nat) (h : k ≤ len) : ¬ (len : Int) < toInt32 (k : Int) := by
  have := toInt32_le k
  omega

/-- Storing an `int8_t` into a `uint8_t` never makes it smaller. -/
theorem le_toUInt8_roundint8f (value : ℚ) : roundint8f value ≤ toUInt8 (roundint8f value) := by
  have h := toInt8_range
    (truncToZero (round32 (value + (if value ≥ 0 then (1 / 2 : ℚ) else -(1 / 2 : ℚ)))))
  unfold roundint8f toUInt8
  omega

/-- A non-negative `int8_t` is stored into a `uint8_t` unchanged. -/
theorem toUInt8_roundint8f_of_nonneg (value : ℚ) (h0 : 0 ≤ roundint8f value) :
    toUInt8 (roundint8f value) = roundint8f value := by
  have h := toInt8_range
    (truncToZero (round32 (value + (if value ≥ 0 then (1 / 2 : ℚ) else -(1 / 2 : ℚ)))))
  unfold roundint8f toUInt8 at *
  omega

/-- A whole number is its own rounding. -/
theorem roundHalfEven_intCast (n : Int) : roundHalfEven (n : ℚ) = n := by
  unfold roundHalfEven
  simp

/-- The binade of a value between two consecutive powers of two of the normal
range. -/
theorem binade32_eq (q : ℚ) (e : Int) (h0 : -126 ≤ e) (h1 : (2 : ℚ) ^ e ≤ |q|)
    (h2 : |q| < (2 : ℚ) ^ (e + 1)) : binade32 q = e := by
  have hpos : (0 : ℚ) < |q| := lt_of_lt_of_le (by positivity) h1
  have a : e ≤ Int.log 2 |q| := (Int.zpow_le_iff_le_log (by norm_num) hpos).mp (by exact_mod_cast h1)
  have b : Int.log 2 |q| < e + 1 := (Int.lt_zpow_iff_log_lt (by norm_num) hpos).mp (by exact_mod_cast h2)
  unfold binade32
  omega

/-- A multiple of the unit in the last place of its own binade is a binary32
value: rounding leaves it unchanged. -/
theorem round32_of_exact (q : ℚ) (e n : Int) (he : binade32 q = e)
    (hn : q = n * (2 : ℚ) ^ (e - 23)) : round32 q = q := by
  unfold round32
  rw [he]
  have hne : (2 : ℚ) ^ (e - 23) ≠ 0 := by positivity
  have : q / (2 : ℚ) ^ (e - 23) = (n : ℚ) := by
    rw [hn]
    field_simp
  rw [this, roundHalfEven_intCast, ← hn]

/-- Every non-zero half of a whole number of magnitude below `2 ^ 24` is a
binary32 value. -/
theorem round32_half_odd (m : Int) (h1 : -16777216 < m) (h2 : m < 16777216) (hm : m ≠ 0) :
    round32 ((m : ℚ) / 2) = (m : ℚ) / 2 := by
  have habs : |(m : ℚ) / 2| = |(m : ℚ)| / 2 := by
    rw [abs_div]
    norm_num
  have hm1 : (1 : Int) ≤ |m| := Int.one_le_abs hm
  have hm2 : |m| < 16777216 := abs_lt.mpr ⟨by omega, h2⟩
  have hlo : (2 : ℚ) ^ (-1 : Int) ≤ |(m : ℚ) / 2| := by
    rw [habs]
    have : (1 : ℚ) ≤ |(m : ℚ)| := by exact_mod_cast hm1
    norm_num
    linarith
  have hhi : |(m : ℚ) / 2| < (2 : ℚ) ^ (23 : Int) := by
    rw [habs]
    have : |(m : ℚ)| < 16777216 := by exact_mod_cast hm2
    norm_num
    linarith
  have hpos : (0 : ℚ) < |(m : ℚ) / 2| := lt_of_lt_of_le (by positivity) hlo
  have a : -1 ≤ Int.log 2 |(m : ℚ) / 2| :=
    (Int.zpow_le_iff_le_log (by norm_num) hpos).mp (by exact_mod_cast hlo)
  have b : Int.log 2 |(m : ℚ) / 2| < 23 :=
    (Int.lt_zpow_iff_log_lt (by norm_num) hpos).mp (by exact_mod_cast hhi)
  have he : binade32 ((m : ℚ) / 2) = Int.log 2 |(m : ℚ) / 2| := by
    unfold binade32
    omega
  obtain ⟨k, hk⟩ : ∃ k : Nat, Int.log 2 |(m : ℚ) / 2| = 22 - (k : Int) :=
    ⟨(22 - Int.log 2 |(m : ℚ) / 2|).toNat, by omega⟩
  refine round32_of_exact _ _ (m * 2 ^ k) he ?_
  rw [hk, show (22 - (k : Int) - 23) = -((k + 1 : Nat) : Int) by push_cast; ring, zpow_neg,
    zpow_natCast]
  push_cast
  field_simp
  ring

/-- On a sample that is a whole number of magnitude below `2 ^ 23` the sum with
one half is exact and `roundint8f` is the `int8_t` conversion. -/
theorem roundint8f_intCast (z : Int) (h1 : -8388608 < z) (h2 : z < 8388608) :
    roundint8f (z : ℚ) = toInt8 z := by
  unfold roundint8f truncToZero
  by_cases hz : (0 : ℚ) ≤ (z : ℚ)
  · have hz0 : 0 ≤ z := by exact_mod_cast hz
    have hr : round32 ((z : ℚ) + 1 / 2) = (z : ℚ) + 1 / 2 := by
      have := round32_half_odd (2 * z + 1) (by omega) (by omega) (by omega)
      have e : (((2 * z + 1 : Int) : ℚ)) / 2 = (z : ℚ) + 1 / 2 := by
        push_cast
        ring
      rwa [e] at this
    have h1 : (0 : ℚ) ≤ (z : ℚ) + 1 / 2 := by linarith
    have h2 : ⌊(z : ℚ) + 1 / 2⌋ = z := by
      rw [Int.floor_eq_iff]
      constructor <;> linarith
    simp only [ge_iff_le, hz, if_true, hr, h1, h2]
  · have hz2 : (z : ℚ) < 0 := not_le.mp hz
    have hz0 : z < 0 := by exact_mod_cast hz2
    have hr : round32 ((z : ℚ) + -(1 / 2)) = (z : ℚ) + -(1 / 2) := by
      have := round32_half_odd (2 * z - 1) (by omega) (by omega) (by omega)
      have e : (((2 * z - 1 : Int) : ℚ)) / 2 = (z : ℚ) + -(1 / 2) := by
        push_cast
        ring
      rwa [e] at this
    have h1 : ¬ (0 : ℚ) ≤ (z : ℚ) + -(1 / 2) := by
      intro h
      linarith
    have h2 : ⌈(z : ℚ) + -(1 / 2)⌉ = z := by
      rw [Int.ceil_eq_iff]
      constructor <;> linarith
    simp only [ge_iff_le, hz, if_false, hr, h1, h2]

/-- Claim C2: in one control cycle of `http_test_task_mod` starting in Heating
with the remote-control flag enabled, for every sample taken from the mailbox
whose rounded value `roundint8f` is strictly above the upper threshold, the
next state is Idle. -/
theorem C2_heating_to_idle {σ : Type} (T : Transport σ) (cfg : Config) (opMod : List Char)
    (tSet : Nat) (roomTemp : ℚ) (dev : σ)
    (hena : cfg.CONFIG_ENA_REMOTE_CTRL ≠ 0)
    (hupp : roundint8f roomTemp > cfg.CONFIG_T_THRES_UPPR) :
    (http_test_task_mod_cycle T cfg ⟨HEATG_CTRL_ST_HEATING, opMod, tSet⟩ (some roomTemp)
      dev).task.heatgCtrlSt = HEATG_CTRL_ST_IDLE := by
  have h : cfg.CONFIG_T_THRES_UPPR < toUInt8 (roundint8f roomTemp) :=
    lt_of_lt_of_le hupp (le_toUInt8_roundint8f roomTemp)
  simp [http_test_task_mod_cycle, xQueueReceive, tSnsr_of, h, Ne.symm hena]

/-- Claim C2 at `lower = 18`, `upper = 22` and the sample `23`. -/
theorem C2_heating_to_idle_witness :
    (⟨0, 1, 18, 22⟩ : Config).CONFIG_ENA_REMOTE_CTRL ≠ 0 ∧
    roundint8f 23 > (⟨0, 1, 18, 22⟩ : Config).CONFIG_T_THRES_UPPR ∧
    (http_test_task_mod_cycle Remote.transport ⟨0, 1, 18, 22⟩
      ⟨HEATG_CTRL_ST_HEATING, List.replicate 64 NUL, 0⟩ (some 23)
      ⟨"Control individually".toList, 25⟩).task.heatgCtrlSt = HEATG_CTRL_ST_IDLE := by
  have h : roundint8f 23 = 23 := by
    have := roundint8f_intCast 23 (by decide) (by decide)
    simpa [toInt8] using this
  have h1 : (⟨0, 1, 18, 22⟩ : Config).CONFIG_ENA_REMOTE_CTRL ≠ 0 := by decide
  have h2 : roundint8f 23 > (⟨0, 1, 18, 22⟩ : Config).CONFIG_T_THRES_UPPR := by
    rw [h]
    decide
  exact ⟨h1, h2, C2_heating_to_idle Remote.transport ⟨0, 1, 18, 22⟩ _ 0 23 _ h1 h2⟩

/-- Claim C3: with the remote-control flag enabled, whenever the sensed
temperature of the cycle (the value of `tSnsr`, whether a sample was received
or not) lies in the closed band from the lower to the upper threshold, a cycle
starting in Idle ends in Idle and a cycle starting in Heating ends in Heating;
the bounds `tSnsr = lower` and `tSnsr = upper` are included. -/
theorem C3_dead_band {σ : Type} (T : Transport σ) (cfg : Config) (opMod : List Char)
    (tSet : Nat) (queue : Option ℚ) (dev : σ)
    (hena : cfg.CONFIG_ENA_REMOTE_CTRL ≠ 0)
    (hlow : cfg.CONFIG_T_THRES_LOWR ≤ tSnsr_of queue)
    (hupp : tSnsr_of queue ≤ cfg.CONFIG_T_THRES_UPPR) :
    (http_test_task_mod_cycle T cfg ⟨HEATG_CTRL_ST_IDLE, opMod, tSet⟩ queue
      dev).task.heatgCtrlSt = HEATG_CTRL_ST_IDLE ∧
    (http_test_task_mod_cycle T cfg ⟨HEATG_CTRL_ST_HEATING, opMod, tSet⟩ queue
      dev).task.heatgCtrlSt = HEATG_CTRL_ST_HEATING := by
  simp [http_test_task_mod_cycle, xQueueReceive, not_lt.mpr hlow, not_lt.mpr hupp, Ne.symm hena]

/-- Claim C3 at `lower = 18`, `upper = 22` and the sample `20`. -/
theorem C3_dead_band_witness :
    (⟨0, 1, 18, 22⟩ : Config).CONFIG_ENA_REMOTE_CTRL ≠ 0 ∧
    (⟨0, 1, 18, 22⟩ : Config).CONFIG_T_THRES_LOWR ≤ tSnsr_of (some 20) ∧
    tSnsr_of (some 20) ≤ (⟨0, 1, 18, 22⟩ : Config).CONFIG_T_THRES_UPPR ∧
    (http_test_task_mod_cycle Remote.transport ⟨0, 1, 18, 22⟩
      ⟨HEATG_CTRL_ST_IDLE, List.replicate 64 NUL, 0⟩ (some 20)
      ⟨"Control individually".toList, 15⟩).task.heatgCtrlSt = HEATG_CTRL_ST_IDLE ∧
    (http_test_task_mod_cycle Remote.transport ⟨0, 1, 18, 22⟩
      ⟨HEATG_CTRL_ST_HEATING, List.replicate 64 NUL, 0⟩ (some 20)
      ⟨"Control individually".toList, 15⟩).task.heatgCtrlSt = HEATG_CTRL_ST_HEATING := by
  have h : tSnsr_of (some 20) = 20 := by
    have := roundint8f_intCast 20 (by decide) (by decide)
    simp only [Int.cast_ofNat] at this
    simp [tSnsr_of, this, toInt8, toUInt8]
  have h1 : (⟨0, 1, 18, 22⟩ : Config).CONFIG_ENA_REMOTE_CTRL ≠ 0 := by decide
  have h2 : (⟨0, 1, 18, 22⟩ : Config).CONFIG_T_THRES_LOWR ≤ tSnsr_of (some 20) := by
    rw [h]
    decide
  have h3 : tSnsr_of (some 20) ≤ (⟨0, 1, 18, 22⟩ : Config).CONFIG_T_THRES_UPPR := by
    rw [h]
    decide
  exact ⟨h1, h2, h3, C3_dead_band Remote.transport ⟨0, 1, 18, 22⟩ _ 0 (some 20) _ h1 h2 h3⟩

/-- Claim C4: with the remote-control flag disabled, for every mailbox content
and every behaviour of the remote, a control cycle starting in Idle or in
Heating ends in Off. -/
theorem C4_disabled_to_off {σ : Type} (T : Transport σ) (cfg : Config) (opMod : List Char)
    (tSet : Nat) (queue : Option ℚ) (dev : σ)
    (hdis : cfg.CONFIG_ENA_REMOTE_CTRL = 0) :
    (http_test_task_mod_cycle T cfg ⟨HEATG_CTRL_ST_IDLE, opMod, tSet⟩ queue
      dev).task.heatgCtrlSt = HEATG_CTRL_ST_OFF ∧
    (http_test_task_mod_cycle T cfg ⟨HEATG_CTRL_ST_HEATING, opMod, tSet⟩ queue
      dev).task.heatgCtrlSt = HEATG_CTRL_ST_OFF := by
  simp [http_test_task_mod_cycle, hdis]

/-- Claim C4 at a disabled flag, thresholds `18` and `22` and a cold sample. -/
theorem C4_disabled_to_off_witness :
    (⟨0, 0, 18, 22⟩ : Config).CONFIG_ENA_REMOTE_CTRL = 0 ∧
    (http_test_task_mod_cycle Remote.transport ⟨0, 0, 18, 22⟩
      ⟨HEATG_CTRL_ST_IDLE, List.replicate 64 NUL, 0⟩ (some 10)
      ⟨"Control individually".toList, 15⟩).task.heatgCtrlSt = HEATG_CTRL_ST_OFF ∧
    (http_test_task_mod_cycle Remote.transport ⟨0, 0, 18, 22⟩
      ⟨HEATG_CTRL_ST_HEATING, List.replicate 64 NUL, 0⟩ (some 10)
      ⟨"Control individually".toList, 15⟩).task.heatgCtrlSt = HEATG_CTRL_ST_OFF :=
  ⟨rfl, C4_disabled_to_off Remote.transport ⟨0, 0, 18, 22⟩ _ 0 (some 10) _ rfl⟩

/-- The claim C5 as stated fails: with the flag "remote control enabled" false
in both configurations, a cycle starting in Init ends in Off when the debug
flag is `0` and in Debug when the debug flag is `1`; so the state after Init is
not decided by the remote-control flag. -/
theorem C5_counterexample :
    (http_test_task_mod_cycle Remote.transport ⟨0, 0, 18, 22⟩ http_test_task_mod_init none
      ⟨"Weekly program".toList, 20⟩).task.heatgCtrlSt = HEATG_CTRL_ST_OFF ∧
    (http_test_task_mod_cycle Remote.transport ⟨1, 0, 18, 22⟩ http_test_task_mod_init none
      ⟨"Weekly program".toList, 20⟩).task.heatgCtrlSt = HEATG_CTRL_ST_DEBUG ∧
    (http_test_task_mod_cycle Remote.transport ⟨0, 1, 18, 22⟩ http_test_task_mod_init none
      ⟨"Weekly program".toList, 20⟩).task.heatgCtrlSt = HEATG_CTRL_ST_OFF := by
  simp [http_test_task_mod_cycle, http_test_task_mod_init]

/-- Claim C5, amended: a control cycle starting in Init ends in Off when the
debug flag `CONFIG_ENA_REMOTE_CTRL_DEBUG` is `0` and in Debug otherwise; the
choice depends on that flag alone. -/
theorem C5_init_transition {σ : Type} (T : Transport σ) (cfg : Config) (opMod : List Char)
    (tSet : Nat) (queue : Option ℚ) (dev : σ) :
    (http_test_task_mod_cycle T cfg ⟨HEATG_CTRL_ST_INIT, opMod, tSet⟩ queue
      dev).task.heatgCtrlSt =
      if cfg.CONFIG_ENA_REMOTE_CTRL_DEBUG = 0 then HEATG_CTRL_ST_OFF else HEATG_CTRL_ST_DEBUG := by
  by_cases h : cfg.CONFIG_ENA_REMOTE_CTRL_DEBUG = 0
  · simp [http_test_task_mod_cycle, h]
  · simp [http_test_task_mod_cycle, h, Ne.symm h]

/-- Claim C6: a control cycle starting in Off ends in Idle when the
remote-control flag is set (`1`) and in Off when it is not, for every mailbox
content and every behaviour of the remote. -/
theorem C6_off_transition {σ : Type} (T : Transport σ) (cfg : Config) (opMod : List Char)
    (tSet : Nat) (queue : Option ℚ) (dev : σ) :
    (http_test_task_mod_cycle T cfg ⟨HEATG_CTRL_ST_OFF, opMod, tSet⟩ queue
      dev).task.heatgCtrlSt =
      if cfg.CONFIG_ENA_REMOTE_CTRL = 1 then HEATG_CTRL_ST_IDLE else HEATG_CTRL_ST_OFF := by
  by_cases h : cfg.CONFIG_ENA_REMOTE_CTRL = 1
  · simp [http_test_task_mod_cycle, h]
  · simp [http_test_task_mod_cycle, h, Ne.symm h]

/-- Claim C7: Debug and Error are absorbing: for every configuration, mailbox
content and behaviour of the remote, a control cycle starting in Debug ends in
Debug and a control cycle starting in Error ends in Error. -/
theorem C7_debug_error_absorbing {σ : Type} (T : Transport σ) (cfg : Config)
    (opMod : List Char) (tSet : Nat) (queue : Option ℚ) (dev : σ) :
    (http_test_task_mod_cycle T cfg ⟨HEATG_CTRL_ST_DEBUG, opMod, tSet⟩ queue
      dev).task.heatgCtrlSt = HEATG_CTRL_ST_DEBUG ∧
    (http_test_task_mod_cycle T cfg ⟨HEATG_CTRL_ST_ERROR, opMod, tSet⟩ queue
      dev).task.heatgCtrlSt = HEATG_CTRL_ST_ERROR := by
  simp [http_test_task_mod_cycle]

/-- Every call of `http_rest_with_url_get_op_mod` adds one entry to the log. -/
@[simp] theorem get_op_mod_log {σ : Type} (T : Transport σ) (opMod : List Char) (k : Nat)
    (n : Net σ) :
    (http_rest_with_url_get_op_mod T opMod k n).2.log = n.log ++ [Event.get_op_mod] := by
  unfold http_rest_with_url_get_op_mod
  split <;> rfl

/-- Every call of `http_rest_with_url_get_set_temp` adds one entry to the log. -/
@[simp] theorem get_set_temp_log {σ : Type} (T : Transport σ) (n : Net σ) :
    (http_rest_with_url_get_set_temp T n).2.log = n.log ++ [Event.get_set_temp] := by
  unfold http_rest_with_url_get_set_temp
  split <;> rfl

/-- Every call of `http_rest_with_url_get_ctrl_sts` adds one entry to the log. -/
@[simp] theorem get_ctrl_sts_log {σ : Type} (T : Transport σ) (n : Net σ) :
    (http_rest_with_url_get_ctrl_sts T n).log = n.log ++ [Event.get_ctrl_sts] := by
  unfold http_rest_with_url_get_ctrl_sts
  split <;> rfl

/-- Every call of `http_rest_with_url_post_op_mode` adds one entry to the log. -/
@[simp] theorem post_op_mode_log {σ : Type} (T : Transport σ) (m : List Char) (n : Net σ) :
    (http_rest_with_url_post_op_mode T m n).log = n.log ++ [Event.post_op_mode m] := by
  unfold http_rest_with_url_post_op_mode
  split <;> rfl

/-- Every call of `http_rest_with_url_post_set_temp` adds one entry to the log. -/
@[simp] theorem post_set_temp_log {σ : Type} (T : Transport σ) (v : Nat) (n : Net σ) :
    (http_rest_with_url_post_set_temp T v n).log = n.log ++ [Event.post_set_temp v] := by
  unfold http_rest_with_url_post_set_temp
  split <;> rfl

/-- The calls made by a control cycle in Off. -/
theorem cycle_off_log {σ : Type} (T : Transport σ) (cfg : Config) (opMod : List Char)
    (tSet : Nat) (queue : Option ℚ) (dev : σ) :
    (http_test_task_mod_cycle T cfg ⟨HEATG_CTRL_ST_OFF, opMod, tSet⟩ queue dev).net.log =
      Event.get_op_mod ::
        (if cstr (http_rest_with_url_get_op_mod T opMod 64 ⟨dev, []⟩).1 = "Weekly program".toList
          then [] else [Event.post_op_mode "Weekly program".toList]) := by
  simp only [http_test_task_mod_cycle, ne_eq, ite_not]
  split_ifs <;> simp

/-- The calls made by a control cycle in Idle. -/
theorem cycle_idle_log {σ : Type} (T : Transport σ) (cfg : Config) (opMod : List Char)
    (tSet : Nat) (queue : Option ℚ) (dev : σ) :
    (http_test_task_mod_cycle T cfg ⟨HEATG_CTRL_ST_IDLE, opMod, tSet⟩ queue dev).net.log =
      Event.get_op_mod ::
        ((if cstr (http_rest_with_url_get_op_mod T opMod 64 ⟨dev, []⟩).1
            = "Control individually".toList
          then [] else [Event.post_op_mode "Control individually".toList]) ++
        Event.get_set_temp ::
          (if (http_rest_with_url_get_set_temp T (net_after_mode T opMod dev)).1 = 15
            then [] else [Event.post_set_temp 15])) := by
  simp only [http_test_task_mod_cycle, net_after_mode, ne_eq, ite_not]
  split_ifs <;> simp

/-- The calls made by a control cycle in Heating. -/
theorem cycle_heating_log {σ : Type} (T : Transport σ) (cfg : Config) (opMod : List Char)
    (tSet : Nat) (queue : Option ℚ) (dev : σ) :
    (http_test_task_mod_cycle T cfg ⟨HEATG_CTRL_ST_HEATING, opMod, tSet⟩ queue dev).net.log =
      Event.get_op_mod ::
        ((if cstr (http_rest_with_url_get_op_mod T opMod 64 ⟨dev, []⟩).1
            = "Control individually".toList
          then [] else [Event.post_op_mode "Control individually".toList]) ++
        Event.get_set_temp ::
          (if (http_rest_with_url_get_set_temp T (net_after_mode T opMod dev)).1 = 25
            then [] else [Event.post_set_temp 25])) := by
  simp only [http_test_task_mod_cycle, net_after_mode, ne_eq, ite_not]
  split_ifs <;> simp

/-- Claim C8: write suppression for the operation mode. In a control cycle in
Off, Idle or Heating the calls of `http_rest_with_url_post_op_mode` made in the
cycle are none when the mode left in `opMod` by the fetch equals the desired
mode of the state ("Weekly program" for Off, "Control individually" for Idle
and Heating), and exactly one call with the desired mode when it differs. -/
theorem C8_mode_write_suppression {σ : Type} (T : Transport σ) (cfg : Config)
    (opMod : List Char) (tSet : Nat) (queue : Option ℚ) (dev : σ) :
    ((http_test_task_mod_cycle T cfg ⟨HEATG_CTRL_ST_OFF, opMod, tSet⟩ queue
        dev).net.log.filter Event.isPostOpMode =
      if cstr (http_rest_with_url_get_op_mod T opMod 64 ⟨dev, []⟩).1 = "Weekly program".toList
      then [] else [Event.post_op_mode "Weekly program".toList]) ∧
    ((http_test_task_mod_cycle T cfg ⟨HEATG_CTRL_ST_IDLE, opMod, tSet⟩ queue
        dev).net.log.filter Event.isPostOpMode =
      if cstr (http_rest_with_url_get_op_mod T opMod 64 ⟨dev, []⟩).1
        = "Control individually".toList
      then [] else [Event.post_op_mode "Control individually".toList]) ∧
    ((http_test_task_mod_cycle T cfg ⟨HEATG_CTRL_ST_HEATING, opMod, tSet⟩ queue
        dev).net.log.filter Event.isPostOpMode =
      if cstr (http_rest_with_url_get_op_mod T opMod 64 ⟨dev, []⟩).1
        = "Control individually".toList
      then [] else [Event.post_op_mode "Control individually".toList]) := by
  rw [cycle_off_log, cycle_idle_log, cycle_heating_log]
  refine ⟨?_, ?_, ?_⟩ <;> split_ifs <;> simp [Event.isPostOpMode]

/-- Claim C9: setpoint reconciliation. In a control cycle in Idle the calls of
`http_rest_with_url_post_set_temp` are none when the setpoint fetched in the
cycle is `15` and exactly one call with `15` otherwise; in Heating the same
with `25`; in Off the setpoint is neither read nor written. In each of the
three states every write of the cycle comes after a read of the same field in
the same cycle. -/
theorem C9_setpoint_reconciliation {σ : Type} (T : Transport σ) (cfg : Config)
    (opMod : List Char) (tSet : Nat) (queue : Option ℚ) (dev : σ) :
    ((http_test_task_mod_cycle T cfg ⟨HEATG_CTRL_ST_IDLE, opMod, tSet⟩ queue
        dev).net.log.filter Event.isPostSetTemp =
      if (http_rest_with_url_get_set_temp T (net_after_mode T opMod dev)).1 = 15
      then [] else [Event.post_set_temp 15]) ∧
    ((http_test_task_mod_cycle T cfg ⟨HEATG_CTRL_ST_HEATING, opMod, tSet⟩ queue
        dev).net.log.filter Event.isPostSetTemp =
      if (http_rest_with_url_get_set_temp T (net_after_mode T opMod dev)).1 = 25
      then [] else [Event.post_set_temp 25]) ∧
    (http_test_task_mod_cycle T cfg ⟨HEATG_CTRL_ST_OFF, opMod, tSet⟩ queue
        dev).net.log.filter Event.isSetTemp = [] ∧
    ReadBeforeWrite
      (http_test_task_mod_cycle T cfg ⟨HEATG_CTRL_ST_OFF, opMod, tSet⟩ queue dev).net.log ∧
    ReadBeforeWrite
      (http_test_task_mod_cycle T cfg ⟨HEATG_CTRL_ST_IDLE, opMod, tSet⟩ queue dev).net.log ∧
    ReadBeforeWrite
      (http_test_task_mod_cycle T cfg ⟨HEATG_CTRL_ST_HEATING, opMod, tSet⟩ queue dev).net.log := by
  rw [cycle_off_log, cycle_idle_log, cycle_heating_log]
  refine ⟨?_, ?_, ?_, ?_, ?_, ?_⟩
  · split_ifs <;> simp [Event.isPostSetTemp]
  · split_ifs <;> simp [Event.isPostSetTemp]
  · split_ifs <;> simp [Event.isSetTemp]
  · split_ifs <;> exact ⟨by
      intro pre m post h
      rcases pre with _ | ⟨p1, _ | ⟨p2, _ | ⟨p3, _ | ⟨p4, _ | ⟨p5, pre⟩⟩⟩⟩⟩ <;> simp_all, by
      intro pre m post h
      rcases pre with _ | ⟨p1, _ | ⟨p2, _ | ⟨p3, _ | ⟨p4, _ | ⟨p5, pre⟩⟩⟩⟩⟩ <;> simp_all⟩
  · split_ifs <;> exact ⟨by
      intro pre m post h
      rcases pre with _ | ⟨p1, _ | ⟨p2, _ | ⟨p3, _ | ⟨p4, _ | ⟨p5, pre⟩⟩⟩⟩⟩ <;> simp_all, by
      intro pre m post h
      rcases pre with _ | ⟨p1, _ | ⟨p2, _ | ⟨p3, _ | ⟨p4, _ | ⟨p5, pre⟩⟩⟩⟩⟩ <;> simp_all⟩
  · split_ifs <;> exact ⟨by
      intro pre m post h
      rcases pre with _ | ⟨p1, _ | ⟨p2, _ | ⟨p3, _ | ⟨p4, _ | ⟨p5, pre⟩⟩⟩⟩⟩ <;> simp_all, by
      intro pre m post h
      rcases pre with _ | ⟨p1, _ | ⟨p2, _ | ⟨p3, _ | ⟨p4, _ | ⟨p5, pre⟩⟩⟩⟩⟩ <;> simp_all⟩

/-- A string read out of a buffer holds no NUL. -/
theorem cstr_ne_nul (buf : List Char) : ∀ c ∈ cstr buf, c ≠ NUL := by
  intro c hc
  have := List.mem_takeWhile_imp hc
  simpa using this

/-- A buffer without NUL is its own string. -/
theorem cstr_eq_self (s : List Char) (hs : ∀ c ∈ s, c ≠ NUL) : cstr s = s := by
  unfold cstr
  rw [List.takeWhile_eq_self_iff]
  intro c hc
  simpa using hs c hc

/-- The string of a buffer that starts with a NUL-free text followed by NUL. -/
theorem cstr_append_nul (s rest : List Char) (hs : ∀ c ∈ s, c ≠ NUL) :
    cstr (s ++ NUL :: rest) = s := by
  induction s with
  | nil => simp [cstr]
  | cons a s ih =>
    have ha : a ≠ NUL := hs a (List.mem_cons_self a s)
    have hs2 : ∀ c ∈ s, c ≠ NUL := fun c hc => hs c (List.mem_cons_of_mem a hc)
    have := ih hs2
    unfold cstr at this ⊢
    simp [List.takeWhile_cons, ha, this]

/-- The pointer returned by `strstr` points into the searched string. -/
theorem strstr_suffix (needle : List Char) :
    ∀ (hay p : List Char), strstr needle hay = some p → p <:+ hay := by
  intro hay
  induction hay with
  | nil =>
    intro p h
    unfold strstr at h
    split_ifs at h
    simp at h
    subst h
    exact List.suffix_refl _
  | cons c hay ih =>
    intro p h
    unfold strstr at h
    split_ifs at h
    · simp at h
      subst h
      exact List.suffix_refl _
    · exact (ih p h).trans (List.suffix_cons c hay)

/-- The pointer returned by `strchr` points into the searched string. -/
theorem strchr_suffix (ch : Char) :
    ∀ (s p : List Char), strchr ch s = some p → p <:+ s := by
  intro s
  induction s with
  | nil =>
    intro p h
    simp [strchr] at h
  | cons c s ih =>
    intro p h
    unfold strchr at h
    split_ifs at h
    · simp at h
      subst h
      exact List.suffix_refl _
    · exact (ih p h).trans (List.suffix_cons c s)

/-- Copying `len` characters of a NUL-free string and terminating them leaves
exactly these characters as the string of the buffer. -/
theorem cstr_setByte_strncpy (opMod p : List Char) (len : Nat)
    (hp : ∀ c ∈ p, c ≠ NUL) (hlen : len ≤ p.length) :
    cstr (setByte (strncpy opMod p len) len NUL) = p.take len := by
  have h1 : (p.take len).length = len := by simp [hlen]
  unfold strncpy setByte
  simp only [cstr_eq_self p hp, h1, Nat.sub_self, List.replicate_zero, List.append_nil]
  have h2 : List.take len (List.take len p ++ List.drop len opMod) = List.take len p := by
    rw [List.take_append_eq_append_take]
    simp [h1]
  rw [h2]
  exact cstr_append_nul _ _ (fun c hc => hp c (List.mem_of_mem_take hc))

/-- The string left in `opMod` by `parse_op_mod` on a NUL-free response: the
mode field when one is found and passes the length test, the former string
otherwise. -/
theorem cstr_parse_op_mod (buf opMod : List Char) (k : Nat) (hbuf : ∀ c ∈ buf, c ≠ NUL) :
    cstr (parse_op_mod buf opMod k) =
      match mode_field buf with
      | some s => if (s.length : Int) < toInt32 k then s else cstr opMod
      | none => cstr opMod := by
  unfold parse_op_mod mode_field
  cases h1 : strstr "\"mode\"".toList buf with
  | none => simp only []
  | some p1 =>
    cases h2 : strchr ':' p1 with
    | none => simp only [h2]
    | some p2 =>
      cases h3 : strchr '"' p2 with
      | none => simp only [h2, h3]
      | some p3 =>
        cases h4 : strchr '"' (p3.drop 1) with
        | none => simp only [h2, h3, h4]
        | some e =>
          have s1 := strstr_suffix _ _ _ h1
          have s2 := strchr_suffix _ _ _ h2
          have s3 := strchr_suffix _ _ _ h3
          have hp : ∀ c ∈ p3.drop 1, c ≠ NUL := fun c hc =>
            hbuf c (s1.subset (s2.subset (s3.subset (List.mem_of_mem_drop hc))))
          have hle : (p3.drop 1).length - e.length ≤ (p3.drop 1).length := Nat.sub_le _ _
          have hl : (List.take ((p3.drop 1).length - e.length) (p3.drop 1)).length
              = (p3.drop 1).length - e.length := by
            rw [List.length_take]
            exact Nat.min_eq_left hle
          simp only [h2, h3, h4, hl]
          split_ifs
          · exact cstr_setByte_strncpy opMod _ _ hp hle
          · rfl

/-- The mode fetch against the remote thermostat. -/
theorem remote_get_op_mod (opMod : List Char) (k : Nat) (r : Remote) (log : List Event) :
    http_rest_with_url_get_op_mod Remote.transport opMod k ⟨r, log⟩ =
      (parse_op_mod (local_response_buffer
          (mode_body r.mode)) opMod k,
        ⟨r, log ++ [Event.get_op_mod]⟩) := by
  simp [http_rest_with_url_get_op_mod, Remote.transport, Remote.perform]

/-- The setpoint fetch against the remote thermostat. -/
theorem remote_get_set_temp (r : Remote) (log : List Event) :
    http_rest_with_url_get_set_temp Remote.transport ⟨r, log⟩ =
      (parse_set_temp (local_response_buffer
          (value_body r.setpoint)),
        ⟨r, log ++ [Event.get_set_temp]⟩) := by
  simp [http_rest_with_url_get_set_temp, Remote.transport, Remote.perform]

/-- The mode POST against the remote thermostat. -/
theorem remote_post_op_mode (m : List Char) (r : Remote) (log : List Event) :
    http_rest_with_url_post_op_mode Remote.transport m ⟨r, log⟩ =
      ⟨{ r with mode := cstr (parse_op_mod (post_op_mode_data m) [] 128) },
        log ++ [Event.post_op_mode m]⟩ := by
  simp [http_rest_with_url_post_op_mode, Remote.transport, Remote.perform]

/-- The setpoint POST against the remote thermostat. -/
theorem remote_post_set_temp (v : Nat) (r : Remote) (log : List Event) :
    http_rest_with_url_post_set_temp Remote.transport v ⟨r, log⟩ =
      ⟨{ r with setpoint := parse_set_temp (post_set_temp_data v) },
        log ++ [Event.post_set_temp v]⟩ := by
  simp [http_rest_with_url_post_set_temp, Remote.transport, Remote.perform]

/-- The remote thermostat stores the two modes the controller posts. -/
theorem remote_stores_mode :
    cstr (parse_op_mod (post_op_mode_data "Weekly program".toList) [] 128)
      = "Weekly program".toList ∧
    cstr (parse_op_mod (post_op_mode_data "Control individually".toList) [] 128)
      = "Control individually".toList := by
  constructor <;> decide

/-- The remote thermostat stores the two setpoints the controller posts. -/
theorem remote_stores_setpoint :
    parse_set_temp (post_set_temp_data 15) = 15 ∧ parse_set_temp (post_set_temp_data 25) = 25 := by
  constructor <;> decide

/-- The controller reads back the two modes and the two setpoints it posts. -/
theorem remote_reads_back :
    mode_field (local_response_buffer
        (mode_body "Weekly program".toList))
      = some "Weekly program".toList ∧
    mode_field (local_response_buffer
        (mode_body "Control individually".toList))
      = some "Control individually".toList ∧
    parse_set_temp (local_response_buffer
        (value_body 15)) = 15 ∧
    parse_set_temp (local_response_buffer
        (value_body 25)) = 25 := by
  refine ⟨?_, ?_, ?_, ?_⟩ <;> decide

/-- Fetching the mode a second time from the remote thermostat: when the first
fetch left the desired mode in `opMod` so does the second, and after the desired
mode was posted the fetch leaves it in `opMod` whatever the buffer held. -/
theorem remote_refetch_mode (desired : List Char)
    (hd : desired = "Weekly program".toList ∨ desired = "Control individually".toList)
    (opMod buf : List Char) (r : Remote) :
    (cstr (parse_op_mod (local_response_buffer
        (mode_body r.mode)) opMod 64) = desired →
      cstr (parse_op_mod (local_response_buffer
          (mode_body r.mode))
        (parse_op_mod (local_response_buffer
          (mode_body r.mode)) opMod 64) 64) = desired) ∧
    cstr (parse_op_mod (local_response_buffer
        (mode_body desired)) buf 64) = desired := by
  have hB : ∀ bytes, ∀ c ∈ local_response_buffer bytes, c ≠ NUL := fun bytes =>
    cstr_ne_nul _
  constructor
  · intro h
    rw [cstr_parse_op_mod _ _ _ (hB _)] at h ⊢
    cases hm : mode_field (local_response_buffer
        (mode_body r.mode)) with
    | none =>
      rw [hm] at h
      simp only [] at h ⊢
      rw [cstr_parse_op_mod _ _ _ (hB _), hm]
      exact h
    | some s =>
      rw [hm] at h
      simp only [] at h ⊢
      split_ifs at h ⊢ with hs
      · exact h
      · rw [cstr_parse_op_mod _ _ _ (hB _), hm]
        simp only [hs, if_false]
        exact h
  · rw [cstr_parse_op_mod _ _ _ (hB _)]
    rcases hd with hd | hd <;> subst hd
    · rw [remote_reads_back.1]
      rfl
    · rw [remote_reads_back.2.1]
      rfl

/-- A control cycle in Off against the remote thermostat: the buffer, the
device and the calls it leaves. -/
theorem remote_cycle_off (cfg : Config) (opMod : List Char) (tSet : Nat) (queue : Option ℚ)
    (r : Remote) :
    (http_test_task_mod_cycle Remote.transport cfg ⟨HEATG_CTRL_ST_OFF, opMod, tSet⟩ queue
        r).task.opMod = parse_op_mod (local_response_buffer (mode_body r.mode)) opMod 64 ∧
    (http_test_task_mod_cycle Remote.transport cfg ⟨HEATG_CTRL_ST_OFF, opMod, tSet⟩ queue
        r).net.dev =
      ⟨if cstr (parse_op_mod (local_response_buffer (mode_body r.mode)) opMod 64)
          = "Weekly program".toList then r.mode else "Weekly program".toList, r.setpoint⟩ ∧
    (http_test_task_mod_cycle Remote.transport cfg ⟨HEATG_CTRL_ST_OFF, opMod, tSet⟩ queue
        r).net.log =
      Event.get_op_mod ::
        (if cstr (parse_op_mod (local_response_buffer (mode_body r.mode)) opMod 64)
          = "Weekly program".toList then [] else [Event.post_op_mode "Weekly program".toList]) := by
  simp only [http_test_task_mod_cycle, remote_get_op_mod, ne_eq, ite_not]
  refine ⟨trivial, ?_, ?_⟩ <;> split_ifs <;>
    rfl

/-- A control cycle in Idle against the remote thermostat: the buffer, the
device and the calls it leaves. -/
theorem remote_cycle_idle (cfg : Config) (opMod : List Char) (tSet : Nat) (queue : Option ℚ)
    (r : Remote) :
    (http_test_task_mod_cycle Remote.transport cfg ⟨HEATG_CTRL_ST_IDLE, opMod, tSet⟩ queue
        r).task.opMod = parse_op_mod (local_response_buffer (mode_body r.mode)) opMod 64 ∧
    (http_test_task_mod_cycle Remote.transport cfg ⟨HEATG_CTRL_ST_IDLE, opMod, tSet⟩ queue
        r).net.dev =
      ⟨if cstr (parse_op_mod (local_response_buffer (mode_body r.mode)) opMod 64)
          = "Control individually".toList then r.mode else "Control individually".toList,
        if parse_set_temp (local_response_buffer (value_body r.setpoint)) = 15
          then r.setpoint else 15⟩ ∧
    (http_test_task_mod_cycle Remote.transport cfg ⟨HEATG_CTRL_ST_IDLE, opMod, tSet⟩ queue
        r).net.log =
      Event.get_op_mod ::
        ((if cstr (parse_op_mod (local_response_buffer (mode_body r.mode)) opMod 64)
            = "Control individually".toList
          then [] else [Event.post_op_mode "Control individually".toList]) ++
        Event.get_set_temp ::
          (if parse_set_temp (local_response_buffer (value_body r.setpoint)) = 15
            then [] else [Event.post_set_temp 15])) := by
  simp only [http_test_task_mod_cycle, remote_get_op_mod, ne_eq, ite_not]
  refine ⟨trivial, ?_, ?_⟩ <;> split_ifs <;>
    simp_all [remote_post_op_mode, remote_get_set_temp, remote_post_set_temp,
      remote_stores_setpoint.1] <;> decide

/-- A control cycle in Heating against the remote thermostat: the buffer, the
device and the calls it leaves. -/
theorem remote_cycle_heating (cfg : Config) (opMod : List Char) (tSet : Nat)
    (queue : Option ℚ) (r : Remote) :
    (http_test_task_mod_cycle Remote.transport cfg ⟨HEATG_CTRL_ST_HEATING, opMod, tSet⟩ queue
        r).task.opMod = parse_op_mod (local_response_buffer (mode_body r.mode)) opMod 64 ∧
    (http_test_task_mod_cycle Remote.transport cfg ⟨HEATG_CTRL_ST_HEATING, opMod, tSet⟩ queue
        r).net.dev =
      ⟨if cstr (parse_op_mod (local_response_buffer (mode_body r.mode)) opMod 64)
          = "Control individually".toList then r.mode else "Control individually".toList,
        if parse_set_temp (local_response_buffer (value_body r.setpoint)) = 25
          then r.setpoint else 25⟩ ∧
    (http_test_task_mod_cycle Remote.transport cfg ⟨HEATG_CTRL_ST_HEATING, opMod, tSet⟩ queue
        r).net.log =
      Event.get_op_mod ::
        ((if cstr (parse_op_mod (local_response_buffer (mode_body r.mode)) opMod 64)
            = "Control individually".toList
          then [] else [Event.post_op_mode "Control individually".toList]) ++
        Event.get_set_temp ::
          (if parse_set_temp (local_response_buffer (value_body r.setpoint)) = 25
            then [] else [Event.post_set_temp 25])) := by
  simp only [http_test_task_mod_cycle, remote_get_op_mod, ne_eq, ite_not]
  refine ⟨trivial, ?_, ?_⟩ <;> split_ifs <;>
    simp_all [remote_post_op_mode, remote_get_set_temp, remote_post_set_temp,
      remote_stores_setpoint.2] <;> decide

/-- A second control cycle in Off against the remote thermostat, run on the
buffer and the device left by a first one, posts nothing and leaves the device
as it found it. -/
theorem remote_second_cycle_off (cfg : Config) (opMod : List Char) (t1 : Nat)
    (queue : Option ℚ) (r : Remote) :
    (http_test_task_mod_cycle Remote.transport cfg
        ⟨HEATG_CTRL_ST_OFF, parse_op_mod (local_response_buffer (mode_body r.mode)) opMod 64, t1⟩ queue
        ⟨if cstr (parse_op_mod (local_response_buffer (mode_body r.mode)) opMod 64)
            = "Weekly program".toList then r.mode else "Weekly program".toList, r.setpoint⟩).net.log.filter Event.isPost = [] ∧
    (http_test_task_mod_cycle Remote.transport cfg
        ⟨HEATG_CTRL_ST_OFF, parse_op_mod (local_response_buffer (mode_body r.mode)) opMod 64, t1⟩ queue
        ⟨if cstr (parse_op_mod (local_response_buffer (mode_body r.mode)) opMod 64)
            = "Weekly program".toList then r.mode else "Weekly program".toList, r.setpoint⟩).net.dev =
        ⟨if cstr (parse_op_mod (local_response_buffer (mode_body r.mode)) opMod 64)
            = "Weekly program".toList then r.mode else "Weekly program".toList, r.setpoint⟩ := by
    obtain ⟨-, k2, k3⟩ := remote_cycle_off cfg
      (parse_op_mod (local_response_buffer (mode_body r.mode)) opMod 64) t1 queue
      ⟨if cstr (parse_op_mod (local_response_buffer (mode_body r.mode)) opMod 64)
            = "Weekly program".toList then r.mode else "Weekly program".toList, r.setpoint⟩
    rw [k2, k3]
    have hm := remote_refetch_mode "Weekly program".toList (Or.inl rfl) opMod
      (parse_op_mod (local_response_buffer (mode_body r.mode)) opMod 64) r
    dsimp only
    have hc2 : cstr (parse_op_mod (local_response_buffer (mode_body
        (if cstr (parse_op_mod (local_response_buffer (mode_body r.mode)) opMod 64)
            = "Weekly program".toList then r.mode else "Weekly program".toList)))
        (parse_op_mod (local_response_buffer (mode_body r.mode)) opMod 64) 64)
        = "Weekly program".toList := by
      by_cases h : cstr (parse_op_mod (local_response_buffer (mode_body r.mode)) opMod 64)
          = "Weekly program".toList
      · rw [if_pos h]
        exact hm.1 h
      · rw [if_neg h]
        exact hm.2
    rw [if_pos hc2, if_pos hc2]
    exact ⟨rfl, rfl⟩

/-- A second control cycle in Idle against the remote thermostat, run on the
buffer and the device left by a first one, posts nothing and leaves the device
as it found it. -/
theorem remote_second_cycle_idle (cfg : Config) (opMod : List Char) (t1 : Nat)
    (queue : Option ℚ) (r : Remote) :
    (http_test_task_mod_cycle Remote.transport cfg
        ⟨HEATG_CTRL_ST_IDLE, parse_op_mod (local_response_buffer (mode_body r.mode)) opMod 64, t1⟩ queue
        ⟨if cstr (parse_op_mod (local_response_buffer (mode_body r.mode)) opMod 64)
            = "Control individually".toList then r.mode else "Control individually".toList,
          if parse_set_temp (local_response_buffer (value_body r.setpoint)) = 15
            then r.setpoint else 15⟩).net.log.filter Event.isPost = [] ∧
    (http_test_task_mod_cycle Remote.transport cfg
        ⟨HEATG_CTRL_ST_IDLE, parse_op_mod (local_response_buffer (mode_body r.mode)) opMod 64, t1⟩ queue
        ⟨if cstr (parse_op_mod (local_response_buffer (mode_body r.mode)) opMod 64)
            = "Control individually".toList then r.mode else "Control individually".toList,
          if parse_set_temp (local_response_buffer (value_body r.setpoint)) = 15
            then r.setpoint else 15⟩).net.dev =
        ⟨if cstr (parse_op_mod (local_response_buffer (mode_body r.mode)) opMod 64)
            = "Control individually".toList then r.mode else "Control individually".toList,
          if parse_set_temp (local_response_buffer (value_body r.setpoint)) = 15
            then r.setpoint else 15⟩ := by
    obtain ⟨-, k2, k3⟩ := remote_cycle_idle cfg
      (parse_op_mod (local_response_buffer (mode_body r.mode)) opMod 64) t1 queue
      ⟨if cstr (parse_op_mod (local_response_buffer (mode_body r.mode)) opMod 64)
            = "Control individually".toList then r.mode else "Control individually".toList,
          if parse_set_temp (local_response_buffer (value_body r.setpoint)) = 15
            then r.setpoint else 15⟩
    rw [k2, k3]
    have hm := remote_refetch_mode "Control individually".toList (Or.inr rfl) opMod
      (parse_op_mod (local_response_buffer (mode_body r.mode)) opMod 64) r
    dsimp only
    have hc2 : cstr (parse_op_mod (local_response_buffer (mode_body
        (if cstr (parse_op_mod (local_response_buffer (mode_body r.mode)) opMod 64)
            = "Control individually".toList then r.mode else "Control individually".toList)))
        (parse_op_mod (local_response_buffer (mode_body r.mode)) opMod 64) 64)
        = "Control individually".toList := by
      by_cases h : cstr (parse_op_mod (local_response_buffer (mode_body r.mode)) opMod 64)
          = "Control individually".toList
      · rw [if_pos h]
        exact hm.1 h
      · rw [if_neg h]
        exact hm.2
    have hv2 : parse_set_temp (local_response_buffer (value_body
        (if parse_set_temp (local_response_buffer (value_body r.setpoint)) = 15
          then r.setpoint else 15))) = 15 := by
      by_cases h : parse_set_temp (local_response_buffer (value_body r.setpoint)) = 15
      · rw [if_pos h]
        exact h
      · rw [if_neg h]
        exact remote_reads_back.2.2.1
    rw [if_pos hc2, if_pos hc2, if_pos hv2, if_pos hv2]
    exact ⟨rfl, rfl⟩

/-- A second control cycle in Heating against the remote thermostat, run on the
buffer and the device left by a first one, posts nothing and leaves the device
as it found it. -/
theorem remote_second_cycle_heating (cfg : Config) (opMod : List Char) (t1 : Nat)
    (queue : Option ℚ) (r : Remote) :
    (http_test_task_mod_cycle Remote.transport cfg
        ⟨HEATG_CTRL_ST_HEATING, parse_op_mod (local_response_buffer (mode_body r.mode)) opMod 64, t1⟩ queue
        ⟨if cstr (parse_op_mod (local_response_buffer (mode_body r.mode)) opMod 64)
            = "Control individually".toList then r.mode else "Control individually".toList,
          if parse_set_temp (local_response_buffer (value_body r.setpoint)) = 25
            then r.setpoint else 25⟩).net.log.filter Event.isPost = [] ∧
    (http_test_task_mod_cycle Remote.transport cfg
        ⟨HEATG_CTRL_ST_HEATING, parse_op_mod (local_response_buffer (mode_body r.mode)) opMod 64, t1⟩ queue
        ⟨if cstr (parse_op_mod (local_response_buffer (mode_body r.mode)) opMod 64)
            = "Control individually".toList then r.mode else "Control individually".toList,
          if parse_set_temp (local_response_buffer (value_body r.setpoint)) = 25
            then r.setpoint else 25⟩).net.dev =
        ⟨if cstr (parse_op_mod (local_response_buffer (mode_body r.mode)) opMod 64)
            = "Control individually".toList then r.mode else "Control individually".toList,
          if parse_set_temp (local_response_buffer (value_body r.setpoint)) = 25
            then r.setpoint else 25⟩ := by
    obtain ⟨-, k2, k3⟩ := remote_cycle_heating cfg
      (parse_op_mod (local_response_buffer (mode_body r.mode)) opMod 64) t1 queue
      ⟨if cstr (parse_op_mod (local_response_buffer (mode_body r.mode)) opMod 64)
            = "Control individually".toList then r.mode else "Control individually".toList,
          if parse_set_temp (local_response_buffer (value_body r.setpoint)) = 25
            then r.setpoint else 25⟩
    rw [k2, k3]
    have hm := remote_refetch_mode "Control individually".toList (Or.inr rfl) opMod
      (parse_op_mod (local_response_buffer (mode_body r.mode)) opMod 64) r
    dsimp only
    have hc2 : cstr (parse_op_mod (local_response_buffer (mode_body
        (if cstr (parse_op_mod (local_response_buffer (mode_body r.mode)) opMod 64)
            = "Control individually".toList then r.mode else "Control individually".toList)))
        (parse_op_mod (local_response_buffer (mode_body r.mode)) opMod 64) 64)
        = "Control individually".toList := by
      by_cases h : cstr (parse_op_mod (local_response_buffer (mode_body r.mode)) opMod 64)
          = "Control individually".toList
      · rw [if_pos h]
        exact hm.1 h
      · rw [if_neg h]
        exact hm.2
    have hv2 : parse_set_temp (local_response_buffer (value_body
        (if parse_set_temp (local_response_buffer (value_body r.setpoint)) = 25
          then r.setpoint else 25))) = 25 := by
      by_cases h : parse_set_temp (local_response_buffer (value_body r.setpoint)) = 25
      · rw [if_pos h]
        exact h
      · rw [if_neg h]
        exact remote_reads_back.2.2.2
    rw [if_pos hc2, if_pos hc2, if_pos hv2, if_pos hv2]
    exact ⟨rfl, rfl⟩

/-- Claim C10: reconciliation is idempotent against the remote thermostat, whose
GETs answer the stored mode and setpoint in well-formed bodies and whose POSTs
store the posted value. For each state among Off, Idle and Heating, every
configuration, every content of `opMod`, every mailbox content and every
initial mode and setpoint of the remote, a second control cycle in the same
state, run on what the first one left (its `opMod`, its `tSet` and the remote),
makes no POST and leaves the remote as the first cycle left it. -/
theorem C10_reconciliation_idempotent (cfg : Config) (S : tHeatgCtrlSt) (opMod : List Char)
    (tSet : Nat) (queue1 queue2 : Option ℚ) (r : Remote)
    (hS : S = HEATG_CTRL_ST_OFF ∨ S = HEATG_CTRL_ST_IDLE ∨ S = HEATG_CTRL_ST_HEATING) :
    (http_test_task_mod_cycle Remote.transport cfg
        ⟨S, (http_test_task_mod_cycle Remote.transport cfg ⟨S, opMod, tSet⟩ queue1 r).task.opMod,
          (http_test_task_mod_cycle Remote.transport cfg ⟨S, opMod, tSet⟩ queue1 r).task.tSet⟩
        queue2
        (http_test_task_mod_cycle Remote.transport cfg ⟨S, opMod, tSet⟩ queue1
          r).net.dev).net.log.filter Event.isPost = [] ∧
      (http_test_task_mod_cycle Remote.transport cfg
        ⟨S, (http_test_task_mod_cycle Remote.transport cfg ⟨S, opMod, tSet⟩ queue1 r).task.opMod,
          (http_test_task_mod_cycle Remote.transport cfg ⟨S, opMod, tSet⟩ queue1 r).task.tSet⟩
        queue2
        (http_test_task_mod_cycle Remote.transport cfg ⟨S, opMod, tSet⟩ queue1
          r).net.dev).net.dev =
      (http_test_task_mod_cycle Remote.transport cfg ⟨S, opMod, tSet⟩ queue1 r).net.dev := by
  rcases hS with hS | hS | hS <;> subst hS
  · obtain ⟨h1, h2, -⟩ := remote_cycle_off cfg opMod tSet queue1 r
    rw [h1, h2]
    exact remote_second_cycle_off cfg opMod _ queue2 r
  · obtain ⟨h1, h2, -⟩ := remote_cycle_idle cfg opMod tSet queue1 r
    rw [h1, h2]
    exact remote_second_cycle_idle cfg opMod _ queue2 r
  · obtain ⟨h1, h2, -⟩ := remote_cycle_heating cfg opMod tSet queue1 r
    rw [h1, h2]
    exact remote_second_cycle_heating cfg opMod _ queue2 r

/-- Claim C10 in Idle, for a remote that starts in "Weekly program" with the
setpoint `20`. -/
theorem C10_reconciliation_idempotent_witness :
    (HEATG_CTRL_ST_IDLE = HEATG_CTRL_ST_OFF ∨ HEATG_CTRL_ST_IDLE = HEATG_CTRL_ST_IDLE ∨
      HEATG_CTRL_ST_IDLE = HEATG_CTRL_ST_HEATING) ∧
    ((http_test_task_mod_cycle Remote.transport ⟨0, 1, 18, 22⟩
        ⟨HEATG_CTRL_ST_IDLE,
          (http_test_task_mod_cycle Remote.transport ⟨0, 1, 18, 22⟩
            ⟨HEATG_CTRL_ST_IDLE, List.replicate 64 NUL, 0⟩ none
            ⟨"Weekly program".toList, 20⟩).task.opMod,
          (http_test_task_mod_cycle Remote.transport ⟨0, 1, 18, 22⟩
            ⟨HEATG_CTRL_ST_IDLE, List.replicate 64 NUL, 0⟩ none
            ⟨"Weekly program".toList, 20⟩).task.tSet⟩
        none
        (http_test_task_mod_cycle Remote.transport ⟨0, 1, 18, 22⟩
          ⟨HEATG_CTRL_ST_IDLE, List.replicate 64 NUL, 0⟩ none
          ⟨"Weekly program".toList, 20⟩).net.dev).net.log.filter Event.isPost = [] ∧
      (http_test_task_mod_cycle Remote.transport ⟨0, 1, 18, 22⟩
        ⟨HEATG_CTRL_ST_IDLE,
          (http_test_task_mod_cycle Remote.transport ⟨0, 1, 18, 22⟩
            ⟨HEATG_CTRL_ST_IDLE, List.replicate 64 NUL, 0⟩ none
            ⟨"Weekly program".toList, 20⟩).task.opMod,
          (http_test_task_mod_cycle Remote.transport ⟨0, 1, 18, 22⟩
            ⟨HEATG_CTRL_ST_IDLE, List.replicate 64 NUL, 0⟩ none
            ⟨"Weekly program".toList, 20⟩).task.tSet⟩
        none
        (http_test_task_mod_cycle Remote.transport ⟨0, 1, 18, 22⟩
          ⟨HEATG_CTRL_ST_IDLE, List.replicate 64 NUL, 0⟩ none
          ⟨"Weekly program".toList, 20⟩).net.dev).net.dev =
      (http_test_task_mod_cycle Remote.transport ⟨0, 1, 18, 22⟩
        ⟨HEATG_CTRL_ST_IDLE, List.replicate 64 NUL, 0⟩ none
        ⟨"Weekly program".toList, 20⟩).net.dev) :=
  ⟨Or.inr (Or.inl rfl),
    C10_reconciliation_idempotent ⟨0, 1, 18, 22⟩ HEATG_CTRL_ST_IDLE (List.replicate 64 NUL) 0
      none none ⟨"Weekly program".toList, 20⟩ (Or.inr (Or.inl rfl))⟩

/-- The claim C11 as stated fails: with thresholds `18` and `22`, a cycle in
Idle receives the sample `20` (sensed temperature `20`, the state stays Idle)
and leaves the mailbox empty; the next cycle finds no new sample, its sensed
temperature is `0` and not `20`, and it goes to Heating. -/
theorem C11_counterexample :
    tSnsr_of (xQueueReceive (some 20)).1 = 20 ∧
    (http_test_task_mod_cycle Remote.transport ⟨0, 1, 18, 22⟩
      ⟨HEATG_CTRL_ST_IDLE, List.replicate 64 NUL, 0⟩ (some 20)
      ⟨"Control individually".toList, 15⟩).task.heatgCtrlSt = HEATG_CTRL_ST_IDLE ∧
    (http_test_task_mod_cycle Remote.transport ⟨0, 1, 18, 22⟩
      ⟨HEATG_CTRL_ST_IDLE, List.replicate 64 NUL, 0⟩ (some 20)
      ⟨"Control individually".toList, 15⟩).queue = none ∧
    tSnsr_of (xQueueReceive (http_test_task_mod_cycle Remote.transport ⟨0, 1, 18, 22⟩
      ⟨HEATG_CTRL_ST_IDLE, List.replicate 64 NUL, 0⟩ (some 20)
      ⟨"Control individually".toList, 15⟩).queue).1 = 0 ∧
    (http_test_task_mod_cycle Remote.transport ⟨0, 1, 18, 22⟩
      (http_test_task_mod_cycle Remote.transport ⟨0, 1, 18, 22⟩
        ⟨HEATG_CTRL_ST_IDLE, List.replicate 64 NUL, 0⟩ (some 20)
        ⟨"Control individually".toList, 15⟩).task
      (http_test_task_mod_cycle Remote.transport ⟨0, 1, 18, 22⟩
        ⟨HEATG_CTRL_ST_IDLE, List.replicate 64 NUL, 0⟩ (some 20)
        ⟨"Control individually".toList, 15⟩).queue
      (http_test_task_mod_cycle Remote.transport ⟨0, 1, 18, 22⟩
        ⟨HEATG_CTRL_ST_IDLE, List.replicate 64 NUL, 0⟩ (some 20)
        ⟨"Control individually".toList, 15⟩).net.dev).task.heatgCtrlSt
      = HEATG_CTRL_ST_HEATING := by
  have h : tSnsr_of (some 20) = 20 := by
    have := roundint8f_intCast 20 (by decide) (by decide)
    simp only [Int.cast_ofNat] at this
    simp [tSnsr_of, this, toInt8, toUInt8]
  have h1 : ∀ dev opMod tSet,
      (http_test_task_mod_cycle Remote.transport ⟨0, 1, 18, 22⟩
        ⟨HEATG_CTRL_ST_IDLE, opMod, tSet⟩ (some 20) dev).task.heatgCtrlSt
        = HEATG_CTRL_ST_IDLE := by
    intro dev opMod tSet
    simp [http_test_task_mod_cycle, xQueueReceive, h]
  have h2 : ∀ dev opMod tSet,
      (http_test_task_mod_cycle Remote.transport ⟨0, 1, 18, 22⟩
        ⟨HEATG_CTRL_ST_IDLE, opMod, tSet⟩ (some 20) dev).queue = none := by
    intro dev opMod tSet
    simp [http_test_task_mod_cycle, xQueueReceive]
  have h3 : ∀ (s : TaskState) (dev : Remote), s.heatgCtrlSt = HEATG_CTRL_ST_IDLE →
      (http_test_task_mod_cycle Remote.transport ⟨0, 1, 18, 22⟩ s none dev).task.heatgCtrlSt
        = HEATG_CTRL_ST_HEATING := by
    intro s dev hs
    obtain ⟨st, opMod, tSet⟩ := s
    simp only at hs
    subst hs
    simp [http_test_task_mod_cycle, xQueueReceive, tSnsr_of]
  refine ⟨h, h1 _ _ _, h2 _ _ _, ?_, ?_⟩
  · rw [h2]
    rfl
  · rw [h2]
    exact h3 _ _ (h1 _ _ _)

/-- Claim C11, amended: in a control cycle in which the non-blocking mailbox
receive finds no new sample, the sensed temperature used for the transition
decision is `0`, whatever was sensed in earlier cycles: from Idle the cycle goes
to Heating exactly when `0` is below the lower threshold, and from Heating to
Idle exactly when `0` is above the upper threshold (the remote-control flag
being tested first). -/
theorem C11_empty_mailbox_senses_zero {σ : Type} (T : Transport σ) (cfg : Config)
    (opMod : List Char) (tSet : Nat) (dev : σ) :
    tSnsr_of (xQueueReceive none).1 = 0 ∧
    (http_test_task_mod_cycle T cfg ⟨HEATG_CTRL_ST_IDLE, opMod, tSet⟩ none
      dev).task.heatgCtrlSt =
      (if 0 = cfg.CONFIG_ENA_REMOTE_CTRL then HEATG_CTRL_ST_OFF
       else if 0 < cfg.CONFIG_T_THRES_LOWR then HEATG_CTRL_ST_HEATING
       else HEATG_CTRL_ST_IDLE) ∧
    (http_test_task_mod_cycle T cfg ⟨HEATG_CTRL_ST_HEATING, opMod, tSet⟩ none
      dev).task.heatgCtrlSt =
      (if 0 = cfg.CONFIG_ENA_REMOTE_CTRL then HEATG_CTRL_ST_OFF
       else if 0 > cfg.CONFIG_T_THRES_UPPR then HEATG_CTRL_ST_IDLE
       else HEATG_CTRL_ST_HEATING) := by
  refine ⟨rfl, rfl, rfl⟩

/-- An integer in the `int8_t` range is converted to itself. -/
theorem toInt8_of_range (z : Int) (h1 : -128 ≤ z) (h2 : z ≤ 127) : toInt8 z = z := by
  unfold toInt8
  omega

/-- Rounding a non-negative value: the floor of the value plus one half. -/
theorem truncToZero_add_half (t : ℚ) (ht : 0 ≤ t) : truncToZero (t + 1 / 2) = ⌊t + 1 / 2⌋ := by
  unfold truncToZero
  rw [if_pos (by linarith)]

/-- Rounding a negative value: the ceiling of the value minus one half. -/
theorem truncToZero_sub_half (t : ℚ) (ht : t < 0) : truncToZero (t - 1 / 2) = ⌈t - 1 / 2⌉ := by
  unfold truncToZero
  rw [if_neg (by linarith)]

/-- The integer `r` is nearest to `t`, and among the integers equally near it
is the one farthest from zero. -/
theorem nearest_away_of_bounds (t : ℚ) (r : Int)
    (h : (0 ≤ t ∧ (r : ℚ) ≤ t + 1 / 2 ∧ t + 1 / 2 < r + 1) ∨
      (t < 0 ∧ t - 1 / 2 ≤ (r : ℚ) ∧ (r : ℚ) - 1 < t - 1 / 2)) :
    |t - r| ≤ 1 / 2 ∧ (∀ z : Int, |t - r| ≤ |t - z|) ∧
      (∀ z : Int, |t - z| = |t - r| → |z| ≤ |r|) := by
  have key : ∀ z : Int, z ≤ r - 1 ∨ z = r ∨ r + 1 ≤ z := by
    intro z
    omega
  rcases h with ⟨h0, h1, h2⟩ | ⟨h0, h1, h2⟩
  · have hd : |t - r| ≤ 1 / 2 := by
      rw [abs_le]
      constructor <;> linarith
    refine ⟨hd, ?_, ?_⟩
    · intro z
      rcases key z with hz | hz | hz
      · have hz' : (z : ℚ) ≤ r - 1 := by exact_mod_cast hz
        have : 1 / 2 ≤ |t - z| := by
          rw [le_abs]
          left
          linarith
        linarith
      · rw [hz]
      · have hz' : (r : ℚ) + 1 ≤ z := by exact_mod_cast hz
        have : 1 / 2 ≤ |t - z| := by
          rw [le_abs]
          right
          linarith
        linarith
    · intro z hz
      rcases key z with hz1 | hz1 | hz1
      · have hz' : (z : ℚ) ≤ r - 1 := by exact_mod_cast hz1
        have h3 : 1 / 2 ≤ |t - z| := by
          rw [le_abs]
          left
          linarith
        have h4 : |t - r| = 1 / 2 := le_antisymm hd (hz ▸ h3)
        have h5 : t - z ≤ 1 / 2 := by
          have := le_abs_self (t - z)
          rw [hz, h4] at this
          exact this
        have h6 : (-1 : ℚ) < z := by linarith
        have h7 : (-1 : Int) < z := by exact_mod_cast h6
        rw [abs_of_nonneg (by omega), abs_of_nonneg (by omega)]
        omega
      · rw [hz1]
      · have hz' : (r : ℚ) + 1 ≤ z := by exact_mod_cast hz1
        have h3 : t - z < -(1 / 2) := by linarith
        have h4 : 1 / 2 < |t - z| := by
          rw [lt_abs]
          right
          linarith
        rw [hz] at h4
        linarith
  · have hd : |t - r| ≤ 1 / 2 := by
      rw [abs_le]
      constructor <;> linarith
    refine ⟨hd, ?_, ?_⟩
    · intro z
      rcases key z with hz | hz | hz
      · have hz' : (z : ℚ) ≤ r - 1 := by exact_mod_cast hz
        have : 1 / 2 ≤ |t - z| := by
          rw [le_abs]
          left
          linarith
        linarith
      · rw [hz]
      · have hz' : (r : ℚ) + 1 ≤ z := by exact_mod_cast hz
        have : 1 / 2 ≤ |t - z| := by
          rw [le_abs]
          right
          linarith
        linarith
    · intro z hz
      rcases key z with hz1 | hz1 | hz1
      · have hz' : (z : ℚ) ≤ r - 1 := by exact_mod_cast hz1
        have h4 : 1 / 2 < |t - z| := by
          rw [lt_abs]
          left
          linarith
        rw [hz] at h4
        linarith
      · rw [hz1]
      · have hz' : (r : ℚ) + 1 ≤ z := by exact_mod_cast hz1
        have h3 : 1 / 2 ≤ |t - z| := by
          rw [le_abs]
          right
          linarith
        have h4 : |t - r| = 1 / 2 := le_antisymm hd (hz ▸ h3)
        have h5 : -(t - z) ≤ 1 / 2 := by
          have := neg_le_abs (t - z)
          rw [hz, h4] at this
          exact this
        have h6 : (z : ℚ) < 1 := by linarith
        have h7 : z < (1 : Int) := by exact_mod_cast h6
        rw [abs_of_nonpos (by omega), abs_of_nonpos (by omega)]
        omega

/-- Where the binary32 sum of the sample and the signed half is exact,
`roundint8f` rounds to the nearest integer with ties away from zero: for every
`t` with an exact sum whose truncation lies in the `int8_t` range,
`roundint8f t` is `t + 1/2` truncated when `t ≥ 0` and `t - 1/2` truncated when
`t < 0`; this integer is at most one half away from `t`, no integer is nearer
to `t`, and every integer equally near has at most its magnitude. -/
theorem roundint8f_of_exact_sum (t : ℚ)
    (hex : round32 (t + (if t ≥ 0 then (1 / 2 : ℚ) else -(1 / 2 : ℚ)))
      = t + (if t ≥ 0 then (1 / 2 : ℚ) else -(1 / 2 : ℚ)))
    (hlo : -128 ≤ truncToZero (t + (if t ≥ 0 then (1 / 2 : ℚ) else -(1 / 2 : ℚ))))
    (hhi : truncToZero (t + (if t ≥ 0 then (1 / 2 : ℚ) else -(1 / 2 : ℚ))) ≤ 127) :
    (0 ≤ t → roundint8f t = truncToZero (t + 1 / 2)) ∧
    (t < 0 → roundint8f t = truncToZero (t - 1 / 2)) ∧
    |t - roundint8f t| ≤ 1 / 2 ∧
    (∀ z : Int, |t - roundint8f t| ≤ |t - z|) ∧
    (∀ z : Int, |t - z| = |t - roundint8f t| → |z| ≤ |roundint8f t|) := by
  have hr : roundint8f t
      = truncToZero (t + (if t ≥ 0 then (1 / 2 : ℚ) else -(1 / 2 : ℚ))) := by
    unfold roundint8f
    rw [hex]
    exact toInt8_of_range _ hlo hhi
  by_cases ht : 0 ≤ t
  · have hr1 : roundint8f t = ⌊t + 1 / 2⌋ := by
      rw [hr, if_pos ht, truncToZero_add_half t ht]
    have hn := nearest_away_of_bounds t (roundint8f t)
      (Or.inl ⟨ht, by rw [hr1]; exact Int.floor_le _, by rw [hr1]; exact Int.lt_floor_add_one _⟩)
    exact ⟨fun _ => by rw [hr1, truncToZero_add_half t ht], fun h => absurd ht (not_le.mpr h),
      hn.1, hn.2.1, hn.2.2⟩
  · have ht2 : t < 0 := not_le.mp ht
    have hr1 : roundint8f t = ⌈t - 1 / 2⌉ := by
      rw [hr, if_neg ht, ← sub_eq_add_neg, truncToZero_sub_half t ht2]
    have hn := nearest_away_of_bounds t (roundint8f t)
      (Or.inr ⟨ht2, by rw [hr1]; exact Int.le_ceil _, by
        rw [hr1]
        have := Int.ceil_lt_add_one (t - 1 / 2)
        linarith⟩)
    exact ⟨fun h => absurd h ht, fun _ => by rw [hr1, truncToZero_sub_half t ht2],
      hn.1, hn.2.1, hn.2.2⟩

/-- The binary32 sum just below one: `1 - 2 ^ (-25)` lies midway between the
neighbouring binary32 values `1 - 2 ^ (-24)` and `1`, and the tie goes to `1`,
whose significand is even. -/
theorem round32_below_one : round32 (33554431 / 33554432) = 1 := by
  have he : binade32 (33554431 / 33554432) = -1 := by
    apply binade32_eq
    · decide
    · rw [abs_of_pos (by norm_num)]
      norm_num
    · rw [abs_of_pos (by norm_num)]
      norm_num
  have hf : ⌊(33554431 / 2 : ℚ)⌋ = 16777215 := by
    rw [Int.floor_eq_iff]
    norm_num
  have hq : (33554431 / 33554432 : ℚ) / 2 ^ ((-1 : Int) - 23) = 33554431 / 2 := by
    norm_num [zpow_neg]
  unfold round32
  rw [he, hq]
  unfold roundHalfEven
  rw [hf]
  norm_num [zpow_neg]

/-- The binary32 sum just above minus one rounds to `-1`. -/
theorem round32_above_neg_one : round32 (-33554431 / 33554432) = -1 := by
  have he : binade32 (-33554431 / 33554432) = -1 := by
    apply binade32_eq
    · decide
    · rw [abs_of_neg (by norm_num)]
      norm_num
    · rw [abs_of_neg (by norm_num)]
      norm_num
  have hf : ⌊(-33554431 / 2 : ℚ)⌋ = -16777216 := by
    rw [Int.floor_eq_iff]
    norm_num
  have hq : (-33554431 / 33554432 : ℚ) / 2 ^ ((-1 : Int) - 23) = -33554431 / 2 := by
    norm_num [zpow_neg]
  unfold round32
  rw [he, hq]
  unfold roundHalfEven
  rw [hf]
  norm_num [zpow_neg]

/-- Claim C12 at its failing input: `t = 16777215 / 33554432`, the largest
binary32 value below one half (`0x1.fffffep-2f`, about `0.49999997`). It is a
binary32 value (rounding leaves it unchanged); `t + 1/2` truncated is `0`, in
the `int8_t` range, and `0` is the integer nearest to `t`, so the claim asks
for `roundint8f t = 0`. The binary32 sum `t + 0.5f` is `1.0`, because the exact
sum is a tie that goes to the even neighbour, and `roundint8f t = 1`. With the
sign reversed the claim asks for `0` and `roundint8f (-t) = -1`. -/
theorem C12_below_half_rounds_to_one :
    round32 (16777215 / 33554432) = 16777215 / 33554432 ∧
    truncToZero ((16777215 / 33554432 : ℚ) + 1 / 2) = 0 ∧
    (∀ z : Int, |(16777215 / 33554432 : ℚ) - (0 : Int)| ≤ |(16777215 / 33554432 : ℚ) - z|) ∧
    |(16777215 / 33554432 : ℚ) - (0 : Int)| < |(16777215 / 33554432 : ℚ) - (1 : Int)| ∧
    round32 ((16777215 / 33554432 : ℚ) + 1 / 2) = 1 ∧
    roundint8f (16777215 / 33554432) = 1 ∧
    truncToZero ((-16777215 / 33554432 : ℚ) - 1 / 2) = 0 ∧
    roundint8f (-16777215 / 33554432) = -1 := by
  have hrep : round32 (16777215 / 33554432) = 16777215 / 33554432 := by
    have he : binade32 (16777215 / 33554432) = -2 := by
      apply binade32_eq
      · decide
      · rw [abs_of_pos (by norm_num)]
        norm_num
      · rw [abs_of_pos (by norm_num)]
        norm_num
    refine round32_of_exact _ (-2) 16777215 he ?_
    norm_num [zpow_neg]
  have e : (16777215 / 33554432 : ℚ) + 1 / 2 = 33554431 / 33554432 := by norm_num
  have h0 : truncToZero ((16777215 / 33554432 : ℚ) + 1 / 2) = 0 := by
    unfold truncToZero
    norm_num [Int.floor_eq_iff]
  have hn := nearest_away_of_bounds (16777215 / 33554432) 0
    (Or.inl ⟨by norm_num, by norm_num, by norm_num⟩)
  have hlt : |(16777215 / 33554432 : ℚ) - (0 : Int)| < |(16777215 / 33554432 : ℚ) - (1 : Int)| := by
    rw [abs_of_pos (by norm_num), abs_of_neg (by norm_num)]
    norm_num
  have hs : round32 ((16777215 / 33554432 : ℚ) + 1 / 2) = 1 := by
    rw [e]
    exact round32_below_one
  have h1 : roundint8f (16777215 / 33554432) = 1 := by
    unfold roundint8f
    rw [if_pos (by norm_num), hs]
    simp [truncToZero, toInt8]
  have e2 : (-16777215 / 33554432 : ℚ) + -(1 / 2) = -33554431 / 33554432 := by norm_num
  have h2 : truncToZero ((-16777215 / 33554432 : ℚ) - 1 / 2) = 0 := by
    unfold truncToZero
    norm_num [Int.ceil_eq_iff]
  have h3 : roundint8f (-16777215 / 33554432) = -1 := by
    unfold roundint8f
    rw [if_neg (by norm_num), e2, round32_above_neg_one]
    have hc : ⌈(-1 : ℚ)⌉ = -1 := by
      rw [Int.ceil_eq_iff]
      norm_num
    norm_num [truncToZero, toInt8, hc]
  exact ⟨hrep, h0, hn.2.1, hlt, hs, h1, h2, h3⟩

/-- Claim C13: mailbox take-once. With the queue of length one modelled as an
optional slot, for every sample `x` and every prior content of the mailbox, a
non-blocking receive right after an overwrite-publish of `x` returns `x`, and a
second receive with no publish in between returns nothing. -/
theorem C13_mailbox_take_once (queue : Option ℚ) (x : ℚ) :
    (xQueueReceive (xQueueOverwrite queue x).2).1 = some x ∧
    (xQueueReceive (xQueueReceive (xQueueOverwrite queue x).2).2).1 = none :=
  ⟨rfl, rfl⟩

/-- Claim C14: mailbox overwrite without queueing. For every pair of samples `x`
and `y` and every prior content of the mailbox, publishing `x` and then `y`
leaves the mailbox as publishing `y` alone does, so the next receive returns
`y` and the one after returns nothing; a publish always reports success and
its effect does not depend on what the mailbox held. -/
theorem C14_mailbox_overwrite (queue queue2 : Option ℚ) (x y : ℚ) :
    (xQueueOverwrite (xQueueOverwrite queue x).2 y).2 = (xQueueOverwrite queue y).2 ∧
    (xQueueReceive (xQueueOverwrite (xQueueOverwrite queue x).2 y).2).1 = some y ∧
    (xQueueReceive (xQueueReceive (xQueueOverwrite (xQueueOverwrite queue x).2 y).2).2).1
      = none ∧
    (xQueueOverwrite queue x).1 = true ∧
    xQueueOverwrite queue y = xQueueOverwrite queue2 y :=
  ⟨rfl, rfl, rfl, rfl, rfl⟩

/-- The test `startsWith s needle` holds exactly when `s` begins with `needle`. -/
theorem startsWith_iff : ∀ (s needle : List Char),
    startsWith s needle = true ↔ ∃ t, s = needle ++ t := by
  intro s needle
  induction needle generalizing s with
  | nil => simp [startsWith]
  | cons d needle ih =>
    cases s with
    | nil => simp [startsWith]
    | cons c s =>
      simp only [startsWith, Bool.and_eq_true, beq_iff_eq, ih, List.cons_append, List.cons.injEq]
      constructor
      · rintro ⟨rfl, t, rfl⟩
        exact ⟨t, rfl, rfl⟩
      · rintro ⟨t, rfl, rfl⟩
        exact ⟨rfl, t, rfl⟩

/-- When the first occurrence of `needle` in a string starts after `pre`,
`strstr` returns the pointer to it. -/
theorem strstr_first (needle : List Char) : ∀ (pre post : List Char),
    (∀ p s, pre ++ needle ++ post = p ++ needle ++ s → pre.length ≤ p.length) →
    strstr needle (pre ++ needle ++ post) = some (needle ++ post) := by
  intro pre
  induction pre with
  | nil =>
    intro post _
    have hs : startsWith (needle ++ post) needle = true :=
      (startsWith_iff _ _).mpr ⟨post, rfl⟩
    simp only [List.nil_append]
    cases hl : needle ++ post with
    | nil =>
      rw [hl] at hs
      simp [strstr, hs]
    | cons c l =>
      rw [hl] at hs
      simp [strstr, hs]
  | cons c pre ih =>
    intro post h
    have hn : startsWith (c :: (pre ++ needle ++ post)) needle = false := by
      cases hb : startsWith (c :: (pre ++ needle ++ post)) needle with
      | false => rfl
      | true =>
        obtain ⟨t, ht⟩ := (startsWith_iff _ _).mp hb
        have := h [] t (by simpa using ht)
        simp at this
    have ih2 := ih post (by
      intro p s hps
      have := h (c :: p) s (by simp [hps])
      simpa using this)
    have e : (c :: pre) ++ needle ++ post = c :: (pre ++ needle ++ post) := by simp
    rw [e, strstr, if_neg (by rw [hn]; exact Bool.false_ne_true)]
    exact ih2

/-- When `needle` does not occur in a string, `strstr` returns the null pointer. -/
theorem strstr_none (needle : List Char) : ∀ (hay : List Char),
    (∀ p s, hay ≠ p ++ needle ++ s) → strstr needle hay = none := by
  intro hay
  induction hay with
  | nil =>
    intro h
    have hn : startsWith [] needle = false := by
      cases hb : startsWith [] needle with
      | false => rfl
      | true =>
        obtain ⟨t, ht⟩ := (startsWith_iff _ _).mp hb
        exact absurd (by simpa using ht) (h [] t)
    simp [strstr, hn]
  | cons c hay ih =>
    intro h
    have hn : startsWith (c :: hay) needle = false := by
      cases hb : startsWith (c :: hay) needle with
      | false => rfl
      | true =>
        obtain ⟨t, ht⟩ := (startsWith_iff _ _).mp hb
        exact absurd (by simpa using ht) (h [] t)
    have ih2 := ih (by
      intro p s hps
      exact h (c :: p) s (by simp [hps]))
    simp [strstr, hn, ih2]

/-- When `ch` first occurs after `a`, `strchr` returns the pointer to it. -/
theorem strchr_first (ch : Char) : ∀ (a b : List Char), ch ∉ a →
    strchr ch (a ++ ch :: b) = some (ch :: b) := by
  intro a
  induction a with
  | nil =>
    intro b _
    simp [strchr]
  | cons c a ih =>
    intro b h
    have hc : c ≠ ch := fun e => h (e ▸ List.mem_cons_self c a)
    have ha : ch ∉ a := fun e => h (List.mem_cons_of_mem c e)
    simp [strchr, hc, ih b ha]

/-- When `ch` does not occur in a string, `strchr` returns the null pointer. -/
theorem strchr_none (ch : Char) : ∀ (s : List Char), ch ∉ s → strchr ch s = none := by
  intro s
  induction s with
  | nil =>
    intro _
    rfl
  | cons c s ih =>
    intro h
    have hc : c ≠ ch := fun e => h (e ▸ List.mem_cons_self c s)
    have ha : ch ∉ s := fun e => h (List.mem_cons_of_mem c e)
    simp [strchr, hc, ih ha]


/-- The setpoint read when the client is created: the extraction applied to the
response buffer. -/
theorem get_set_temp_of_client {σ : Type} (T : Transport σ) (n : Net σ)
    (h : (T.client_init n.dev).1 = true) :
    (http_rest_with_url_get_set_temp T n).1 =
      parse_set_temp (local_response_buffer
        (T.perform ⟨Method.GET, "/set-temperature".toList,
          "\x7b\"type\": \"Normal\"\x7d".toList⟩ (T.client_init n.dev).2).1) := by
  unfold http_rest_with_url_get_set_temp
  cases hc : T.client_init n.dev with
  | mk b d =>
    rw [hc] at h
    simp only at h
    subst h
    rfl

/-- The setpoint read when the client cannot be created. -/
theorem get_set_temp_no_client {σ : Type} (T : Transport σ) (n : Net σ)
    (h : (T.client_init n.dev).1 = false) :
    (http_rest_with_url_get_set_temp T n).1 = 99 := by
  unfold http_rest_with_url_get_set_temp
  cases hc : T.client_init n.dev with
  | mk b d =>
    rw [hc] at h
    simp only at h
    subst h
    rfl

/-- A decimal digit is neither white space nor a sign. -/
theorem isdigit_not_space_sign (c : Char) (h : isdigit c = true) :
    isspace c = false ∧ c ≠ '-' ∧ c ≠ '+' := by
  refine ⟨?_, ?_, ?_⟩
  · cases hs : isspace c with
    | false => rfl
    | true =>
      simp only [isspace, Bool.or_eq_true, beq_iff_eq] at hs
      rcases hs with ((((hs | hs) | hs) | hs) | hs) | hs <;> subst hs <;> revert h <;> decide
  · rintro rfl
    revert h
    decide
  · rintro rfl
    revert h
    decide

/-- Leading white space is skipped. -/
theorem dropWhile_isspace_append : ∀ (ws l : List Char), (∀ c ∈ ws, isspace c = true) →
    List.dropWhile isspace (ws ++ l) = List.dropWhile isspace l := by
  intro ws
  induction ws with
  | nil =>
    intro l _
    rfl
  | cons w ws ih =>
    intro l h
    have hw : isspace w = true := h w (List.mem_cons_self w ws)
    have := ih l (fun c hc => h c (List.mem_cons_of_mem w hc))
    simp [List.dropWhile_cons, hw, this]

/-- The digit run read from a text that starts with digits and goes on with
something else. -/
theorem takeWhile_isdigit_append : ∀ (ds rest : List Char), (∀ c ∈ ds, isdigit c = true) →
    (∀ c, rest.head? = some c → isdigit c = false) →
    List.takeWhile isdigit (ds ++ rest) = ds := by
  intro ds
  induction ds with
  | nil =>
    intro rest _ hr
    cases rest with
    | nil => rfl
    | cons r rest =>
      have := hr r rfl
      simp [List.takeWhile_cons, this]
  | cons d ds ih =>
    intro rest h hr
    have hd : isdigit d = true := h d (List.mem_cons_self d ds)
    have := ih rest (fun c hc => h c (List.mem_cons_of_mem d hc)) hr
    simp [List.takeWhile_cons, hd, this]

/-- The conversion `%hhu` on white space, a digit run of value at most `255`
and a rest that does not go on with a digit: the value of the digit run. -/
theorem sscanf_hhu_digits (ws ds rest : List Char) (tSet : Nat)
    (hws : ∀ c ∈ ws, isspace c = true) (hne : ds ≠ [])
    (hds : ∀ c ∈ ds, isdigit c = true)
    (hrest : ∀ c, rest.head? = some c → isdigit c = false)
    (hval : digitsValue ds ≤ 255) :
    sscanf_hhu (ws ++ ds ++ rest) tSet = digitsValue ds := by
  obtain ⟨d, ds', rfl⟩ := List.exists_cons_of_ne_nil hne
  have hd := isdigit_not_space_sign d (hds d (List.mem_cons_self d ds'))
  have h1 : List.dropWhile isspace (ws ++ (d :: ds') ++ rest) = d :: ds' ++ rest := by
    rw [List.append_assoc, dropWhile_isspace_append ws _ hws]
    simp [List.dropWhile_cons, hd.1]
  have h2 : List.takeWhile isdigit (d :: ds' ++ rest) = d :: ds' :=
    takeWhile_isdigit_append (d :: ds') rest hds hrest
  unfold sscanf_hhu
  simp only [h1]
  have h3 : ((d :: ds' ++ rest).head? == some '-') = false := by
    simp [hd.2.1]
  have h4 : ((d :: ds' ++ rest).head? == some '+') = false := by
    simp [hd.2.2]
  simp only [h3, h4, Bool.or_self, Bool.false_eq_true, if_false, h2, List.isEmpty_cons]
  unfold strtoul10 ULONG_MAX
  simp only []
  rw [if_neg (by omega), if_neg (by simp)]
  omega

/-- The conversion `%hhu` on a text that, after white space and an optional
sign, does not go on with a digit: nothing is stored. -/
theorem sscanf_hhu_no_digits (t : List Char) (tSet : Nat)
    (h : ∀ d l, isdigit d = true →
      List.dropWhile isspace t ≠ d :: l ∧ List.dropWhile isspace t ≠ '+' :: d :: l ∧
        List.dropWhile isspace t ≠ '-' :: d :: l) :
    sscanf_hhu t tSet = tSet := by
  unfold sscanf_hhu
  cases h1 : List.dropWhile isspace t with
  | nil => simp
  | cons c l =>
    rw [h1] at h
    by_cases hc : c = '-' ∨ c = '+'
    · have e : (((c :: l).head? == some '-' || (c :: l).head? == some '+') = true) := by
        rcases hc with rfl | rfl <;> simp
      simp only [e, if_true, List.drop_succ_cons, List.drop_zero]
      cases l with
      | nil => simp
      | cons d l' =>
        have hd : isdigit d = false := by
          cases hb : isdigit d with
          | false => rfl
          | true =>
            have := h d l' hb
            rcases hc with rfl | rfl
            · exact absurd rfl this.2.2
            · exact absurd rfl this.2.1
        simp [List.takeWhile_cons, hd]
    · have e : (((c :: l).head? == some '-' || (c :: l).head? == some '+') = false) := by
        simp only [not_or] at hc
        simp [hc.1, hc.2]
      have hd : isdigit c = false := by
        cases hb : isdigit c with
        | false => rfl
        | true => exact absurd rfl (h c l hb).1
      simp only [e, Bool.false_eq_true, if_false, List.takeWhile_cons, hd, List.isEmpty_nil,
        if_true]


/-- The extraction of `"value"` when the first occurrence of the key is followed
by a colon: the number is scanned in the text after the first colon. -/
theorem parse_set_temp_at_colon (pre mid tail : List Char)
    (hfirst : ∀ p s, pre ++ "\"value\"".toList ++ (mid ++ ':' :: tail)
      = p ++ "\"value\"".toList ++ s → pre.length ≤ p.length)
    (hmid : ':' ∉ mid) :
    parse_set_temp (pre ++ "\"value\"".toList ++ (mid ++ ':' :: tail)) = sscanf_hhu tail 0 := by
  unfold parse_set_temp
  rw [strstr_first _ pre _ hfirst]
  have hk : ':' ∉ "\"value\"".toList ++ mid := by
    intro h
    rcases List.mem_append.mp h with h | h
    · revert h
      decide
    · exact hmid h
  have e : "\"value\"".toList ++ (mid ++ ':' :: tail)
      = ("\"value\"".toList ++ mid) ++ ':' :: tail := by
    rw [List.append_assoc]
  simp only [e, strchr_first ':' _ tail hk, List.drop_succ_cons, List.drop_zero]

/-- Claim C15: setpoint extraction on well-formed bodies. When the client is
created and the response buffer holds a text in which the first occurrence of
the key `"value"` is followed by a colon (with no other colon in between), then
by optional white space and a run of decimal digits of value `n ≤ 255` that
does not go on with a further digit, `http_rest_with_url_get_set_temp` returns
`n`, whatever text precedes the key or follows the number. -/
theorem C15_setpoint_extraction {σ : Type} (T : Transport σ) (n : Net σ)
    (pre mid ws ds rest : List Char) (v : Nat)
    (hinit : (T.client_init n.dev).1 = true)
    (hbody : local_response_buffer
        (T.perform ⟨Method.GET, "/set-temperature".toList,
          "\x7b\"type\": \"Normal\"\x7d".toList⟩ (T.client_init n.dev).2).1
      = pre ++ "\"value\"".toList ++ (mid ++ ':' :: (ws ++ ds ++ rest)))
    (hfirst : ∀ p s, pre ++ "\"value\"".toList ++ (mid ++ ':' :: (ws ++ ds ++ rest))
      = p ++ "\"value\"".toList ++ s → pre.length ≤ p.length)
    (hmid : ':' ∉ mid)
    (hws : ∀ c ∈ ws, isspace c = true)
    (hne : ds ≠ [])
    (hds : ∀ c ∈ ds, isdigit c = true)
    (hrest : ∀ c, rest.head? = some c → isdigit c = false)
    (hval : digitsValue ds = v)
    (hv : v ≤ 255) :
    (http_rest_with_url_get_set_temp T n).1 = v := by
  rw [get_set_temp_of_client T n hinit, hbody, parse_set_temp_at_colon pre mid _ hfirst hmid,
    sscanf_hhu_digits ws ds rest 0 hws hne hds hrest (hval ▸ hv), hval]

/-- Claim C15 on the body `{"value": 15}`. -/
theorem C15_setpoint_extraction_witness :
    ((fixed_body "\x7b\"value\": 15\x7d".toList).client_init ()).1 = true ∧
    local_response_buffer
        ((fixed_body "\x7b\"value\": 15\x7d".toList).perform
          ⟨Method.GET, "/set-temperature".toList, "\x7b\"type\": \"Normal\"\x7d".toList⟩
          ((fixed_body "\x7b\"value\": 15\x7d".toList).client_init ()).2).1
      = "\x7b".toList ++ "\"value\"".toList ++ ([] ++ ':' :: (" ".toList ++ "15".toList
          ++ "\x7d".toList)) ∧
    (∀ p s, "\x7b".toList ++ "\"value\"".toList ++ ([] ++ ':' :: (" ".toList ++ "15".toList
          ++ "\x7d".toList)) = p ++ "\"value\"".toList ++ s → "\x7b".toList.length ≤ p.length) ∧
    ':' ∉ ([] : List Char) ∧
    (∀ c ∈ " ".toList, isspace c = true) ∧
    "15".toList ≠ [] ∧
    (∀ c ∈ "15".toList, isdigit c = true) ∧
    (∀ c, "\x7d".toList.head? = some c → isdigit c = false) ∧
    digitsValue "15".toList = 15 ∧
    15 ≤ 255 ∧
    (http_rest_with_url_get_set_temp (fixed_body "\x7b\"value\": 15\x7d".toList) ⟨(), []⟩).1
      = 15 := by
  have h1 : ((fixed_body "\x7b\"value\": 15\x7d".toList).client_init ()).1 = true := rfl
  have h2 : local_response_buffer
        ((fixed_body "\x7b\"value\": 15\x7d".toList).perform
          ⟨Method.GET, "/set-temperature".toList, "\x7b\"type\": \"Normal\"\x7d".toList⟩
          ((fixed_body "\x7b\"value\": 15\x7d".toList).client_init ()).2).1
      = "\x7b".toList ++ "\"value\"".toList ++ ([] ++ ':' :: (" ".toList ++ "15".toList
          ++ "\x7d".toList)) := by decide
  have h3 : ∀ p s, "\x7b".toList ++ "\"value\"".toList ++ ([] ++ ':' :: (" ".toList
      ++ "15".toList ++ "\x7d".toList)) = p ++ "\"value\"".toList ++ s
      → "\x7b".toList.length ≤ p.length := by
    intro p s h
    cases p with
    | nil =>
      exfalso
      revert h
      simp
    | cons c p => simp
  have h4 : ':' ∉ ([] : List Char) := List.not_mem_nil _
  have h5 : ∀ c ∈ " ".toList, isspace c = true := by decide
  have h6 : "15".toList ≠ [] := by decide
  have h7 : ∀ c ∈ "15".toList, isdigit c = true := by decide
  have h8 : ∀ c, "\x7d".toList.head? = some c → isdigit c = false := by
    intro c hc
    have : c = '\x7d' := by
      have e : "\x7d".toList.head? = some '\x7d' := rfl
      rw [e] at hc
      exact (Option.some.inj hc).symm
    subst this
    rfl
  have h9 : digitsValue "15".toList = 15 := by decide
  have h10 : 15 ≤ 255 := by decide
  exact ⟨h1, h2, h3, h4, h5, h6, h7, h8, h9, h10,
    C15_setpoint_extraction (fixed_body "\x7b\"value\": 15\x7d".toList) ⟨(), []⟩
      "\x7b".toList [] " ".toList "15".toList "\x7d".toList 15 h1 h2 h3 h4 h5 h6 h7 h8 h9 h10⟩


/-- Claim C16: setpoint extraction falls back to `0`. When the client is created
and the response buffer holds a text in which the key `"value"` does not occur,
or in which no colon follows the first occurrence of the key, or in which the
text after the first colon that follows the key does not start, after white
space, with a number (a run of digits, possibly behind a sign),
`http_rest_with_url_get_set_temp` returns `0`. -/
theorem C16_setpoint_fallback {σ : Type} (T : Transport σ) (n : Net σ) (buf : List Char)
    (hinit : (T.client_init n.dev).1 = true)
    (hbody : local_response_buffer
        (T.perform ⟨Method.GET, "/set-temperature".toList,
          "\x7b\"type\": \"Normal\"\x7d".toList⟩ (T.client_init n.dev).2).1 = buf)
    (h : (∀ p s, buf ≠ p ++ "\"value\"".toList ++ s) ∨
      (∃ pre post, buf = pre ++ "\"value\"".toList ++ post ∧
        (∀ p s, pre ++ "\"value\"".toList ++ post = p ++ "\"value\"".toList ++ s
          → pre.length ≤ p.length) ∧
        ':' ∉ post) ∨
      (∃ pre mid tail, buf = pre ++ "\"value\"".toList ++ (mid ++ ':' :: tail) ∧
        (∀ p s, pre ++ "\"value\"".toList ++ (mid ++ ':' :: tail)
          = p ++ "\"value\"".toList ++ s → pre.length ≤ p.length) ∧
        ':' ∉ mid ∧
        (∀ d l, isdigit d = true →
          List.dropWhile isspace tail ≠ d :: l ∧ List.dropWhile isspace tail ≠ '+' :: d :: l ∧
            List.dropWhile isspace tail ≠ '-' :: d :: l))) :
    (http_rest_with_url_get_set_temp T n).1 = 0 := by
  rw [get_set_temp_of_client T n hinit, hbody]
  rcases h with h | ⟨pre, post, rfl, hfirst, hpost⟩ | ⟨pre, mid, tail, rfl, hfirst, hmid, hnum⟩
  · unfold parse_set_temp
    rw [strstr_none _ buf h]
  · unfold parse_set_temp
    rw [strstr_first _ pre post hfirst]
    have hk : ':' ∉ "\"value\"".toList ++ post := by
      intro h
      rcases List.mem_append.mp h with h | h
      · revert h
        decide
      · exact hpost h
    simp only [strchr_none ':' _ hk]
  · rw [parse_set_temp_at_colon pre mid tail hfirst hmid]
    exact sscanf_hhu_no_digits tail 0 hnum

/-- Claim C16 on the body `{"value": }`. -/
theorem C16_setpoint_fallback_witness :
    ((fixed_body "\x7b\"value\": \x7d".toList).client_init ()).1 = true ∧
    local_response_buffer
        ((fixed_body "\x7b\"value\": \x7d".toList).perform
          ⟨Method.GET, "/set-temperature".toList, "\x7b\"type\": \"Normal\"\x7d".toList⟩
          ((fixed_body "\x7b\"value\": \x7d".toList).client_init ()).2).1
      = "\x7b\"value\": \x7d".toList ∧
    (∃ pre mid tail, "\x7b\"value\": \x7d".toList
        = pre ++ "\"value\"".toList ++ (mid ++ ':' :: tail) ∧
      (∀ p s, pre ++ "\"value\"".toList ++ (mid ++ ':' :: tail)
        = p ++ "\"value\"".toList ++ s → pre.length ≤ p.length) ∧
      ':' ∉ mid ∧
      (∀ d l, isdigit d = true →
        List.dropWhile isspace tail ≠ d :: l ∧ List.dropWhile isspace tail ≠ '+' :: d :: l ∧
          List.dropWhile isspace tail ≠ '-' :: d :: l)) ∧
    (http_rest_with_url_get_set_temp (fixed_body "\x7b\"value\": \x7d".toList) ⟨(), []⟩).1
      = 0 := by
  have h1 : ((fixed_body "\x7b\"value\": \x7d".toList).client_init ()).1 = true := rfl
  have h2 : local_response_buffer
        ((fixed_body "\x7b\"value\": \x7d".toList).perform
          ⟨Method.GET, "/set-temperature".toList, "\x7b\"type\": \"Normal\"\x7d".toList⟩
          ((fixed_body "\x7b\"value\": \x7d".toList).client_init ()).2).1
      = "\x7b\"value\": \x7d".toList := by decide
  have h3 : ∃ pre mid tail, "\x7b\"value\": \x7d".toList
        = pre ++ "\"value\"".toList ++ (mid ++ ':' :: tail) ∧
      (∀ p s, pre ++ "\"value\"".toList ++ (mid ++ ':' :: tail)
        = p ++ "\"value\"".toList ++ s → pre.length ≤ p.length) ∧
      ':' ∉ mid ∧
      (∀ d l, isdigit d = true →
        List.dropWhile isspace tail ≠ d :: l ∧ List.dropWhile isspace tail ≠ '+' :: d :: l ∧
          List.dropWhile isspace tail ≠ '-' :: d :: l) := by
    refine ⟨"\x7b".toList, [], " \x7d".toList, by decide, ?_, List.not_mem_nil _, ?_⟩
    · intro p s h
      cases p with
      | nil =>
        exfalso
        revert h
        simp
      | cons c p => simp
    · intro d l hd
      have e : List.dropWhile isspace " \x7d".toList = ['\x7d'] := by decide
      rw [e]
      refine ⟨?_, by simp, by simp⟩
      intro hx
      have : d = '\x7d' := by
        simp only [List.cons.injEq] at hx
        exact hx.1.symm
      subst this
      revert hd
      decide
  exact ⟨h1, h2, h3,
    C16_setpoint_fallback (fixed_body "\x7b\"value\": \x7d".toList) ⟨(), []⟩ _ h1 h2
      (Or.inr (Or.inr h3))⟩

/-- The claim C17 as stated fails: when the HTTP client cannot be created,
`http_rest_with_url_get_set_temp` returns `99` and not `0`. -/
theorem C17_counterexample :
    (no_client.client_init ()).1 = false ∧
    (http_rest_with_url_get_set_temp no_client ⟨(), []⟩).1 = 99 := by
  constructor <;> rfl

/-- Claim C17, amended: on a transport failure the setpoint read yields a fixed
value and the cycle goes on. When the HTTP client cannot be created
`http_rest_with_url_get_set_temp` returns `99`; when the client is created and
the request fails and leaves the response buffer empty it returns `0`; in both
cases a control cycle in Idle or in Heating carries out its transition step. -/
theorem C17_transport_failure {σ : Type} (T : Transport σ) (cfg : Config) (opMod : List Char)
    (tSet : Nat) (queue : Option ℚ) (n : Net σ)
    (hfail : (T.client_init n.dev).1 = false ∨
      ((T.client_init n.dev).1 = true ∧
        local_response_buffer
          (T.perform ⟨Method.GET, "/set-temperature".toList,
            "\x7b\"type\": \"Normal\"\x7d".toList⟩ (T.client_init n.dev).2).1 = [])) :
    (http_rest_with_url_get_set_temp T n).1 = (if (T.client_init n.dev).1 then 0 else 99) ∧
    (http_test_task_mod_cycle T cfg ⟨HEATG_CTRL_ST_IDLE, opMod, tSet⟩ queue
      n.dev).task.heatgCtrlSt =
      (if 0 = cfg.CONFIG_ENA_REMOTE_CTRL then HEATG_CTRL_ST_OFF
       else if tSnsr_of queue < cfg.CONFIG_T_THRES_LOWR then HEATG_CTRL_ST_HEATING
       else HEATG_CTRL_ST_IDLE) ∧
    (http_test_task_mod_cycle T cfg ⟨HEATG_CTRL_ST_HEATING, opMod, tSet⟩ queue
      n.dev).task.heatgCtrlSt =
      (if 0 = cfg.CONFIG_ENA_REMOTE_CTRL then HEATG_CTRL_ST_OFF
       else if tSnsr_of queue > cfg.CONFIG_T_THRES_UPPR then HEATG_CTRL_ST_IDLE
       else HEATG_CTRL_ST_HEATING) := by
  refine ⟨?_, rfl, rfl⟩
  rcases hfail with h | ⟨h, hb⟩
  · rw [get_set_temp_no_client T n h, h]
    rfl
  · rw [get_set_temp_of_client T n h, hb, h]
    rfl

/-- Claim C17 on a transport whose client cannot be created. -/
theorem C17_transport_failure_witness :
    ((no_client.client_init (⟨(), []⟩ : Net Unit).dev).1 = false ∨
      ((no_client.client_init (⟨(), []⟩ : Net Unit).dev).1 = true ∧
        local_response_buffer
          (no_client.perform ⟨Method.GET, "/set-temperature".toList,
            "\x7b\"type\": \"Normal\"\x7d".toList⟩
            (no_client.client_init (⟨(), []⟩ : Net Unit).dev).2).1 = [])) ∧
    (http_rest_with_url_get_set_temp no_client ⟨(), []⟩).1 = 99 ∧
    (http_test_task_mod_cycle no_client ⟨0, 1, 18, 22⟩
      ⟨HEATG_CTRL_ST_IDLE, List.replicate 64 NUL, 0⟩ none ()).task.heatgCtrlSt
      = HEATG_CTRL_ST_HEATING :=
  ⟨Or.inl rfl,
    (C17_transport_failure no_client ⟨0, 1, 18, 22⟩ (List.replicate 64 NUL) 0 none ⟨(), []⟩
      (Or.inl rfl)).1,
    (C17_transport_failure no_client ⟨0, 1, 18, 22⟩ (List.replicate 64 NUL) 0 none ⟨(), []⟩
      (Or.inl rfl)).2.1⟩


/-- The mode fetch when the client is created: the extraction applied to the
response buffer. -/
theorem get_op_mod_of_client {σ : Type} (T : Transport σ) (opMod : List Char) (k : Nat)
    (n : Net σ) (h : (T.client_init n.dev).1 = true) :
    (http_rest_with_url_get_op_mod T opMod k n).1 =
      parse_op_mod (local_response_buffer
        (T.perform ⟨Method.GET, "/operation-mode".toList, []⟩ (T.client_init n.dev).2).1)
        opMod k := by
  unfold http_rest_with_url_get_op_mod
  cases hc : T.client_init n.dev with
  | mk b d =>
    rw [hc] at h
    simp only at h
    subst h
    rfl

/-- The extraction of `"mode"` on a text in which the first occurrence of the
key is followed by a colon, an opening quote, a text `s` without quote and a
closing quote: `s` is copied and terminated when its length is below the
capacity converted to `int`, and nothing is written otherwise. -/
theorem parse_op_mod_quoted (pre mid gap s rest opMod : List Char) (k : Nat)
    (hfirst : ∀ p t, pre ++ "\"mode\"".toList ++ (mid ++ ':' :: (gap ++ '"' :: (s ++ '"' :: rest)))
      = p ++ "\"mode\"".toList ++ t → pre.length ≤ p.length)
    (hmid : ':' ∉ mid) (hgap : '"' ∉ gap) (hs : '"' ∉ s) :
    parse_op_mod (pre ++ "\"mode\"".toList ++ (mid ++ ':' :: (gap ++ '"' :: (s ++ '"' :: rest))))
        opMod k =
      if (s.length : Int) < toInt32 k then
        setByte (strncpy opMod (s ++ '"' :: rest) s.length) s.length NUL
      else opMod := by
  unfold parse_op_mod
  rw [strstr_first _ pre _ hfirst]
  have hk : ':' ∉ "\"mode\"".toList ++ mid := by
    intro h
    rcases List.mem_append.mp h with h | h
    · revert h
      decide
    · exact hmid h
  have e : "\"mode\"".toList ++ (mid ++ ':' :: (gap ++ '"' :: (s ++ '"' :: rest)))
      = ("\"mode\"".toList ++ mid) ++ ':' :: (gap ++ '"' :: (s ++ '"' :: rest)) := by
    rw [List.append_assoc]
  have hg : '"' ∉ ':' :: gap := by
    intro h
    rcases List.mem_cons.mp h with h | h
    · revert h
      decide
    · exact hgap h
  have e2 : ':' :: (gap ++ '"' :: (s ++ '"' :: rest))
      = (':' :: gap) ++ '"' :: (s ++ '"' :: rest) := rfl
  have e3 : (s ++ '"' :: rest).length - ('"' :: rest).length = s.length := by
    simp
  simp only [e, strchr_first ':' _ _ hk]
  simp only [e2, strchr_first '"' _ _ hg, List.drop_succ_cons, List.drop_zero,
    strchr_first '"' s rest hs, e3]

/-- Copying the first `s.length` characters of a NUL-free text that starts with
`s` and terminating them: the buffer starts with `s` and a NUL and keeps its
other bytes. -/
theorem setByte_strncpy_eq (opMod s rest : List Char) (hs : ∀ c ∈ s ++ rest, c ≠ NUL) :
    setByte (strncpy opMod (s ++ rest) s.length) s.length NUL
      = s ++ NUL :: opMod.drop (s.length + 1) := by
  unfold strncpy setByte
  simp only [cstr_eq_self _ hs, List.take_left', List.length_append, Nat.sub_self,
    List.replicate_zero, List.append_nil]
  have e : List.drop (s.length + 1) (s ++ List.drop s.length opMod)
      = List.drop (s.length + 1) opMod := by
    rw [List.drop_append, List.drop_drop, Nat.add_comm]
  rw [e]


/-- The claim C18 as stated fails at a capacity that the `int` of the length
test cannot hold: with the capacity `2 ^ 31`, a buffer of that many bytes that
holds "Weekly program" and the body `{"mode": "Control individually"}`, the
mode string has `20` characters, fewer than the capacity, but the cast
`(int)opMod_size` is `-2 ^ 31`, the test `len < (int)opMod_size` fails and
nothing is written: the buffer still holds "Weekly program". -/
theorem C18_counterexample :
    "Control individually".toList.length < 2147483648 ∧
    toInt32 (2147483648 : Nat) = -2147483648 ∧
    ("Weekly program".toList ++ NUL :: List.replicate 2147483633 NUL).length = 2147483648 ∧
    (http_rest_with_url_get_op_mod
        (fixed_body "\x7b\"mode\": \"Control individually\"\x7d".toList)
        ("Weekly program".toList ++ NUL :: List.replicate 2147483633 NUL) 2147483648 ⟨(), []⟩).1
      = "Weekly program".toList ++ NUL :: List.replicate 2147483633 NUL ∧
    cstr (http_rest_with_url_get_op_mod
        (fixed_body "\x7b\"mode\": \"Control individually\"\x7d".toList)
        ("Weekly program".toList ++ NUL :: List.replicate 2147483633 NUL) 2147483648 ⟨(), []⟩).1
      = "Weekly program".toList ∧
    cstr (http_rest_with_url_get_op_mod
        (fixed_body "\x7b\"mode\": \"Control individually\"\x7d".toList)
        ("Weekly program".toList ++ NUL :: List.replicate 2147483633 NUL) 2147483648 ⟨(), []⟩).1
      ≠ "Control individually".toList := by
  have hw : ∀ opMod : List Char, (http_rest_with_url_get_op_mod
        (fixed_body "\x7b\"mode\": \"Control individually\"\x7d".toList)
        opMod 2147483648 ⟨(), []⟩).1 = opMod := fun _ => rfl
  have hc : cstr ("Weekly program".toList ++ NUL :: List.replicate 2147483633 NUL)
      = "Weekly program".toList :=
    cstr_append_nul _ _ (by decide)
  refine ⟨by decide, by decide, ?_, hw _, ?_, ?_⟩
  · rw [List.length_append, List.length_cons, List.length_replicate]
    rfl
  · rw [hw, hc]
  · rw [hw, hc]
    decide

/-- Claim C18, amended: mode extraction on well-formed bodies with a capacity
that fits the `int` of the length test. When the client is created, the
capacity is below `2 ^ 31` and the response buffer holds a text in which the
first occurrence of the key `"mode"` is followed by a colon, then by an opening
quote, then by a string `s` without quote that is shorter than the capacity,
then by a closing quote, `http_rest_with_url_get_op_mod` writes exactly `s` and
its terminator at the start of the output buffer: the buffer then holds the
string `s`, and its bytes behind the terminator are those it had. -/
theorem C18_mode_extraction {σ : Type} (T : Transport σ) (opMod : List Char) (k : Nat)
    (n : Net σ) (pre mid gap s rest : List Char)
    (hinit : (T.client_init n.dev).1 = true)
    (hbody : local_response_buffer
        (T.perform ⟨Method.GET, "/operation-mode".toList, []⟩ (T.client_init n.dev).2).1
      = pre ++ "\"mode\"".toList ++ (mid ++ ':' :: (gap ++ '"' :: (s ++ '"' :: rest))))
    (hfirst : ∀ p t,
      pre ++ "\"mode\"".toList ++ (mid ++ ':' :: (gap ++ '"' :: (s ++ '"' :: rest)))
        = p ++ "\"mode\"".toList ++ t → pre.length ≤ p.length)
    (hmid : ':' ∉ mid) (hgap : '"' ∉ gap) (hs : '"' ∉ s) (hlen : s.length < k)
    (hint : k < 2147483648) :
    (http_rest_with_url_get_op_mod T opMod k n).1 = s ++ NUL :: opMod.drop (s.length + 1) ∧
    cstr (http_rest_with_url_get_op_mod T opMod k n).1 = s := by
  have hnul : ∀ c ∈ s ++ '"' :: rest, c ≠ NUL := by
    intro c hc
    have hb := cstr_ne_nul
      ((T.perform ⟨Method.GET, "/operation-mode".toList, []⟩ (T.client_init n.dev).2).1.take
        MAX_HTTP_OUTPUT_BUFFER) c
    apply hb
    show c ∈ local_response_buffer _
    rw [hbody]
    simp only [List.mem_append, List.mem_cons] at hc ⊢
    tauto
  have hcast : (s.length : Int) < toInt32 (k : Int) := by
    rw [toInt32_of_lt k hint]
    exact_mod_cast hlen
  have hw : (http_rest_with_url_get_op_mod T opMod k n).1
      = s ++ NUL :: opMod.drop (s.length + 1) := by
    rw [get_op_mod_of_client T opMod k n hinit, hbody,
      parse_op_mod_quoted pre mid gap s rest opMod k hfirst hmid hgap hs, if_pos hcast,
      setByte_strncpy_eq opMod s _ hnul]
  refine ⟨hw, ?_⟩
  rw [hw]
  exact cstr_append_nul s _ (fun c hc => hnul c (List.mem_append_left _ hc))

/-- Claim C18 on the body `{"mode": "Control individually"}` with the capacity
`64`. -/
theorem C18_mode_extraction_witness :
    ((fixed_body "\x7b\"mode\": \"Control individually\"\x7d".toList).client_init ()).1 = true ∧
    local_response_buffer
        ((fixed_body "\x7b\"mode\": \"Control individually\"\x7d".toList).perform
          ⟨Method.GET, "/operation-mode".toList, []⟩
          ((fixed_body "\x7b\"mode\": \"Control individually\"\x7d".toList).client_init ()).2).1
      = "\x7b".toList ++ "\"mode\"".toList ++ ([] ++ ':' :: (" ".toList ++ '"' ::
          ("Control individually".toList ++ '"' :: "\x7d".toList))) ∧
    (∀ p t, "\x7b".toList ++ "\"mode\"".toList ++ ([] ++ ':' :: (" ".toList ++ '"' ::
          ("Control individually".toList ++ '"' :: "\x7d".toList)))
        = p ++ "\"mode\"".toList ++ t → "\x7b".toList.length ≤ p.length) ∧
    ':' ∉ ([] : List Char) ∧ '"' ∉ " ".toList ∧ '"' ∉ "Control individually".toList ∧
    "Control individually".toList.length < 64 ∧ 64 < 2147483648 ∧
    cstr (http_rest_with_url_get_op_mod
        (fixed_body "\x7b\"mode\": \"Control individually\"\x7d".toList)
        (List.replicate 64 NUL) 64 ⟨(), []⟩).1 = "Control individually".toList := by
  have h1 : ((fixed_body "\x7b\"mode\": \"Control individually\"\x7d".toList).client_init
      ()).1 = true := rfl
  have h2 : local_response_buffer
        ((fixed_body "\x7b\"mode\": \"Control individually\"\x7d".toList).perform
          ⟨Method.GET, "/operation-mode".toList, []⟩
          ((fixed_body "\x7b\"mode\": \"Control individually\"\x7d".toList).client_init ()).2).1
      = "\x7b".toList ++ "\"mode\"".toList ++ ([] ++ ':' :: (" ".toList ++ '"' ::
          ("Control individually".toList ++ '"' :: "\x7d".toList))) := by decide
  have h3 : ∀ p t, "\x7b".toList ++ "\"mode\"".toList ++ ([] ++ ':' :: (" ".toList ++ '"' ::
          ("Control individually".toList ++ '"' :: "\x7d".toList)))
        = p ++ "\"mode\"".toList ++ t → "\x7b".toList.length ≤ p.length := by
    intro p t h
    cases p with
    | nil =>
      exfalso
      revert h
      simp
    | cons c p => simp
  have h4 : ':' ∉ ([] : List Char) := List.not_mem_nil _
  have h5 : '"' ∉ " ".toList := by decide
  have h6 : '"' ∉ "Control individually".toList := by decide
  have h7 : "Control individually".toList.length < 64 := by decide
  have h8 : 64 < 2147483648 := by decide
  exact ⟨h1, h2, h3, h4, h5, h6, h7, h8,
    (C18_mode_extraction (fixed_body "\x7b\"mode\": \"Control individually\"\x7d".toList)
      (List.replicate 64 NUL) 64 ⟨(), []⟩ "\x7b".toList [] " ".toList
      "Control individually".toList "\x7d".toList h1 h2 h3 h4 h5 h6 h7 h8).2⟩

/-- Claim C19: mode extraction on a structural mismatch leaves the output
untouched. When the client is created and the response buffer holds a text in
which the key `"mode"` does not occur, or no colon follows its first occurrence,
or no quote follows that colon, or no closing quote follows the opening one,
`http_rest_with_url_get_op_mod` returns with the output buffer as it was. -/
theorem C19_mode_mismatch_untouched {σ : Type} (T : Transport σ) (opMod : List Char) (k : Nat)
    (n : Net σ) (buf : List Char)
    (hinit : (T.client_init n.dev).1 = true)
    (hbody : local_response_buffer
        (T.perform ⟨Method.GET, "/operation-mode".toList, []⟩ (T.client_init n.dev).2).1 = buf)
    (h : (∀ p t, buf ≠ p ++ "\"mode\"".toList ++ t) ∨
      (∃ pre post, buf = pre ++ "\"mode\"".toList ++ post ∧
        (∀ p t, pre ++ "\"mode\"".toList ++ post = p ++ "\"mode\"".toList ++ t
          → pre.length ≤ p.length) ∧
        ':' ∉ post) ∨
      (∃ pre mid tail, buf = pre ++ "\"mode\"".toList ++ (mid ++ ':' :: tail) ∧
        (∀ p t, pre ++ "\"mode\"".toList ++ (mid ++ ':' :: tail) = p ++ "\"mode\"".toList ++ t
          → pre.length ≤ p.length) ∧
        ':' ∉ mid ∧ '"' ∉ tail) ∨
      (∃ pre mid gap tail, buf = pre ++ "\"mode\"".toList ++ (mid ++ ':' :: (gap ++ '"' :: tail)) ∧
        (∀ p t, pre ++ "\"mode\"".toList ++ (mid ++ ':' :: (gap ++ '"' :: tail))
          = p ++ "\"mode\"".toList ++ t → pre.length ≤ p.length) ∧
        ':' ∉ mid ∧ '"' ∉ gap ∧ '"' ∉ tail)) :
    (http_rest_with_url_get_op_mod T opMod k n).1 = opMod := by
  have hkey : ∀ l, ':' ∉ l → ':' ∉ "\"mode\"".toList ++ l := by
    intro l hl h
    rcases List.mem_append.mp h with h | h
    · revert h
      decide
    · exact hl h
  have hcol : ∀ l, '"' ∉ l → '"' ∉ ':' :: l := by
    intro l hl h
    rcases List.mem_cons.mp h with h | h
    · revert h
      decide
    · exact hl h
  rw [get_op_mod_of_client T opMod k n hinit, hbody]
  rcases h with h | ⟨pre, post, rfl, hfirst, hpost⟩ | ⟨pre, mid, tail, rfl, hfirst, hmid, htail⟩ |
    ⟨pre, mid, gap, tail, rfl, hfirst, hmid, hgap, htail⟩
  · unfold parse_op_mod
    rw [strstr_none _ buf h]
  · unfold parse_op_mod
    rw [strstr_first _ pre post hfirst]
    simp only [strchr_none ':' _ (hkey post hpost)]
  · unfold parse_op_mod
    rw [strstr_first _ pre _ hfirst]
    have e : "\"mode\"".toList ++ (mid ++ ':' :: tail)
        = ("\"mode\"".toList ++ mid) ++ ':' :: tail := by
      rw [List.append_assoc]
    simp only [e, strchr_first ':' _ tail (hkey mid hmid)]
    simp only [strchr_none '"' _ (hcol tail htail)]
  · unfold parse_op_mod
    rw [strstr_first _ pre _ hfirst]
    have e : "\"mode\"".toList ++ (mid ++ ':' :: (gap ++ '"' :: tail))
        = ("\"mode\"".toList ++ mid) ++ ':' :: (gap ++ '"' :: tail) := by
      rw [List.append_assoc]
    have e2 : ':' :: (gap ++ '"' :: tail) = (':' :: gap) ++ '"' :: tail := rfl
    simp only [e, strchr_first ':' _ _ (hkey mid hmid)]
    simp only [e2, strchr_first '"' _ tail (hcol gap hgap), List.drop_succ_cons, List.drop_zero,
      strchr_none '"' tail htail]

/-- Claim C19 on the body `{}`, which has no key `"mode"`, and a buffer that
holds "Weekly program". -/
theorem C19_mode_mismatch_untouched_witness :
    ((fixed_body "\x7b\x7d".toList).client_init ()).1 = true ∧
    local_response_buffer
        ((fixed_body "\x7b\x7d".toList).perform ⟨Method.GET, "/operation-mode".toList, []⟩
          ((fixed_body "\x7b\x7d".toList).client_init ()).2).1 = "\x7b\x7d".toList ∧
    (∀ p t, "\x7b\x7d".toList ≠ p ++ "\"mode\"".toList ++ t) ∧
    (http_rest_with_url_get_op_mod (fixed_body "\x7b\x7d".toList)
        ("Weekly program".toList ++ List.replicate 50 NUL) 64 ⟨(), []⟩).1
      = "Weekly program".toList ++ List.replicate 50 NUL := by
  have h1 : ((fixed_body "\x7b\x7d".toList).client_init ()).1 = true := rfl
  have h2 : local_response_buffer
        ((fixed_body "\x7b\x7d".toList).perform ⟨Method.GET, "/operation-mode".toList, []⟩
          ((fixed_body "\x7b\x7d".toList).client_init ()).2).1 = "\x7b\x7d".toList := by decide
  have h3 : ∀ p t, "\x7b\x7d".toList ≠ p ++ "\"mode\"".toList ++ t := by
    intro p t h
    have := congrArg List.length h
    simp at this
    omega
  exact ⟨h1, h2, h3,
    C19_mode_mismatch_untouched (fixed_body "\x7b\x7d".toList)
      ("Weekly program".toList ++ List.replicate 50 NUL) 64 ⟨(), []⟩ _ h1 h2 (Or.inl h3)⟩


/-- The claim C20 as stated fails: with the capacity `64`, a buffer that holds
"Weekly program" and a response whose quoted mode string has 64 characters,
the buffer still holds "Weekly program" after `http_rest_with_url_get_op_mod`,
not the empty string. -/
theorem C20_counterexample :
    (List.replicate 64 'x').length ≥ 64 ∧
    cstr (http_rest_with_url_get_op_mod
        (fixed_body ("\x7b\"mode\": \"".toList ++ List.replicate 64 'x' ++ "\"\x7d".toList))
        ("Weekly program".toList ++ List.replicate 50 NUL) 64 ⟨(), []⟩).1
      = "Weekly program".toList ∧
    cstr (http_rest_with_url_get_op_mod
        (fixed_body ("\x7b\"mode\": \"".toList ++ List.replicate 64 'x' ++ "\"\x7d".toList))
        ("Weekly program".toList ++ List.replicate 50 NUL) 64 ⟨(), []⟩).1 ≠ [] := by
  refine ⟨by decide, by decide, by decide⟩

/-- Claim C20, amended: mode extraction on truncation writes nothing. When the
client is created and the response buffer holds a text in which the first
occurrence of the key `"mode"` is followed by a colon, an opening quote, a
string `s` without quote whose length is at least the capacity and a closing
quote, `http_rest_with_url_get_op_mod` returns with the output buffer as it
was, so the buffer holds the string it held before the call. -/
theorem C20_mode_too_long_untouched {σ : Type} (T : Transport σ) (opMod : List Char) (k : Nat)
    (n : Net σ) (pre mid gap s rest : List Char)
    (hinit : (T.client_init n.dev).1 = true)
    (hbody : local_response_buffer
        (T.perform ⟨Method.GET, "/operation-mode".toList, []⟩ (T.client_init n.dev).2).1
      = pre ++ "\"mode\"".toList ++ (mid ++ ':' :: (gap ++ '"' :: (s ++ '"' :: rest))))
    (hfirst : ∀ p t,
      pre ++ "\"mode\"".toList ++ (mid ++ ':' :: (gap ++ '"' :: (s ++ '"' :: rest)))
        = p ++ "\"mode\"".toList ++ t → pre.length ≤ p.length)
    (hmid : ':' ∉ mid) (hgap : '"' ∉ gap) (hs : '"' ∉ s) (hlen : k ≤ s.length) :
    (http_rest_with_url_get_op_mod T opMod k n).1 = opMod ∧
    cstr (http_rest_with_url_get_op_mod T opMod k n).1 = cstr opMod := by
  have hw : (http_rest_with_url_get_op_mod T opMod k n).1 = opMod := by
    rw [get_op_mod_of_client T opMod k n hinit, hbody,
      parse_op_mod_quoted pre mid gap s rest opMod k hfirst hmid hgap hs,
      if_neg (not_lt_toInt32 _ _ hlen)]
  exact ⟨hw, by rw [hw]⟩

/-- Claim C20 with the capacity `4`, the body `{"mode": "Eco+"}` and a buffer
that holds "Off". -/
theorem C20_mode_too_long_untouched_witness :
    ((fixed_body "\x7b\"mode\": \"Eco+\"\x7d".toList).client_init ()).1 = true ∧
    local_response_buffer
        ((fixed_body "\x7b\"mode\": \"Eco+\"\x7d".toList).perform
          ⟨Method.GET, "/operation-mode".toList, []⟩
          ((fixed_body "\x7b\"mode\": \"Eco+\"\x7d".toList).client_init ()).2).1
      = "\x7b".toList ++ "\"mode\"".toList ++ ([] ++ ':' :: (" ".toList ++ '"' ::
          ("Eco+".toList ++ '"' :: "\x7d".toList))) ∧
    (∀ p t, "\x7b".toList ++ "\"mode\"".toList ++ ([] ++ ':' :: (" ".toList ++ '"' ::
          ("Eco+".toList ++ '"' :: "\x7d".toList)))
        = p ++ "\"mode\"".toList ++ t → "\x7b".toList.length ≤ p.length) ∧
    ':' ∉ ([] : List Char) ∧ '"' ∉ " ".toList ∧ '"' ∉ "Eco+".toList ∧
    4 ≤ "Eco+".toList.length ∧
    cstr (http_rest_with_url_get_op_mod (fixed_body "\x7b\"mode\": \"Eco+\"\x7d".toList)
        ['O', 'f', 'f', NUL] 4 ⟨(), []⟩).1 = cstr ['O', 'f', 'f', NUL] := by
  have h1 : ((fixed_body "\x7b\"mode\": \"Eco+\"\x7d".toList).client_init ()).1 = true := rfl
  have h2 : local_response_buffer
        ((fixed_body "\x7b\"mode\": \"Eco+\"\x7d".toList).perform
          ⟨Method.GET, "/operation-mode".toList, []⟩
          ((fixed_body "\x7b\"mode\": \"Eco+\"\x7d".toList).client_init ()).2).1
      = "\x7b".toList ++ "\"mode\"".toList ++ ([] ++ ':' :: (" ".toList ++ '"' ::
          ("Eco+".toList ++ '"' :: "\x7d".toList))) := by decide
  have h3 : ∀ p t, "\x7b".toList ++ "\"mode\"".toList ++ ([] ++ ':' :: (" ".toList ++ '"' ::
          ("Eco+".toList ++ '"' :: "\x7d".toList)))
        = p ++ "\"mode\"".toList ++ t → "\x7b".toList.length ≤ p.length := by
    intro p t h
    cases p with
    | nil =>
      exfalso
      revert h
      simp
    | cons c p => simp
  have h4 : ':' ∉ ([] : List Char) := List.not_mem_nil _
  have h5 : '"' ∉ " ".toList := by decide
  have h6 : '"' ∉ "Eco+".toList := by decide
  have h7 : 4 ≤ "Eco+".toList.length := by decide
  exact ⟨h1, h2, h3, h4, h5, h6, h7,
    (C20_mode_too_long_untouched (fixed_body "\x7b\"mode\": \"Eco+\"\x7d".toList)
      ['O', 'f', 'f', NUL] 4 ⟨(), []⟩ "\x7b".toList [] " ".toList "Eco+".toList "\x7d".toList
      h1 h2 h3 h4 h5 h6 h7).2⟩

/-- On a NUL-free response `parse_op_mod` either leaves the buffer as it was or
writes a text shorter than the capacity and its terminator at the start of the
buffer. -/
theorem parse_op_mod_writes (buf opMod : List Char) (k : Nat) (hbuf : ∀ c ∈ buf, c ≠ NUL) :
    parse_op_mod buf opMod k = opMod ∨
      ∃ s, s.length < k ∧ parse_op_mod buf opMod k = s ++ NUL :: opMod.drop (s.length + 1) := by
  unfold parse_op_mod
  cases h1 : strstr "\"mode\"".toList buf with
  | none => exact Or.inl rfl
  | some p1 =>
    cases h2 : strchr ':' p1 with
    | none =>
      left
      simp only [h2]
    | some p2 =>
      cases h3 : strchr '"' p2 with
      | none =>
        left
        simp only [h2, h3]
      | some p3 =>
        cases h4 : strchr '"' (p3.drop 1) with
        | none =>
          left
          simp only [h2, h3, h4]
        | some e =>
          have s1 := strstr_suffix _ _ _ h1
          have s2 := strchr_suffix _ _ _ h2
          have s3 := strchr_suffix _ _ _ h3
          have hp : ∀ c ∈ p3.drop 1, c ≠ NUL := fun c hc =>
            hbuf c (s1.subset (s2.subset (s3.subset (List.mem_of_mem_drop hc))))
          have hle : (p3.drop 1).length - e.length ≤ (p3.drop 1).length := Nat.sub_le _ _
          have hl : (List.take ((p3.drop 1).length - e.length) (p3.drop 1)).length
              = (p3.drop 1).length - e.length := by
            rw [List.length_take]
            exact Nat.min_eq_left hle
          simp only [h2, h3, h4]
          by_cases hk : (((p3.drop 1).length - e.length : Nat) : Int) < toInt32 k
          · right
            have hk2 : (p3.drop 1).length - e.length < k := by
              have := toInt32_le k
              omega
            refine ⟨List.take ((p3.drop 1).length - e.length) (p3.drop 1), by rw [hl]; exact hk2, ?_⟩
            rw [if_pos hk]
            have hsplit : List.take ((p3.drop 1).length - e.length) (p3.drop 1)
                ++ List.drop ((p3.drop 1).length - e.length) (p3.drop 1) = p3.drop 1 :=
              List.take_append_drop _ _
            have := setByte_strncpy_eq opMod
              (List.take ((p3.drop 1).length - e.length) (p3.drop 1))
              (List.drop ((p3.drop 1).length - e.length) (p3.drop 1))
              (by rw [hsplit]; exact hp)
            rw [hsplit, hl] at this
            rw [hl]
            exact this
          · left
            rw [if_neg hk]

/-- Claim C21: mode extraction respects the buffer capacity. For every transport
answer, every content of the output buffer and every capacity of at least one,
`http_rest_with_url_get_op_mod` either leaves the buffer as it was or writes a
string of at most `capacity - 1` characters followed by the terminator, at the
start of the buffer: at most `capacity` bytes are written, the terminator sits
at an index below the capacity, and the bytes from the index `capacity` on are
those the buffer had. -/
theorem C21_mode_capacity {σ : Type} (T : Transport σ) (opMod : List Char) (k : Nat)
    (n : Net σ) (hk : 1 ≤ k) :
    ((http_rest_with_url_get_op_mod T opMod k n).1 = opMod ∨
      ∃ s, s.length ≤ k - 1 ∧ s.length + 1 ≤ k ∧
        (http_rest_with_url_get_op_mod T opMod k n).1 = s ++ NUL :: opMod.drop (s.length + 1) ∧
        ((http_rest_with_url_get_op_mod T opMod k n).1.drop s.length).head? = some NUL) ∧
    (http_rest_with_url_get_op_mod T opMod k n).1.drop k = opMod.drop k := by
  have hcases : (http_rest_with_url_get_op_mod T opMod k n).1 = opMod ∨
      ∃ s, s.length < k ∧
        (http_rest_with_url_get_op_mod T opMod k n).1 = s ++ NUL :: opMod.drop (s.length + 1) := by
    unfold http_rest_with_url_get_op_mod
    cases hc : T.client_init n.dev with
    | mk b d =>
      cases b with
      | false =>
        right
        exact ⟨[], hk, rfl⟩
      | true =>
        exact parse_op_mod_writes _ opMod k (cstr_ne_nul _)
  rcases hcases with h | ⟨s, hs, h⟩
  · exact ⟨Or.inl h, by rw [h]⟩
  · refine ⟨Or.inr ⟨s, by omega, by omega, h, ?_⟩, ?_⟩
    · rw [h]
      simp
    · rw [h]
      have e : k = s.length + (k - s.length) := by omega
      rw [e, ← List.drop_drop, List.drop_left']
      · cases hkk : k - s.length with
        | zero => omega
        | succ m =>
          simp only [List.drop_succ_cons, List.drop_drop]
          congr 1
          omega
      · rfl

/-- Claim C21 with the capacity `64`, the body `{"mode": "Control individually"}`
and a buffer of 64 bytes that holds "Weekly program": the buffer still has 64
bytes and holds the 20 characters of the mode, terminated at the index `20`. -/
theorem C21_mode_capacity_witness :
    1 ≤ 64 ∧
    (http_rest_with_url_get_op_mod
        (fixed_body "\x7b\"mode\": \"Control individually\"\x7d".toList)
        ("Weekly program".toList ++ List.replicate 50 NUL) 64 ⟨(), []⟩).1.drop 64
      = ("Weekly program".toList ++ List.replicate 50 NUL).drop 64 ∧
    (http_rest_with_url_get_op_mod
        (fixed_body "\x7b\"mode\": \"Control individually\"\x7d".toList)
        ("Weekly program".toList ++ List.replicate 50 NUL) 64 ⟨(), []⟩).1
      = "Control individually".toList ++ List.replicate 44 NUL :=
  ⟨by decide,
    (C21_mode_capacity (fixed_body "\x7b\"mode\": \"Control individually\"\x7d".toList)
      ("Weekly program".toList ++ List.replicate 50 NUL) 64 ⟨(), []⟩ (by decide)).2,
    by decide⟩

set_option maxRecDepth 100000 in
/-- The facts about the decimal digits of an 8-bit value that are checked value
by value: the body built for it, its digits and what the scanner reads back. -/
theorem post_set_temp_data_facts : ∀ v, v < 256 →
    post_set_temp_data v
        = "\x7b\"type\":\"Normal\",\"value\":".toList ++ (Nat.repr v).toList ++ "\x7d".toList ∧
      ("\x7b\"type\":\"Normal\",\"value\":".toList ++ printf_u v ++ "\x7d".toList).length < 128 ∧
      printf_u v = (Nat.repr v).toList ∧
      printf_u v ≠ [] ∧
      (printf_u v).all isdigit = true ∧
      digitsValue (printf_u v) = v ∧
      ((printf_u v).head? = some '0' → v = 0) ∧
      parse_set_temp (post_set_temp_data v) = v ∧
      parse_set_temp (local_response_buffer (post_set_temp_data v)) = v := by
  decide

/-- The setpoint POST when the client is created: the request handed to the
transport. -/
theorem post_set_temp_of_client {σ : Type} (T : Transport σ) (v : Nat) (n : Net σ)
    (h : (T.client_init n.dev).1 = true) :
    http_rest_with_url_post_set_temp T v n =
      ⟨(T.perform ⟨Method.POST, "/set-temperature".toList, post_set_temp_data v⟩
          (T.client_init n.dev).2).2, n.log ++ [Event.post_set_temp v]⟩ := by
  unfold http_rest_with_url_post_set_temp
  cases hc : T.client_init n.dev with
  | mk b d =>
    rw [hc] at h
    simp only at h
    subst h
    rfl

/-- Claim C22: for every 8-bit unsigned value `v`, when the client is created,
the request that `http_rest_with_url_post_set_temp v` hands to the transport is
a POST to `/set-temperature` whose body is exactly `{"type":"Normal","value":D}`
with `D` the decimal representation of `v`: a non-empty run of digits of value
`v` that starts with `0` only for `v = 0`. The text with its terminator fits
the 128 bytes of `post_data`, so nothing is cut. -/
theorem C22_post_set_temp_body {σ : Type} (T : Transport σ) (n : Net σ) (v : Nat)
    (hv : v < 256) (hinit : (T.client_init n.dev).1 = true) :
    http_rest_with_url_post_set_temp T v n =
      ⟨(T.perform ⟨Method.POST, "/set-temperature".toList,
          "\x7b\"type\":\"Normal\",\"value\":".toList ++ (Nat.repr v).toList ++ "\x7d".toList⟩
          (T.client_init n.dev).2).2, n.log ++ [Event.post_set_temp v]⟩ ∧
    (Nat.repr v).toList ≠ [] ∧
    (∀ c ∈ (Nat.repr v).toList, isdigit c = true) ∧
    digitsValue (Nat.repr v).toList = v ∧
    ((Nat.repr v).toList.head? = some '0' → v = 0) ∧
    ("\x7b\"type\":\"Normal\",\"value\":".toList ++ (Nat.repr v).toList
      ++ "\x7d".toList).length + 1 ≤ 128 := by
  obtain ⟨f1, f2, f3, f4, f5, f6, f7, -, -⟩ := post_set_temp_data_facts v hv
  rw [← f3]
  refine ⟨?_, f4, ?_, f6, f7, f2⟩
  · rw [post_set_temp_of_client T v n hinit, f1, f3]
  · intro c hc
    exact List.all_eq_true.mp f5 c hc

/-- Claim C22 for the heating setpoint `25` on the recording transport: the
device has seen the body `{"type":"Normal","value":25}`. -/
theorem C22_post_set_temp_body_witness :
    25 < 256 ∧ (recording.client_init (⟨[], []⟩ : Net (List (List Char))).dev).1 = true ∧
    (http_rest_with_url_post_set_temp recording 25 ⟨[], []⟩).dev
      = ["\x7b\"type\":\"Normal\",\"value\":25\x7d".toList] := by
  have h1 : 25 < 256 := by decide
  have h2 : (recording.client_init (⟨[], []⟩ : Net (List (List Char))).dev).1 = true := rfl
  have w := (C22_post_set_temp_body recording ⟨[], []⟩ 25 h1 h2).1
  refine ⟨h1, h2, ?_⟩
  rw [w]
  decide

/-- Claim C26: the setpoint wire format goes through the client's own scanner.
For every 8-bit unsigned `v`, the extraction of the `"value"` field of
`http_rest_with_url_get_set_temp`, applied to the body built by
`http_rest_with_url_post_set_temp v` (directly, or once it has gone through the
response buffer), returns `v`: the field `"type":"Normal"` in front does not
disturb the search for the key. -/
theorem C26_setpoint_roundtrip (v : Nat) (hv : v < 256) :
    parse_set_temp (post_set_temp_data v) = v ∧
    parse_set_temp (local_response_buffer (post_set_temp_data v)) = v :=
  ⟨(post_set_temp_data_facts v hv).2.2.2.2.2.2.2.1, (post_set_temp_data_facts v hv).2.2.2.2.2.2.2.2⟩

/-- Claim C26 for the value `25`: the body answered by a device is the one the
client would post, and the setpoint read returns `25`. -/
theorem C26_setpoint_roundtrip_witness :
    25 < 256 ∧ parse_set_temp (post_set_temp_data 25) = 25 ∧
    (http_rest_with_url_get_set_temp (fixed_body (post_set_temp_data 25)) ⟨(), []⟩).1 = 25 :=
  ⟨by decide, (C26_setpoint_roundtrip 25 (by decide)).1, (C26_setpoint_roundtrip 25 (by decide)).2⟩

/-- Claim C25: in every control cycle in Debug, whatever the transport does and
whatever the mailbox holds, the calls of the cycle are, in this order, a
control-status fetch, the POST of the mode "Control individually", a
control-status fetch, the POST of the setpoint `25` and a control-status fetch:
no mode read and no setpoint read, a control-status fetch first and last, and
in between the mode POST once and then the setpoint POST once. -/
theorem C25_debug_cycle {σ : Type} (T : Transport σ) (cfg : Config) (opMod : List Char)
    (tSet : Nat) (queue : Option ℚ) (dev : σ) :
    (http_test_task_mod_cycle T cfg ⟨HEATG_CTRL_ST_DEBUG, opMod, tSet⟩ queue dev).net.log =
      [Event.get_ctrl_sts, Event.post_op_mode "Control individually".toList,
        Event.get_ctrl_sts, Event.post_set_temp 25, Event.get_ctrl_sts] ∧
    Event.get_op_mod ∉
      (http_test_task_mod_cycle T cfg ⟨HEATG_CTRL_ST_DEBUG, opMod, tSet⟩ queue dev).net.log ∧
    Event.get_set_temp ∉
      (http_test_task_mod_cycle T cfg ⟨HEATG_CTRL_ST_DEBUG, opMod, tSet⟩ queue dev).net.log ∧
    (http_test_task_mod_cycle T cfg ⟨HEATG_CTRL_ST_DEBUG, opMod, tSet⟩ queue dev).net.log.head?
      = some Event.get_ctrl_sts ∧
    (http_test_task_mod_cycle T cfg ⟨HEATG_CTRL_ST_DEBUG, opMod, tSet⟩ queue
      dev).net.log.getLast? = some Event.get_ctrl_sts ∧
    (http_test_task_mod_cycle T cfg ⟨HEATG_CTRL_ST_DEBUG, opMod, tSet⟩ queue
      dev).net.log.filter Event.isPost =
      [Event.post_op_mode "Control individually".toList, Event.post_set_temp 25] := by
  have h : (http_test_task_mod_cycle T cfg ⟨HEATG_CTRL_ST_DEBUG, opMod, tSet⟩ queue
      dev).net.log =
      [Event.get_ctrl_sts, Event.post_op_mode "Control individually".toList,
        Event.get_ctrl_sts, Event.post_set_temp 25, Event.get_ctrl_sts] := by
    simp only [http_test_task_mod_cycle, get_ctrl_sts_log, post_op_mode_log, post_set_temp_log,
      List.nil_append, List.cons_append]
  rw [h]
  refine ⟨rfl, by simp, by simp, rfl, rfl, rfl⟩

/-- Claim C27: the sensed temperature is held in an unsigned 8-bit variable. For
every sample `t` with the rounded value `r = roundint8f t`, the value of `tSnsr`
is `r + 256` when `r` is negative and `r` itself otherwise; it lies in
`[0, 255]` for every content of the mailbox, and it is this value that the
transition steps of Idle and Heating compare with the two thresholds. -/
theorem C27_sensed_unsigned {σ : Type} (T : Transport σ) (cfg : Config) (opMod : List Char)
    (tSet : Nat) (t : ℚ) (queue : Option ℚ) (dev : σ) :
    tSnsr_of (xQueueReceive (some t)).1
      = (if roundint8f t < 0 then roundint8f t + 256 else roundint8f t) ∧
    (0 ≤ tSnsr_of (xQueueReceive queue).1 ∧ tSnsr_of (xQueueReceive queue).1 ≤ 255) ∧
    (http_test_task_mod_cycle T cfg ⟨HEATG_CTRL_ST_IDLE, opMod, tSet⟩ queue
      dev).task.heatgCtrlSt =
      (if 0 = cfg.CONFIG_ENA_REMOTE_CTRL then HEATG_CTRL_ST_OFF
       else if tSnsr_of (xQueueReceive queue).1 < cfg.CONFIG_T_THRES_LOWR
         then HEATG_CTRL_ST_HEATING
       else HEATG_CTRL_ST_IDLE) ∧
    (http_test_task_mod_cycle T cfg ⟨HEATG_CTRL_ST_HEATING, opMod, tSet⟩ queue
      dev).task.heatgCtrlSt =
      (if 0 = cfg.CONFIG_ENA_REMOTE_CTRL then HEATG_CTRL_ST_OFF
       else if tSnsr_of (xQueueReceive queue).1 > cfg.CONFIG_T_THRES_UPPR
         then HEATG_CTRL_ST_IDLE
       else HEATG_CTRL_ST_HEATING) := by
  have hr : -128 ≤ roundint8f t ∧ roundint8f t ≤ 127 := toInt8_range _
  refine ⟨?_, ?_, rfl, rfl⟩
  · show toUInt8 (roundint8f t) = _
    generalize roundint8f t = r at hr ⊢
    unfold toUInt8
    split_ifs <;> omega
  · cases queue with
    | none => exact ⟨le_refl _, by decide⟩
    | some x =>
      show 0 ≤ toUInt8 (roundint8f x) ∧ toUInt8 (roundint8f x) ≤ 255
      unfold toUInt8
      omega

/-- Claim C30: the next control state does not depend on the remote. Two control
cycles that start in the same control state under the same configuration and
sense the same temperature end in the same control state, whatever the two
transports answer and whatever the mode buffer and `tSet` hold. -/
theorem C30_next_state_noninterference {σ₁ σ₂ : Type} (T₁ : Transport σ₁) (T₂ : Transport σ₂)
    (cfg : Config) (S : tHeatgCtrlSt) (opMod₁ opMod₂ : List Char) (tSet₁ tSet₂ : Nat)
    (queue₁ queue₂ : Option ℚ) (dev₁ : σ₁) (dev₂ : σ₂)
    (hsens : tSnsr_of (xQueueReceive queue₁).1 = tSnsr_of (xQueueReceive queue₂).1) :
    (http_test_task_mod_cycle T₁ cfg ⟨S, opMod₁, tSet₁⟩ queue₁ dev₁).task.heatgCtrlSt =
      (http_test_task_mod_cycle T₂ cfg ⟨S, opMod₂, tSet₂⟩ queue₂ dev₂).task.heatgCtrlSt := by
  cases S
  · simp only [http_test_task_mod_cycle]
    split_ifs <;> rfl
  all_goals simp only [http_test_task_mod_cycle, hsens]

/-- Claim C30 in Idle with the sample `17`: a remote that answers and a
transport whose client cannot be created lead to the same next state. -/
theorem C30_next_state_noninterference_witness :
    tSnsr_of (xQueueReceive (some 17)).1 = tSnsr_of (xQueueReceive (some 17)).1 ∧
    (http_test_task_mod_cycle Remote.transport ⟨0, 1, 18, 22⟩
        ⟨HEATG_CTRL_ST_IDLE, List.replicate 64 NUL, 0⟩ (some 17)
        ⟨"Weekly program".toList, 20⟩).task.heatgCtrlSt =
      (http_test_task_mod_cycle no_client ⟨0, 1, 18, 22⟩
        ⟨HEATG_CTRL_ST_IDLE, "Control individually".toList, 15⟩ (some 17) ()).task.heatgCtrlSt :=
  ⟨rfl, C30_next_state_noninterference Remote.transport no_client ⟨0, 1, 18, 22⟩
    HEATG_CTRL_ST_IDLE _ _ 0 15 (some 17) (some 17) _ () rfl⟩

/-- The claim C23 as stated fails: in the parsed batch made of a valid sample
with the raw value `215` followed by an invalid sample, the last valid sample
is the first one, yet the value published is `0` and not `21.5`. -/
theorem C23_counterexample :
    ([(⟨0, 3, 215, true⟩ : adc_continuous_data_t), ⟨0, 3, 0, false⟩].filter
      (fun d => d.valid)).getLast?.map (fun d => d.raw_data) = some 215 ∧
    adc_read_pass (AdcBatch.parsed [⟨0, 3, 215, true⟩, ⟨0, 3, 0, false⟩]) none
      = some (some 0) ∧
    (0 : ℚ) ≠ (215 : ℚ) * (1 / 10 : ℚ) := by
  refine ⟨rfl, rfl, by norm_num⟩

/-- Claim C23, amended: sample selection in `adc_read`. For every successfully
parsed batch, only the final sample is looked at: when it is valid, the value
published to the mailbox is its raw value times `0.1`, and it is then the last
valid sample of the batch in acquisition order; when it is invalid, `0` is
published, whatever the samples before it are. -/
theorem C23_final_sample_published (earlier : List adc_continuous_data_t)
    (last : adc_continuous_data_t) (queue : Option ℚ) :
    adc_read_pass (AdcBatch.parsed (earlier ++ [last])) queue
      = some (some (if last.valid then (last.raw_data : ℚ) * (1 / 10 : ℚ) else 0)) ∧
    (last.valid = true →
      ((earlier ++ [last]).filter (fun d => d.valid)).getLast? = some last) := by
  constructor
  · have e : (earlier ++ [last]).getLast? = some last := by simp
    unfold adc_read_pass
    simp only [e]
    rfl
  · intro h
    rw [List.filter_append]
    simp [List.filter_cons, h]

/-- The claim C24 as stated fails: the mailbox holds the unread sample `21`; a
batch whose only sample is invalid, and likewise a batch whose parsing fails,
replaces it by `0`, and the consumer then senses `0`. -/
theorem C24_counterexample :
    adc_read_pass (AdcBatch.parsed [⟨0, 3, 0, false⟩]) (some 21) = some (some 0) ∧
    adc_read_pass AdcBatch.parse_failed (some 21) = some (some 0) ∧
    (some (some (0 : ℚ)) : Option (Option ℚ)) ≠ some (some 21) ∧
    tSnsr_of (xQueueReceive (some 0)).1 = 0 ∧ tSnsr_of (xQueueReceive (some 21)).1 = 21 := by
  have h0 : roundint8f 0 = 0 := by
    have := roundint8f_intCast 0 (by decide) (by decide)
    simpa [toInt8] using this
  have h21 : roundint8f 21 = 21 := by
    have := roundint8f_intCast 21 (by decide) (by decide)
    simpa [toInt8] using this
  refine ⟨rfl, rfl, by norm_num, ?_, ?_⟩
  · show toUInt8 (roundint8f 0) = 0
    rw [h0]
    rfl
  · show toUInt8 (roundint8f 21) = 21
    rw [h21]
    rfl

/-- Claim C24, amended: `adc_read` publishes on every batch it has read. For
every parsed batch whose final sample is invalid, in particular when every
sample of a non-empty batch is invalid, and likewise when parsing fails, the
value `0` is published and replaces what the mailbox held; the mailbox is left
as it was only when the read itself times out or fails. -/
theorem C24_zero_published (earlier : List adc_continuous_data_t) (unit channel raw_data : Nat)
    (queue : Option ℚ) :
    adc_read_pass (AdcBatch.parsed (earlier ++ [⟨unit, channel, raw_data, false⟩])) queue
      = some (some 0) ∧
    adc_read_pass AdcBatch.parse_failed queue = some (some 0) ∧
    adc_read_pass AdcBatch.timeout queue = some queue ∧
    adc_read_pass AdcBatch.read_failed queue = some queue := by
  refine ⟨?_, rfl, rfl, rfl⟩
  have e : (earlier ++ [(⟨unit, channel, raw_data, false⟩ : adc_continuous_data_t)]).getLast?
      = some ⟨unit, channel, raw_data, false⟩ := by simp
  unfold adc_read_pass
  simp only [e]
  rfl

/-- A control cycle that starts in Off, Idle or Heating ends in one of them. -/
theorem cycle_working_states {σ : Type} (T : Transport σ) (cfg : Config) (s : TaskState)
    (queue : Option ℚ) (dev : σ)
    (h : s.heatgCtrlSt = HEATG_CTRL_ST_OFF ∨ s.heatgCtrlSt = HEATG_CTRL_ST_IDLE ∨
      s.heatgCtrlSt = HEATG_CTRL_ST_HEATING) :
    (http_test_task_mod_cycle T cfg s queue dev).task.heatgCtrlSt = HEATG_CTRL_ST_OFF ∨
    (http_test_task_mod_cycle T cfg s queue dev).task.heatgCtrlSt = HEATG_CTRL_ST_IDLE ∨
    (http_test_task_mod_cycle T cfg s queue dev).task.heatgCtrlSt = HEATG_CTRL_ST_HEATING := by
  obtain ⟨st, opMod, tSet⟩ := s
  simp only at h
  rcases h with h | h | h <;> subst h <;> simp only [http_test_task_mod_cycle] <;>
    split_ifs <;> simp

/-- A control cycle that starts in Debug ends in Debug. -/
theorem cycle_debug_state {σ : Type} (T : Transport σ) (cfg : Config) (s : TaskState)
    (queue : Option ℚ) (dev : σ) (h : s.heatgCtrlSt = HEATG_CTRL_ST_DEBUG) :
    (http_test_task_mod_cycle T cfg s queue dev).task.heatgCtrlSt = HEATG_CTRL_ST_DEBUG := by
  obtain ⟨st, opMod, tSet⟩ := s
  simp only at h
  subst h
  rfl

/-- A run that starts in Off, Idle or Heating ends in one of them. -/
theorem run_working_states {σ : Type} (T : Transport σ) (cfg : Config) :
    ∀ (queues : List (Option ℚ)) (s : TaskState) (dev : σ),
    (s.heatgCtrlSt = HEATG_CTRL_ST_OFF ∨ s.heatgCtrlSt = HEATG_CTRL_ST_IDLE ∨
      s.heatgCtrlSt = HEATG_CTRL_ST_HEATING) →
    ((http_test_task_mod_run T cfg s dev queues).1.heatgCtrlSt = HEATG_CTRL_ST_OFF ∨
    (http_test_task_mod_run T cfg s dev queues).1.heatgCtrlSt = HEATG_CTRL_ST_IDLE ∨
    (http_test_task_mod_run T cfg s dev queues).1.heatgCtrlSt = HEATG_CTRL_ST_HEATING) := by
  intro queues
  induction queues with
  | nil =>
    intro s dev h
    exact h
  | cons q rest ih =>
    intro s dev h
    exact ih _ _ (cycle_working_states T cfg s q dev h)

/-- A run that starts in Debug ends in Debug. -/
theorem run_debug_state {σ : Type} (T : Transport σ) (cfg : Config) :
    ∀ (queues : List (Option ℚ)) (s : TaskState) (dev : σ),
    s.heatgCtrlSt = HEATG_CTRL_ST_DEBUG →
    (http_test_task_mod_run T cfg s dev queues).1.heatgCtrlSt = HEATG_CTRL_ST_DEBUG := by
  intro queues
  induction queues with
  | nil =>
    intro s dev h
    exact h
  | cons q rest ih =>
    intro s dev h
    exact ih _ _ (cycle_debug_state T cfg s q dev h)

/-- The control state after a run from Init: Init before the first cycle, then
Off, Idle or Heating when the debug flag is `0` and Debug when it is not. -/
theorem run_from_init {σ : Type} (T : Transport σ) (cfg : Config) (opMod : List Char)
    (tSet : Nat) (dev : σ) (queues : List (Option ℚ)) :
    (queues = [] ∧
      (http_test_task_mod_run T cfg ⟨HEATG_CTRL_ST_INIT, opMod, tSet⟩ dev queues).1.heatgCtrlSt
        = HEATG_CTRL_ST_INIT) ∨
    (queues ≠ [] ∧ cfg.CONFIG_ENA_REMOTE_CTRL_DEBUG = 0 ∧
      ((http_test_task_mod_run T cfg ⟨HEATG_CTRL_ST_INIT, opMod, tSet⟩ dev queues).1.heatgCtrlSt
          = HEATG_CTRL_ST_OFF ∨
        (http_test_task_mod_run T cfg ⟨HEATG_CTRL_ST_INIT, opMod, tSet⟩ dev
          queues).1.heatgCtrlSt = HEATG_CTRL_ST_IDLE ∨
        (http_test_task_mod_run T cfg ⟨HEATG_CTRL_ST_INIT, opMod, tSet⟩ dev
          queues).1.heatgCtrlSt = HEATG_CTRL_ST_HEATING)) ∨
    (queues ≠ [] ∧ cfg.CONFIG_ENA_REMOTE_CTRL_DEBUG ≠ 0 ∧
      (http_test_task_mod_run T cfg ⟨HEATG_CTRL_ST_INIT, opMod, tSet⟩ dev queues).1.heatgCtrlSt
        = HEATG_CTRL_ST_DEBUG) := by
  cases queues with
  | nil => exact Or.inl ⟨rfl, rfl⟩
  | cons q rest =>
    right
    by_cases hd : cfg.CONFIG_ENA_REMOTE_CTRL_DEBUG = 0
    · left
      refine ⟨List.cons_ne_nil _ _, hd, ?_⟩
      exact run_working_states T cfg rest
        (http_test_task_mod_cycle T cfg ⟨HEATG_CTRL_ST_INIT, opMod, tSet⟩ q dev).task
        (http_test_task_mod_cycle T cfg ⟨HEATG_CTRL_ST_INIT, opMod, tSet⟩ q dev).net.dev
        (Or.inl (by simp [http_test_task_mod_cycle, hd]))
    · right
      refine ⟨List.cons_ne_nil _ _, hd, ?_⟩
      exact run_debug_state T cfg rest
        (http_test_task_mod_cycle T cfg ⟨HEATG_CTRL_ST_INIT, opMod, tSet⟩ q dev).task
        (http_test_task_mod_cycle T cfg ⟨HEATG_CTRL_ST_INIT, opMod, tSet⟩ q dev).net.dev
        (by simp [http_test_task_mod_cycle, hd, Ne.symm hd])

/-- Claim C28: the control states reachable from Init. For every transport,
every sequence of mailbox contents and every number of cycles, the control
state after a run started in Init is never Error; when the debug flag is `0`
it is one of Init, Off, Idle and Heating, when the flag is not `0` it is Init
or Debug; and after at least one cycle it is not Init. -/
theorem C28_reachable_states {σ : Type} (T : Transport σ) (cfg : Config) (opMod : List Char)
    (tSet : Nat) (dev : σ) (queues : List (Option ℚ)) :
    (http_test_task_mod_run T cfg ⟨HEATG_CTRL_ST_INIT, opMod, tSet⟩ dev queues).1.heatgCtrlSt
      ≠ HEATG_CTRL_ST_ERROR ∧
    (cfg.CONFIG_ENA_REMOTE_CTRL_DEBUG = 0 →
      (http_test_task_mod_run T cfg ⟨HEATG_CTRL_ST_INIT, opMod, tSet⟩ dev queues).1.heatgCtrlSt
        ∈ [HEATG_CTRL_ST_INIT, HEATG_CTRL_ST_OFF, HEATG_CTRL_ST_IDLE, HEATG_CTRL_ST_HEATING]) ∧
    (cfg.CONFIG_ENA_REMOTE_CTRL_DEBUG ≠ 0 →
      (http_test_task_mod_run T cfg ⟨HEATG_CTRL_ST_INIT, opMod, tSet⟩ dev queues).1.heatgCtrlSt
        ∈ [HEATG_CTRL_ST_INIT, HEATG_CTRL_ST_DEBUG]) ∧
    (queues ≠ [] →
      (http_test_task_mod_run T cfg ⟨HEATG_CTRL_ST_INIT, opMod, tSet⟩ dev queues).1.heatgCtrlSt
        ≠ HEATG_CTRL_ST_INIT) := by
  have h := run_from_init T cfg opMod tSet dev queues
  generalize (http_test_task_mod_run T cfg ⟨HEATG_CTRL_ST_INIT, opMod, tSet⟩ dev
    queues).1.heatgCtrlSt = st at h ⊢
  rcases h with ⟨hq, h⟩ | ⟨hq, hd, h | h | h⟩ | ⟨hq, hd, h⟩ <;> subst h <;>
    refine ⟨by decide, ?_, ?_, ?_⟩ <;> intro h' <;> simp_all

/-- On a response that holds no usable mode `parse_op_mod` writes nothing. -/
theorem parse_op_mod_of_mismatch (buf opMod : List Char) (k : Nat) (h : ModeMismatch buf k) :
    parse_op_mod buf opMod k = opMod := by
  have hkey : ∀ l, ':' ∉ l → ':' ∉ "\"mode\"".toList ++ l := by
    intro l hl h
    rcases List.mem_append.mp h with h | h
    · revert h
      decide
    · exact hl h
  have hcol : ∀ l, '"' ∉ l → '"' ∉ ':' :: l := by
    intro l hl h
    rcases List.mem_cons.mp h with h | h
    · revert h
      decide
    · exact hl h
  rcases h with h | ⟨pre, post, rfl, hfirst, hpost⟩ | ⟨pre, mid, tail, rfl, hfirst, hmid, htail⟩ |
    ⟨pre, mid, gap, tail, rfl, hfirst, hmid, hgap, htail⟩ |
    ⟨pre, mid, gap, s, rest, rfl, hfirst, hmid, hgap, hs, hlen⟩
  · unfold parse_op_mod
    rw [strstr_none _ buf h]
  · unfold parse_op_mod
    rw [strstr_first _ pre post hfirst]
    simp only [strchr_none ':' _ (hkey post hpost)]
  · unfold parse_op_mod
    rw [strstr_first _ pre _ hfirst]
    have e : "\"mode\"".toList ++ (mid ++ ':' :: tail)
        = ("\"mode\"".toList ++ mid) ++ ':' :: tail := by
      rw [List.append_assoc]
    simp only [e, strchr_first ':' _ tail (hkey mid hmid)]
    simp only [strchr_none '"' _ (hcol tail htail)]
  · unfold parse_op_mod
    rw [strstr_first _ pre _ hfirst]
    have e : "\"mode\"".toList ++ (mid ++ ':' :: (gap ++ '"' :: tail))
        = ("\"mode\"".toList ++ mid) ++ ':' :: (gap ++ '"' :: tail) := by
      rw [List.append_assoc]
    have e2 : ':' :: (gap ++ '"' :: tail) = (':' :: gap) ++ '"' :: tail := rfl
    simp only [e, strchr_first ':' _ _ (hkey mid hmid)]
    simp only [e2, strchr_first '"' _ tail (hcol gap hgap), List.drop_succ_cons, List.drop_zero,
      strchr_none '"' tail htail]
  · rw [parse_op_mod_quoted pre mid gap s rest opMod k hfirst hmid hgap hs,
      if_neg (not_lt_toInt32 _ _ hlen)]

/-- The claim C29 as stated fails: in Off, a first cycle fetches "Weekly
program" (the desired mode, so nothing is posted), in a second cycle the client
of the mode fetch cannot be created, which empties the buffer, and in a third
cycle the fetched body `{}` has no key `"mode"`. The most recent successful
fetch obtained the desired mode, yet the third cycle posts the mode: the
decision is made against the empty buffer. -/
theorem C29_counterexample :
    (http_test_task_mod_cycle scripted ⟨0, 0, 18, 22⟩
      ⟨HEATG_CTRL_ST_OFF, List.replicate 64 NUL, 0⟩ none
      [some "\x7b\"mode\": \"Weekly program\"\x7d".toList, none, some [],
        some "\x7b\x7d".toList, some []]).net.log = [Event.get_op_mod] ∧
    cstr (http_test_task_mod_run scripted ⟨0, 0, 18, 22⟩
      ⟨HEATG_CTRL_ST_OFF, List.replicate 64 NUL, 0⟩
      [some "\x7b\"mode\": \"Weekly program\"\x7d".toList, none, some [],
        some "\x7b\x7d".toList, some []] [none]).1.opMod = "Weekly program".toList ∧
    (http_test_task_mod_run scripted ⟨0, 0, 18, 22⟩
      ⟨HEATG_CTRL_ST_OFF, List.replicate 64 NUL, 0⟩
      [some "\x7b\"mode\": \"Weekly program\"\x7d".toList, none, some [],
        some "\x7b\x7d".toList, some []] [none, none]).1.heatgCtrlSt = HEATG_CTRL_ST_OFF ∧
    cstr (http_test_task_mod_run scripted ⟨0, 0, 18, 22⟩
      ⟨HEATG_CTRL_ST_OFF, List.replicate 64 NUL, 0⟩
      [some "\x7b\"mode\": \"Weekly program\"\x7d".toList, none, some [],
        some "\x7b\x7d".toList, some []] [none, none]).1.opMod = [] ∧
    (http_test_task_mod_run scripted ⟨0, 0, 18, 22⟩
      ⟨HEATG_CTRL_ST_OFF, List.replicate 64 NUL, 0⟩
      [some "\x7b\"mode\": \"Weekly program\"\x7d".toList, none, some [],
        some "\x7b\x7d".toList, some []] [none, none]).2
      = [some "\x7b\x7d".toList, some []] ∧
    (http_test_task_mod_cycle scripted ⟨0, 0, 18, 22⟩
      (http_test_task_mod_run scripted ⟨0, 0, 18, 22⟩
        ⟨HEATG_CTRL_ST_OFF, List.replicate 64 NUL, 0⟩
        [some "\x7b\"mode\": \"Weekly program\"\x7d".toList, none, some [],
          some "\x7b\x7d".toList, some []] [none, none]).1
      none
      (http_test_task_mod_run scripted ⟨0, 0, 18, 22⟩
        ⟨HEATG_CTRL_ST_OFF, List.replicate 64 NUL, 0⟩
        [some "\x7b\"mode\": \"Weekly program\"\x7d".toList, none, some [],
          some "\x7b\x7d".toList, some []] [none, none]).2).net.log
      = [Event.get_op_mod, Event.post_op_mode "Weekly program".toList] := by
  refine ⟨by decide, by decide, by decide, by decide, by decide, by decide⟩

/-- The mode fetch of a cycle whose client is created and whose response holds
no usable mode leaves the buffer as it was. -/
theorem get_op_mod_of_mismatch {σ : Type} (T : Transport σ) (opMod : List Char) (n : Net σ)
    (hinit : (T.client_init n.dev).1 = true)
    (hmis : ModeMismatch (local_response_buffer
      (T.perform ⟨Method.GET, "/operation-mode".toList, []⟩ (T.client_init n.dev).2).1) 64) :
    (http_rest_with_url_get_op_mod T opMod 64 n).1 = opMod := by
  rw [get_op_mod_of_client T opMod 64 n hinit, parse_op_mod_of_mismatch _ opMod 64 hmis]

/-- A cycle in Off, Idle or Heating whose mode fetch has its client created
and finds no usable mode: the buffer is left as it was and the mode is posted
exactly when the string in the buffer differs from the desired mode. -/
theorem cycle_of_mismatch {σ : Type} (T : Transport σ) (cfg : Config) (s : TaskState)
    (queue : Option ℚ) (dev : σ)
    (hs : s.heatgCtrlSt = HEATG_CTRL_ST_OFF ∨ s.heatgCtrlSt = HEATG_CTRL_ST_IDLE ∨
      s.heatgCtrlSt = HEATG_CTRL_ST_HEATING)
    (hinit : (T.client_init dev).1 = true)
    (hmis : ModeMismatch (local_response_buffer
      (T.perform ⟨Method.GET, "/operation-mode".toList, []⟩ (T.client_init dev).2).1) 64) :
    (http_test_task_mod_cycle T cfg s queue dev).task.opMod = s.opMod ∧
    (http_test_task_mod_cycle T cfg s queue dev).net.log.filter Event.isPostOpMode =
      if cstr s.opMod = desired_mode s.heatgCtrlSt then []
      else [Event.post_op_mode (desired_mode s.heatgCtrlSt)] := by
  obtain ⟨st, opMod, tSet⟩ := s
  have hg := get_op_mod_of_mismatch T opMod ⟨dev, []⟩ hinit hmis
  simp only at hs ⊢
  rcases hs with h | h | h <;> subst h
  · have ho : (http_test_task_mod_cycle T cfg ⟨HEATG_CTRL_ST_OFF, opMod, tSet⟩ queue
        dev).task.opMod = (http_rest_with_url_get_op_mod T opMod 64 ⟨dev, []⟩).1 := rfl
    rw [ho, cycle_off_log, hg]
    refine ⟨rfl, ?_⟩
    unfold desired_mode
    split_ifs <;> simp [Event.isPostOpMode]
  · have ho : (http_test_task_mod_cycle T cfg ⟨HEATG_CTRL_ST_IDLE, opMod, tSet⟩ queue
        dev).task.opMod = (http_rest_with_url_get_op_mod T opMod 64 ⟨dev, []⟩).1 := rfl
    rw [ho, cycle_idle_log, hg]
    refine ⟨rfl, ?_⟩
    unfold desired_mode
    split_ifs <;> simp [Event.isPostOpMode]
  · have ho : (http_test_task_mod_cycle T cfg ⟨HEATG_CTRL_ST_HEATING, opMod, tSet⟩ queue
        dev).task.opMod = (http_rest_with_url_get_op_mod T opMod 64 ⟨dev, []⟩).1 := rfl
    rw [ho, cycle_heating_log, hg]
    refine ⟨rfl, ?_⟩
    unfold desired_mode
    split_ifs <;> simp [Event.isPostOpMode]

/-- A run of cycles whose mode fetches all find no usable mode, started in Off,
Idle or Heating, leaves the buffer as it was and ends in one of the three
states. -/
theorem run_of_mismatch {σ : Type} (T : Transport σ) (cfg : Config) :
    ∀ (queues : List (Option ℚ)) (s : TaskState) (dev : σ),
    (s.heatgCtrlSt = HEATG_CTRL_ST_OFF ∨ s.heatgCtrlSt = HEATG_CTRL_ST_IDLE ∨
      s.heatgCtrlSt = HEATG_CTRL_ST_HEATING) →
    MismatchRun T cfg s dev queues →
    (http_test_task_mod_run T cfg s dev queues).1.opMod = s.opMod ∧
    ((http_test_task_mod_run T cfg s dev queues).1.heatgCtrlSt = HEATG_CTRL_ST_OFF ∨
      (http_test_task_mod_run T cfg s dev queues).1.heatgCtrlSt = HEATG_CTRL_ST_IDLE ∨
      (http_test_task_mod_run T cfg s dev queues).1.heatgCtrlSt = HEATG_CTRL_ST_HEATING) := by
  intro queues
  induction queues with
  | nil =>
    intro s dev hs _
    exact ⟨rfl, hs⟩
  | cons q rest ih =>
    intro s dev hs hrun
    obtain ⟨⟨hinit, hmis⟩, hrest⟩ := hrun
    have hc := cycle_of_mismatch T cfg s q dev hs hinit hmis
    have := ih _ _ (cycle_working_states T cfg s q dev hs) hrest
    exact ⟨this.1.trans hc.1, this.2⟩

/-- Claim C29, amended: the mode buffer persists across control cycles and is
not cleared before a fetch. Let a task state in Off, Idle or Heating hold in
`opMod` the mode left by a fetch, and let every mode fetch of the cycles run
since then have had its client created and found no usable mode (key, colon or
quote missing, or value too long). When the mode fetch of the next cycle again
has its client created and finds no usable mode, that cycle makes its write
decision against the mode in that buffer: no mode POST when it equals the
desired mode of the current state, exactly one POST of the desired mode
otherwise. -/
theorem C29_stale_mode_decision {σ : Type} (T : Transport σ) (cfg : Config) (s : TaskState)
    (dev : σ) (queues : List (Option ℚ)) (queue : Option ℚ)
    (hs : s.heatgCtrlSt = HEATG_CTRL_ST_OFF ∨ s.heatgCtrlSt = HEATG_CTRL_ST_IDLE ∨
      s.heatgCtrlSt = HEATG_CTRL_ST_HEATING)
    (hrun : MismatchRun T cfg s dev queues)
    (hinit : (T.client_init (http_test_task_mod_run T cfg s dev queues).2).1 = true)
    (hmis : ModeMismatch (local_response_buffer
      (T.perform ⟨Method.GET, "/operation-mode".toList, []⟩
        (T.client_init (http_test_task_mod_run T cfg s dev queues).2).2).1) 64) :
    (http_test_task_mod_run T cfg s dev queues).1.opMod = s.opMod ∧
    (http_test_task_mod_cycle T cfg (http_test_task_mod_run T cfg s dev queues).1 queue
        (http_test_task_mod_run T cfg s dev queues).2).net.log.filter Event.isPostOpMode =
      if cstr s.opMod = desired_mode (http_test_task_mod_run T cfg s dev queues).1.heatgCtrlSt
      then []
      else [Event.post_op_mode
        (desired_mode (http_test_task_mod_run T cfg s dev queues).1.heatgCtrlSt)] := by
  have hr := run_of_mismatch T cfg queues s dev hs hrun
  have hc := cycle_of_mismatch T cfg (http_test_task_mod_run T cfg s dev queues).1 queue
    (http_test_task_mod_run T cfg s dev queues).2 hr.2 hinit hmis
  rw [hr.1] at hc
  exact ⟨hr.1, hc.2⟩

/-- Claim C29 in Idle, for a buffer that holds "Control individually" and a
remote that answers `{}` to every request: after two cycles that find no mode,
the third posts nothing for the mode. -/
theorem C29_stale_mode_decision_witness :
    ((⟨HEATG_CTRL_ST_IDLE, "Control individually".toList ++ List.replicate 44 NUL, 15⟩ :
        TaskState).heatgCtrlSt = HEATG_CTRL_ST_OFF ∨
      (⟨HEATG_CTRL_ST_IDLE, "Control individually".toList ++ List.replicate 44 NUL, 15⟩ :
        TaskState).heatgCtrlSt = HEATG_CTRL_ST_IDLE ∨
      (⟨HEATG_CTRL_ST_IDLE, "Control individually".toList ++ List.replicate 44 NUL, 15⟩ :
        TaskState).heatgCtrlSt = HEATG_CTRL_ST_HEATING) ∧
    MismatchRun (fixed_body "\x7b\x7d".toList) ⟨0, 1, 0, 22⟩
      ⟨HEATG_CTRL_ST_IDLE, "Control individually".toList ++ List.replicate 44 NUL, 15⟩ ()
      [none, none] ∧
    (http_test_task_mod_cycle (fixed_body "\x7b\x7d".toList) ⟨0, 1, 0, 22⟩
        (http_test_task_mod_run (fixed_body "\x7b\x7d".toList) ⟨0, 1, 0, 22⟩
          ⟨HEATG_CTRL_ST_IDLE, "Control individually".toList ++ List.replicate 44 NUL, 15⟩ ()
          [none, none]).1 none
        (http_test_task_mod_run (fixed_body "\x7b\x7d".toList) ⟨0, 1, 0, 22⟩
          ⟨HEATG_CTRL_ST_IDLE, "Control individually".toList ++ List.replicate 44 NUL, 15⟩ ()
          [none, none]).2).net.log.filter Event.isPostOpMode = [] := by
  have hm : ∀ d : Unit, ModeMismatch (local_response_buffer
      ((fixed_body "\x7b\x7d".toList).perform ⟨Method.GET, "/operation-mode".toList, []⟩
        ((fixed_body "\x7b\x7d".toList).client_init d).2).1) 64 := by
    intro d
    left
    intro p t h
    have e : local_response_buffer
      ((fixed_body "\x7b\x7d".toList).perform ⟨Method.GET, "/operation-mode".toList, []⟩
        ((fixed_body "\x7b\x7d".toList).client_init d).2).1 = "\x7b\x7d".toList := rfl
    rw [e] at h
    have := congrArg List.length h
    simp at this
    omega
  have h1 : (⟨HEATG_CTRL_ST_IDLE, "Control individually".toList ++ List.replicate 44 NUL, 15⟩ :
        TaskState).heatgCtrlSt = HEATG_CTRL_ST_OFF ∨
      (⟨HEATG_CTRL_ST_IDLE, "Control individually".toList ++ List.replicate 44 NUL, 15⟩ :
        TaskState).heatgCtrlSt = HEATG_CTRL_ST_IDLE ∨
      (⟨HEATG_CTRL_ST_IDLE, "Control individually".toList ++ List.replicate 44 NUL, 15⟩ :
        TaskState).heatgCtrlSt = HEATG_CTRL_ST_HEATING := Or.inr (Or.inl rfl)
  have h2 : MismatchRun (fixed_body "\x7b\x7d".toList) ⟨0, 1, 0, 22⟩
      ⟨HEATG_CTRL_ST_IDLE, "Control individually".toList ++ List.replicate 44 NUL, 15⟩ ()
      [none, none] := ⟨⟨rfl, hm _⟩, ⟨rfl, hm _⟩, trivial⟩
  have w := (C29_stale_mode_decision (fixed_body "\x7b\x7d".toList) ⟨0, 1, 0, 22⟩
    ⟨HEATG_CTRL_ST_IDLE, "Control individually".toList ++ List.replicate 44 NUL, 15⟩ ()
    [none, none] none h1 h2 rfl (hm _)).2
  refine ⟨h1, h2, ?_⟩
  rw [w]
  decide

end RemoteHeatingCtrl
